import Mathlib

/-!
# ALSA monitor: card/device registry, hotplug dispatch and enumeration cursor

A shallow embedding of `spa/plugins/alsa/alsa-monitor.c`.

* The intrusive `spa_list`s become Lean lists of records.  Every record carries the
  address it was allocated at (`ptr`), which is what the C code compares and stores
  (`device->card`, `this->current`, `spa_list_remove`).
* What the environment answers during one call (libudev, the ALSA control interface,
  `calloc`) is an explicit argument: `card_backend` for one `create_card` call and
  `backend` for one dispatcher wake-up or one `enum_items` call.
* Dereferencing a pointer that is `NULL` or names no live record has no defined
  behaviour in C; the operations that can do so return `Option`, with `none` for
  that case.
-/

namespace AlsaMonitor

/-! ## C library helpers -/

/-- The C library `strrchr`: the part of `s` that starts at the last occurrence of `c`. -/
def strrchr : List Char → Char → Option (List Char)
  | [], _ => none
  | x :: xs, c =>
    match strrchr xs c with
    | some e => some e
    | none => if x = c then some (x :: xs) else none

/-- The C library `isspace` in the "C" locale. -/
def isspace (c : Char) : Bool :=
  c = ' ' || c = '\t' || c = '\n' || c = '\x0b' || c = '\x0c' || c = '\r'

/-- Value of the longest run of decimal digits at the start of `s`, continuing from `acc`. -/
def digits_value : List Char → Nat → Nat
  | [], acc => acc
  | c :: cs, acc => if c.isDigit then digits_value cs (acc * 10 + (c.toNat - 48)) else acc

/-- Conversion of a C `long` to `int` on an LP64 target: keep the low 32 bits, two's complement. -/
def int_of_long (v : Int) : Int :=
  let w := v % 4294967296
  if w < 2147483648 then w else w - 4294967296

/-- The C library `strtol(s, NULL, 10)`: skip white space, read an optional sign and the
decimal digits that follow, and saturate at the range of a 64-bit `long`. -/
def strtol (s : List Char) : Int :=
  let v : Int :=
    match s.dropWhile isspace with
    | '-' :: r => - (digits_value r 0 : Int)
    | '+' :: r => (digits_value r 0 : Int)
    | r => (digits_value r 0 : Int)
  if v > 9223372036854775807 then 9223372036854775807
  else if v < -9223372036854775808 then -9223372036854775808
  else v

/-- The C library `atoi`, which is `(int) strtol(s, NULL, 10)`. -/
def atoi (s : List Char) : Int := int_of_long (strtol s)

/-- Text produced by the `printf` conversion `%u` for an `int` argument. -/
def fmt_u (n : Int) : String := toString (n % 4294967296).toNat

/-- Text produced by the `printf` conversion `%d`. -/
def fmt_d (n : Int) : String := toString n

/-! ## libudev devices -/

/-- What libudev knows about one device. -/
structure udev_device where
  action : Option String
  devpath : Option String
  syspath : Option String
  properties : List (String × String)
deriving DecidableEq, Repr

/-- `udev_device_get_action`; a `NULL` device has no action. -/
def udev_device_get_action (dev : Option udev_device) : Option String :=
  dev.bind (fun d => d.action)

/-- `udev_device_get_devpath`; `NULL` for a `NULL` device. -/
def udev_device_get_devpath (dev : Option udev_device) : Option String :=
  dev.bind (fun d => d.devpath)

/-- `udev_device_get_syspath`; `NULL` for a `NULL` device. -/
def udev_device_get_syspath (dev : Option udev_device) : Option String :=
  dev.bind (fun d => d.syspath)

/-- `udev_device_get_property_value`; `NULL` when the key is not set or the device is `NULL`. -/
def udev_device_get_property_value (dev : Option udev_device) (key : String) : Option String :=
  dev.bind (fun d => d.properties.lookup key)

/-! ## Data model -/

/-- `SND_PCM_STREAM_PLAYBACK`. -/
def SND_PCM_STREAM_PLAYBACK : Int := 0

/-- `SND_PCM_STREAM_CAPTURE`. -/
def SND_PCM_STREAM_CAPTURE : Int := 1

/-- `EINVAL`. -/
def EINVAL : Int := 22

/-- `struct device`.  `ptr` is the address of the record, `card` the address of its card. -/
structure device where
  ptr : Nat
  card : Nat
  num : Int
  direction : Int
  enabled : Bool
deriving DecidableEq, Repr

/-- `struct card`.  `ptr` is the address of the record; `ctl_hndl = none` is the `NULL`
handle left by `calloc`; `devices` is the list linked through `card_link`. -/
structure card where
  ptr : Nat
  dev : Option udev_device
  num : Int
  name : String
  ctl_hndl : Option Nat
  devices : List device
deriving DecidableEq, Repr

/-- Value of `this->current`: `NULL`, the list head `&this->devices` seen as a device
(what `spa_list_first` and `spa_list_next` give at the end of the list), or a device record. -/
inductive cursor where
  | null
  | head
  | node (ptr : Nat)
deriving DecidableEq, Repr

/-- The part of `struct impl` the registry and the cursor use.  `udev` says whether
`this->udev` is set; `brk` is the next address the allocator hands out. -/
structure impl where
  udev : Bool
  index : Nat
  current : cursor
  cards : List card
  devices : List device
  brk : Nat
deriving DecidableEq, Repr

/-- State set up by `impl_init` on zeroed handle memory: both lists empty. -/
def impl_init : impl :=
  { udev := false, index := 0, current := cursor.null, cards := [], devices := [], brk := 1 }

/-! ## Monitor items and events -/

/-- The event types of `struct spa_type_monitor`, which the type map keeps distinct. -/
inductive monitor_event where
  | Added
  | Changed
  | Removed
deriving DecidableEq, Repr

/-- The two handle factories an item can name. -/
inductive handle_factory where
  | spa_alsa_sink_factory
  | spa_alsa_source_factory
deriving DecidableEq, Repr

/-- `SPA_MONITOR_ITEM_STATE_AVAILABLE`. -/
def SPA_MONITOR_ITEM_STATE_AVAILABLE : Int := 1

/-- The `MonitorItem` object that `fill_item` builds. -/
structure spa_monitor_item where
  id : String
  flags : Int
  state : Int
  name : String
  klass : String
  factory : handle_factory
  info : List (String × String)
deriving DecidableEq, Repr

/-- What the event callback receives: the event type and the item, when one was built. -/
structure spa_event where
  type : monitor_event
  item : Option spa_monitor_item
deriving DecidableEq, Repr

/-! ## Answers of the environment -/

/-- Contents of a `snd_ctl_card_info_t`. -/
structure snd_ctl_card_info where
  id : String
  components : String
  driver : String
  name : String
  longname : String
  mixername : String
deriving DecidableEq, Repr

/-- Contents of a `snd_pcm_info_t` after a query. -/
structure snd_pcm_info where
  id : String
  name : String
  subdevice_name : String
deriving DecidableEq, Repr

/-- One turn of the `while (true)` loop of `create_card` as the environment answers it:
`err` and `dev_num` are what `snd_ctl_pcm_next_device` returns and writes, `playback`
and `capture` are the return values of the two `snd_ctl_pcm_info` probes, and the two
flags say whether the `calloc` of `create_device` succeeds. -/
structure pcm_step where
  err : Int
  dev_num : Int
  playback : Int
  playback_alloc : Bool
  capture : Int
  capture_alloc : Bool
deriving DecidableEq, Repr

/-- Answers of the environment during one `create_card` call.  `pcm` lists the turns of the
PCM iteration; when it is used up the backend reports that there is no further device. -/
structure card_backend where
  calloc : Bool
  open_err : Int
  open_hndl : Nat
  card_info_err : Int
  pcm : List pcm_step
deriving DecidableEq, Repr

/-- Answers of the environment during one dispatcher wake-up or one `enum_items` call:
`create` serves the `create_card` of the dispatcher, `udev_new` and `scan` the initial scan
of `impl_udev_open`, `card_info_err` and `card_info` the re-query of the card metadata, and
`pcm_info` the stream query of `fill_item` for a device. -/
structure backend where
  create : card_backend
  udev_new : Bool
  scan : List (Option udev_device × card_backend)
  card_info_err : Int
  card_info : snd_ctl_card_info
  pcm_info : device → Int × snd_pcm_info

/-! ## Identifier parsing -/

/-- `path_get_card_id`: the text after `/card` in the last path component. -/
def path_get_card_id (path : Option String) : Option String :=
  match path with
  | none => none
  | some p =>
    match strrchr p.toList '/' with
    | none => none
    | some e =>
      if e.length ≤ 5 ∨ e.take 5 ≠ "/card".toList then none
      else some (String.mk (e.drop 5))

/-- `check_card`: `none` for the return value 0, `some card_num` for the return value 1. -/
def check_card (dev : Option udev_device) : Option Int :=
  if (udev_device_get_property_value dev "PULSE_IGNORE").isSome then none
  else if udev_device_get_property_value dev "SOUND_CLASS" = some "modem" then none
  else
    match udev_device_get_devpath dev with
    | none => none
    | some devpath =>
      match path_get_card_id (some devpath) with
      | none => none
      | some str => some (atoi str.toList)

/-! ## Descriptor builder -/

/-- The test `str && *str` of `fill_item`. -/
def nonempty (str : Option String) : Bool :=
  match str with
  | none => false
  | some s => s ≠ ""

/-- One optional entry of the info list: present when the value passes `str && *str`. -/
def info_entry (key : String) (str : Option String) : List (String × String) :=
  match str with
  | none => []
  | some s => if s ≠ "" then [(key, s)] else []

/-- `fill_item`.  `card` is the record `device->card` points to and `pcm` is what
`snd_ctl_pcm_info` returns and writes for this device. -/
def fill_item (card : card) (device : device) (card_info : snd_ctl_card_info)
    (pcm : Int × snd_pcm_info) : Except Int spa_monitor_item :=
  let dev := card.dev
  let dev_info := pcm.2
  if pcm.1 < 0 then Except.error pcm.1
  else
    let kf : Option (handle_factory × String) :=
      if device.direction = SND_PCM_STREAM_PLAYBACK then
        some (handle_factory.spa_alsa_sink_factory, "Audio/Sink")
      else if device.direction = SND_PCM_STREAM_CAPTURE then
        some (handle_factory.spa_alsa_source_factory, "Audio/Source")
      else none
    match kf with
    | none => Except.error (-EINVAL)
    | some (factory, klass) =>
      let name0 := udev_device_get_property_value dev "ID_MODEL_FROM_DATABASE"
      let name1 :=
        if !(nonempty name0) then
          let n := udev_device_get_property_value dev "ID_MODEL_ENC"
          if !(nonempty n) then udev_device_get_property_value dev "ID_MODEL" else n
        else name0
      let name : String := if !(nonempty name1) then "Unknown" else name1.getD ""
      let card_name := card.name ++ "," ++ fmt_d device.num
      let path0 := udev_device_get_property_value dev "ID_PATH"
      let bus_path := if !(nonempty path0) then udev_device_get_syspath dev else path0
      let vendor0 := udev_device_get_property_value dev "ID_VENDOR_FROM_DATABASE"
      let vendor :=
        if !(nonempty vendor0) then
          let v := udev_device_get_property_value dev "ID_VENDOR_ENC"
          if !(nonempty v) then udev_device_get_property_value dev "ID_VENDOR" else v
        else vendor0
      Except.ok
        { id := name
          flags := 0
          state := SPA_MONITOR_ITEM_STATE_AVAILABLE
          name := name
          klass := klass
          factory := factory
          info :=
            [ ("alsa.card", card_name),
              ("alsa.card.id", card_info.id),
              ("alsa.card.components", card_info.components),
              ("alsa.card.driver", card_info.driver),
              ("alsa.card.name", card_info.name),
              ("alsa.card.longname", card_info.longname),
              ("alsa.card.mixername", card_info.mixername),
              ("udev-probed", "1"),
              ("device.api", "alsa"),
              ("alsa.pcm.id", dev_info.id),
              ("alsa.pcm.name", dev_info.name),
              ("alsa.pcm.subname", dev_info.subdevice_name) ]
            ++ info_entry "device.class" (udev_device_get_property_value dev "SOUND_CLASS")
            ++ info_entry "device.bus_path" bus_path
            ++ info_entry "sysfs.path" (udev_device_get_syspath dev)
            ++ info_entry "udev.id" (udev_device_get_property_value dev "ID_ID")
            ++ info_entry "device.bus" (udev_device_get_property_value dev "ID_BUS")
            ++ info_entry "device.subsystem" (udev_device_get_property_value dev "SUBSYSTEM")
            ++ info_entry "device.vendor.id" (udev_device_get_property_value dev "ID_VENDOR_ID")
            ++ info_entry "device.vendor.name" vendor
            ++ info_entry "device.product.id" (udev_device_get_property_value dev "ID_MODEL_ID")
            ++ [("device.product.name", name)]
            ++ info_entry "device.serial" (udev_device_get_property_value dev "ID_SERIAL")
            ++ info_entry "device.form_factor"
                 (udev_device_get_property_value dev "SOUND_FORM_FACTOR") }

/-! ## Card and device registry -/

/-- `ENOMEM`. -/
def ENOMEM : Int := 12

/-- `create_device` for the card under construction.  `alloc` says whether `calloc`
succeeds.  The new record is appended to `this->devices` and to `card->devices`. -/
def create_device (this : impl) (card : card) (alloc : Bool) (dev_num direction : Int) :
    impl × AlsaMonitor.card × Int :=
  if !alloc then (this, card, -ENOMEM)
  else
    let device : device :=
      { ptr := this.brk, card := card.ptr, num := dev_num, direction := direction,
        enabled := false }
    ({ this with devices := this.devices ++ [device], brk := this.brk + 1 },
     { card with devices := card.devices ++ [device] }, 0)

/-- `free_device`: unlink the record from the flattened list and from its card's list. -/
def free_device (this : impl) (device : device) : impl :=
  { this with
    devices := this.devices.filter (fun d => d.ptr ≠ device.ptr)
    cards := this.cards.map (fun c =>
      { c with devices := c.devices.filter (fun d => d.ptr ≠ device.ptr) }) }

/-- `find_card`: the first card of the list whose `num` is `card_num`. -/
def find_card (this : impl) (card_num : Int) : Option card :=
  this.cards.find? (fun c => c.num = card_num)

/-- The record a `struct card *` points to, if it names a card of the registry. -/
def deref_card (this : impl) (p : Nat) : Option card :=
  this.cards.find? (fun c => c.ptr = p)

/-- The `while (true)` loop of `create_card` over the answers of the PCM iteration.  The
flag is `false` when the loop left through `return NULL`. -/
def pcm_loop (this : impl) (card : card) : List pcm_step → impl × AlsaMonitor.card × Bool
  | [] => (this, card, true)
  | s :: rest =>
    if s.err < 0 then (this, card, false)
    else if s.dev_num < 0 then (this, card, true)
    else
      let r1 :=
        if s.playback = 0 then
          create_device this card s.playback_alloc s.dev_num SND_PCM_STREAM_PLAYBACK
        else (this, card, 0)
      if r1.2.2 < 0 then pcm_loop r1.1 r1.2.1 rest
      else
        let r2 :=
          if s.capture = 0 then
            create_device r1.1 r1.2.1 s.capture_alloc s.dev_num SND_PCM_STREAM_CAPTURE
          else (r1.1, r1.2.1, 0)
        pcm_loop r2.1 r2.2.1 rest

/-- The registry with `card` as the last entry of the card list: from `spa_list_append` on,
the record under construction is the tail of `this->cards`. -/
def link_card (this : impl) (card : card) : impl :=
  { this with cards := this.cards ++ [card] }

/-- `create_card`: the new state and the returned pointer (`none` for `NULL`). -/
def create_card (this : impl) (env : card_backend) (dev : Option udev_device) :
    impl × Option card :=
  match check_card dev with
  | none => (this, none)
  | some card_num =>
    match find_card this card_num with
    | some _ => (this, none)
    | none =>
      if !env.calloc then (this, none)
      else
        let card : card :=
          { ptr := this.brk, dev := dev, num := card_num, name := "hw:" ++ fmt_u card_num,
            ctl_hndl := none, devices := [] }
        let this1 := { this with brk := this.brk + 1 }
        if env.open_err < 0 then (link_card this1 card, none)
        else
          let card1 := { card with ctl_hndl := some env.open_hndl }
          if env.card_info_err < 0 then (link_card this1 card1, none)
          else
            let r := pcm_loop this1 card1 env.pcm
            if r.2.2 then (link_card r.1 r.2.1, some r.2.1)
            else (link_card r.1 r.2.1, none)

/-- `remove_card`: free every device of the card, unlink the card, close and free it. -/
def remove_card (this : impl) (card : card) : impl :=
  let this1 := card.devices.foldl free_device this
  { this1 with cards := this1.cards.filter (fun c => c.ptr ≠ card.ptr) }

/-! ## Event dispatcher -/

/-- The action test of `impl_on_fd_events`: the event type for an action string, `none`
for the final `else return`. -/
def action_type (action : String) : Option monitor_event :=
  if action = "add" then some monitor_event.Added
  else if action = "change" then some monitor_event.Changed
  else if action = "remove" then some monitor_event.Removed
  else none

/-- The `spa_list_for_each` loop of `impl_on_fd_events`: one callback invocation per
device, with the item `fill_item` built (its return value is not looked at). -/
def emit_events (this : impl) (env : backend) (type : monitor_event) :
    List device → Option (List spa_event)
  | [] => some []
  | d :: ds =>
    match deref_card this d.card with
    | none => none
    | some c =>
      match emit_events this env type ds with
      | none => none
      | some evs =>
        some ({ type := type,
                item := (fill_item c d env.card_info (env.pcm_info d)).toOption } :: evs)

/-- `impl_on_fd_events` for the received device `dev` (`none` is `NULL`): the new state and
the events handed to the callback, in order. -/
def impl_on_fd_events (this : impl) (env : backend) (dev : Option udev_device) :
    Option (impl × List spa_event) :=
  let action := (udev_device_get_action dev).getD "change"
  match action_type action with
  | none => some (this, [])
  | some type =>
    let r : impl × Option card :=
      if type = monitor_event.Added ∨ type = monitor_event.Changed then
        create_card this env.create dev
      else
        match check_card dev with
        | none => (this, none)
        | some card_num => (this, find_card this card_num)
    match r.2 with
    | none => some (r.1, [])
    | some card =>
      if env.card_info_err < 0 then some (r.1, [])
      else
        match emit_events r.1 env type card.devices with
        | none => none
        | some evs =>
          if type = monitor_event.Removed then some (remove_card r.1 card, evs)
          else some (r.1, evs)

/-! ## Initial scan and enumeration -/

/-- The `udev_list_entry_foreach` loop of `impl_udev_open`. -/
def scan_devices (this : impl) : List (Option udev_device × card_backend) → impl
  | [] => this
  | (dev, env) :: rest => scan_devices (create_card this env dev).1 rest

/-- `impl_udev_open`: on the first call, scan the sound subsystem and create the cards.
When `udev_new` fails the enumeration is empty and `this->udev` stays `NULL`. -/
def impl_udev_open (this : impl) (env : backend) : impl :=
  if this.udev then this
  else if !env.udev_new then this
  else scan_devices { this with udev := true } env.scan

/-- `spa_list_first (&this->devices, ...)`. -/
def spa_list_first (devices : List device) : cursor :=
  match devices with
  | [] => cursor.head
  | d :: _ => cursor.node d.ptr

/-- The successor of the record at address `p` in the list, `none` when no record of the
list has that address. -/
def node_next : List device → Nat → Option cursor
  | [], _ => none
  | d :: rest, p => if d.ptr = p then some (spa_list_first rest) else node_next rest p

/-- `spa_list_next (pos, link)` in the circular list: the head is followed by the first
record, the last record by the head. -/
def spa_list_next (devices : List device) (pos : cursor) : Option cursor :=
  match pos with
  | cursor.null => none
  | cursor.head => some (spa_list_first devices)
  | cursor.node p => node_next devices p

/-- The loop `while (*index > this->index)` of `impl_monitor_enum_items`; it runs
`*index - this->index` times, which is the first argument. -/
def advance (devices : List device) : Nat → cursor → Nat → Option (cursor × Nat)
  | 0, cur, idx => some (cur, idx)
  | k + 1, cur, idx =>
    match spa_list_next devices cur with
    | none => none
    | some c => advance devices k c (idx + 1)

/-- What `impl_monitor_enum_items` hands back: the return value, `*index` and, when
`fill_item` wrote it, `*item`. -/
structure enum_result where
  res : Int
  index : Nat
  item : Option spa_monitor_item
deriving DecidableEq, Repr

/-- `impl_monitor_enum_items` called with `*index = index` (a `uint32_t`) and non-`NULL`
`monitor` and `item`. -/
def impl_monitor_enum_items (this : impl) (env : backend) (index : Nat) :
    Option (impl × enum_result) :=
  let this0 := impl_udev_open this env
  let this1 :=
    if index = 0 ∨ this0.index > index then
      { this0 with current := spa_list_first this0.devices, index := 0 }
    else this0
  match advance this1.devices (index - this1.index) this1.current this1.index with
  | none => none
  | some (cur, idx) =>
    let this2 := { this1 with current := cur, index := idx }
    match cur with
    | cursor.head => some (this2, { res := 0, index := index, item := none })
    | cursor.null => none
    | cursor.node p =>
      match this2.devices.find? (fun d => d.ptr = p) with
      | none => none
      | some device =>
        match deref_card this2 device.card with
        | none => none
        | some c =>
          if env.card_info_err < 0 then
            some (this2, { res := env.card_info_err, index := index, item := none })
          else
            some (this2,
              { res := 1, index := (index + 1) % 4294967296,
                item := (fill_item c device env.card_info (env.pcm_info device)).toOption })

/-! ## Reachable and well-formed registries -/

/-- Registry states the monitor can be in: the state after `impl_init`, and every state
one operation later, whatever the environment answers: a card creation of the initial
scan, a whole `impl_udev_open`, a dispatched notification, an `enum_items` call. -/
inductive reachable : impl → Prop
  | init : reachable impl_init
  | scan (this : impl) (env : card_backend) (dev : Option udev_device) :
      reachable this → reachable (create_card this env dev).1
  | udev_open (this : impl) (env : backend) :
      reachable this → reachable (impl_udev_open this env)
  | notify (this : impl) (env : backend) (dev : Option udev_device) (next : impl)
      (evs : List spa_event) :
      reachable this → impl_on_fd_events this env dev = some (next, evs) → reachable next
  | enum_items (this : impl) (env : backend) (index : Nat) (next : impl) (r : enum_result) :
      reachable this → impl_monitor_enum_items this env index = some (next, r) →
      reachable next

/-- Consistency of the registry as a linked structure: records have distinct addresses
below the allocation mark, cards have distinct ids, every device points back to the card
that lists it, the flattened list holds the devices of the cards in card order, and every
device is a playback or a capture stream. -/
structure wf (this : impl) : Prop where
  card_ptr_nodup : (this.cards.map (fun c => c.ptr)).Nodup
  card_num_nodup : (this.cards.map (fun c => c.num)).Nodup
  card_ptr_lt : ∀ c ∈ this.cards, c.ptr < this.brk
  dev_ptr_nodup : (this.devices.map (fun d => d.ptr)).Nodup
  dev_ptr_lt : ∀ d ∈ this.devices, d.ptr < this.brk
  backref : ∀ c ∈ this.cards, ∀ d ∈ c.devices, d.card = c.ptr
  flat : this.devices = this.cards.flatMap (fun c => c.devices)
  direction_ok : ∀ d ∈ this.devices,
    d.direction = SND_PCM_STREAM_PLAYBACK ∨ d.direction = SND_PCM_STREAM_CAPTURE

/-- The list `l` without the records at the addresses of the devices `ds`. -/
def drop_devices (ds : List device) (l : List device) : List device :=
  l.filter (fun d => decide (d.ptr ∉ ds.map (fun x => x.ptr)))

/-- The card `c` with the records at the addresses of `ds` unlinked from its device list. -/
def card_drop_devices (ds : List device) (c : card) : card :=
  { c with devices := drop_devices ds c.devices }

/-- The descriptor of the device `d` of the registry: the item `fill_item` builds for `d`
and the card it points back to, from the answers of `env`. -/
def device_item (this : impl) (env : backend) (d : device) : Option spa_monitor_item :=
  (deref_card this d.card).bind
    (fun c => (fill_item c d env.card_info (env.pcm_info d)).toOption)

/-- A sweep of the host over a registry whose backend answers do not change: call
`enum_items` with `index`, then with the index it wrote back, as long as it returns 1, for
at most `fuel` calls.  The result is the final state, the items handed back by the calls
that returned 1, in order, and the return value of the call that ended the sweep (0 at the
end of the sequence, negative for an error). -/
def sweep (env : backend) : Nat → impl → Nat → Option (impl × List (Option spa_monitor_item) × Int)
  | 0, _, _ => none
  | fuel + 1, this, index =>
    match impl_monitor_enum_items this env index with
    | none => none
    | some (next, r) =>
      if r.res = 1 then
        match sweep env fuel next r.index with
        | none => none
        | some (last, items, res) => some (last, r.item :: items, res)
      else some (next, [], r.res)

/-- Where the cursor stands when a call asks for position `k`: anywhere when `k = 0`, and
on position `k - 1` with `this->index = k - 1` after a call that asked for `k - 1`. -/
def cursor_ready (this : impl) (k : Nat) : Prop :=
  k = 0 ∨ (this.index + 1 = k ∧ this.current = spa_list_first (this.devices.drop this.index))

/-- The cursor stands on the position its counter names: `this->index` is a position of the
circular list (the position after the last device being the list head) and `this->current`
is the node at that position.  Every `enum_items` call on a static registry leaves the
cursor so. -/
def cursor_synced (this : impl) : Prop :=
  this.index ≤ this.devices.length ∧
  this.current = spa_list_first (this.devices.drop this.index)

/-- The first `m` calls of the host in sequence: `enum_items` with `index`, then with the
index written back, and so on, whatever each call returns.  The result is the state after
the last call and the index it wrote back. -/
def seq_calls (env : backend) : Nat → impl → Nat → Option (impl × Nat)
  | 0, this, index => some (this, index)
  | m + 1, this, index =>
    match impl_monitor_enum_items this env index with
    | none => none
    | some (next, r) => seq_calls env m next r.index

/-! ## Example data -/

/-- A sound card at `/devices/pci0/sound/card0`, announced with action `add`. -/
def ex_dev0 : udev_device :=
  { action := some "add", devpath := some "/devices/pci0/sound/card0",
    syspath := some "/sys/devices/pci0/sound/card0", properties := [("ID_MODEL", "HDA")] }

/-- A sound card at `/devices/pci0/sound/card3`, announced with action `add`. -/
def ex_dev3 : udev_device :=
  { action := some "add", devpath := some "/devices/pci0/sound/card3",
    syspath := none, properties := [] }

/-- A control interface that opens, answers the card query and lists PCM 0 with a usable
playback and a usable capture stream. -/
def ex_card_ok : card_backend :=
  { calloc := true, open_err := 0, open_hndl := 7, card_info_err := 0,
    pcm := [{ err := 0, dev_num := 0, playback := 0, playback_alloc := true,
              capture := 0, capture_alloc := true }] }

/-- A control interface whose `snd_ctl_open` fails with `-ENOENT`. -/
def ex_card_open_fails : card_backend :=
  { ex_card_ok with open_err := -2 }

/-- Card metadata used in the examples. -/
def ex_card_info : snd_ctl_card_info :=
  { id := "PCH", components := "HDA:1", driver := "HDA-Intel", name := "HDA Intel PCH",
    longname := "HDA Intel PCH at 0xf7", mixername := "Realtek" }

/-- Stream metadata used in the examples. -/
def ex_pcm_info : snd_pcm_info :=
  { id := "ALC", name := "ALC Analog", subdevice_name := "subdevice #0" }

/-- An environment in which every query succeeds. -/
def ex_env : backend :=
  { create := ex_card_ok, udev_new := true, scan := [], card_info_err := 0,
    card_info := ex_card_info, pcm_info := fun _ => (0, ex_pcm_info) }

/-- An environment in which opening the control interface fails. -/
def ex_env_open_fails : backend :=
  { ex_env with create := ex_card_open_fails }

/-- The notification for card 0 with action `change`. -/
def ex_dev0_change : udev_device := { ex_dev0 with action := some "change" }

/-- The notification for card 0 with action `remove`. -/
def ex_dev0_remove : udev_device := { ex_dev0 with action := some "remove" }

/-- Card 0 with one playback and one capture stream of PCM 0. -/
def ex_card0 : card :=
  { ptr := 1, dev := some ex_dev0, num := 0, name := "hw:0", ctl_hndl := some 7,
    devices := [{ ptr := 2, card := 1, num := 0, direction := 0, enabled := false },
                { ptr := 3, card := 1, num := 0, direction := 1, enabled := false }] }

/-- The registry after the initial scan found card 0 with one playback and one capture
stream. -/
def ex_one_card : impl :=
  { udev := true, index := 0, current := cursor.null,
    cards := [ex_card0],
    devices := [{ ptr := 2, card := 1, num := 0, direction := 0, enabled := false },
                { ptr := 3, card := 1, num := 0, direction := 1, enabled := false }],
    brk := 4 }

/-- The registry holding card 0 after a full sweep: the cursor stands on the list head and
`this->index` is 2. -/
def ex_after_sweep : impl :=
  { ex_one_card with index := 2, current := cursor.head }

/-- An environment in which the card query succeeds and the stream query of `fill_item`
fails with `-ENODEV` for every device. -/
def ex_env_pcm_fails : backend :=
  { ex_env with pcm_info := fun _ => (-19, ex_pcm_info) }

/-- A sound card whose device path has a directory named like a card on the way:
`/devices/card7/sound/card12`. -/
def ex_dev12 : udev_device :=
  { action := some "add", devpath := some ("/devices/card7/sound" ++ "/card" ++ toString 12),
    syspath := none, properties := [("SOUND_CLASS", "sound")] }

/-- The devices the card filter is to reject: the `PULSE_IGNORE` property is set (to any
value), the `SOUND_CLASS` is `modem`, there is no device path, the path has no `/`, or its
final component (the text after the last `/`) does not begin with `card` or is `card` alone. -/
def card_filtered (dev : Option udev_device) : Prop :=
  (udev_device_get_property_value dev "PULSE_IGNORE").isSome = true ∨
  udev_device_get_property_value dev "SOUND_CLASS" = some "modem" ∨
  udev_device_get_devpath dev = none ∨
  (∃ path, udev_device_get_devpath dev = some path ∧ '/' ∉ path.toList) ∨
  (∃ path a comp, udev_device_get_devpath dev = some path ∧
    path.toList = a ++ '/' :: comp ∧ '/' ∉ comp ∧ comp.take 4 ≠ "card".toList) ∨
  (∃ path a, udev_device_get_devpath dev = some path ∧
    path.toList = a ++ '/' :: "card".toList)

/-- A modem that sits on a well-formed card path, with an empty `PULSE_IGNORE` tag. -/
def ex_modem : udev_device :=
  { action := some "add", devpath := some "/devices/pci0/sound/card1", syspath := none,
    properties := [("PULSE_IGNORE", ""), ("SOUND_CLASS", "modem")] }

/-- The first candidate of a preference chain that is present and not empty, if any. -/
def first_nonempty : List (Option String) → Option String
  | [] => none
  | v :: rest => if nonempty v then v else first_nonempty rest

/-- The playback stream of PCM 0 of card 0. -/
def ex_playback0 : device :=
  { ptr := 2, card := 1, num := 0, direction := 0, enabled := false }

/-- A record with the direction value 2, which is neither playback nor capture. -/
def ex_bad_direction : device :=
  { ptr := 2, card := 1, num := 0, direction := 2, enabled := false }

/-- The item `fill_item` builds for the playback stream of card 0. -/
def ex_item_playback0 : spa_monitor_item :=
  { id := "HDA", flags := 0, state := 1, name := "HDA", klass := "Audio/Sink",
    factory := handle_factory.spa_alsa_sink_factory,
    info := [("alsa.card", "hw:0,0"), ("alsa.card.id", "PCH"),
             ("alsa.card.components", "HDA:1"), ("alsa.card.driver", "HDA-Intel"),
             ("alsa.card.name", "HDA Intel PCH"),
             ("alsa.card.longname", "HDA Intel PCH at 0xf7"),
             ("alsa.card.mixername", "Realtek"), ("udev-probed", "1"),
             ("device.api", "alsa"), ("alsa.pcm.id", "ALC"),
             ("alsa.pcm.name", "ALC Analog"), ("alsa.pcm.subname", "subdevice #0"),
             ("device.bus_path", "/sys/devices/pci0/sound/card0"),
             ("sysfs.path", "/sys/devices/pci0/sound/card0"),
             ("device.product.name", "HDA")] }

/-- The optional hardware properties of an item, other than the product name: the key of
each and the value it is taken from, after its preference chain.  The bus path prefers
`ID_PATH` to the syspath, the vendor name takes the first of `ID_VENDOR_FROM_DATABASE`,
`ID_VENDOR_ENC`, `ID_VENDOR`. -/
def optional_sources (dev : Option udev_device) : List (String × Option String) :=
  [ ("device.bus_path",
      first_nonempty [udev_device_get_property_value dev "ID_PATH",
                      udev_device_get_syspath dev]),
    ("device.serial", udev_device_get_property_value dev "ID_SERIAL"),
    ("device.vendor.id", udev_device_get_property_value dev "ID_VENDOR_ID"),
    ("device.vendor.name",
      first_nonempty [udev_device_get_property_value dev "ID_VENDOR_FROM_DATABASE",
                      udev_device_get_property_value dev "ID_VENDOR_ENC",
                      udev_device_get_property_value dev "ID_VENDOR"]),
    ("device.product.id", udev_device_get_property_value dev "ID_MODEL_ID"),
    ("device.subsystem", udev_device_get_property_value dev "SUBSYSTEM"),
    ("device.class", udev_device_get_property_value dev "SOUND_CLASS"),
    ("device.form_factor", udev_device_get_property_value dev "SOUND_FORM_FACTOR") ]

/-- Card 3, whose udev device has no property and no syspath, with a capture stream. -/
def ex_card3 : card :=
  { ptr := 4, dev := some ex_dev3, num := 3, name := "hw:3", ctl_hndl := some 7,
    devices := [{ ptr := 5, card := 4, num := 0, direction := 1, enabled := false }] }

/-- The capture stream of PCM 0 of card 3. -/
def ex_capture3 : device :=
  { ptr := 5, card := 4, num := 0, direction := 1, enabled := false }

/-- The item `fill_item` builds for the capture stream of card 3. -/
def ex_item_capture3 : spa_monitor_item :=
  { id := "Unknown", flags := 0, state := 1, name := "Unknown", klass := "Audio/Source",
    factory := handle_factory.spa_alsa_source_factory,
    info := [("alsa.card", "hw:3,0"), ("alsa.card.id", "PCH"),
             ("alsa.card.components", "HDA:1"), ("alsa.card.driver", "HDA-Intel"),
             ("alsa.card.name", "HDA Intel PCH"),
             ("alsa.card.longname", "HDA Intel PCH at 0xf7"),
             ("alsa.card.mixername", "Realtek"), ("udev-probed", "1"),
             ("device.api", "alsa"), ("alsa.pcm.id", "ALC"),
             ("alsa.pcm.name", "ALC Analog"), ("alsa.pcm.subname", "subdevice #0"),
             ("device.product.name", "Unknown")] }

/-- The turns of the PCM iteration for which the loop body of `create_card` runs: those
before the first turn in which `snd_ctl_pcm_next_device` fails or reports that there is no
further device.  Their `dev_num`s are the PCM indices the backend yields for the card. -/
def yielded_steps (steps : List pcm_step) : List pcm_step :=
  steps.takeWhile (fun s => decide (0 ≤ s.err ∧ 0 ≤ s.dev_num))

/-- The PCM index and the direction of a device. -/
def device_key (d : device) : Int × Int := (d.num, d.direction)

/-- The devices one yielded PCM index stands for: a playback device when the playback probe
returns 0, followed by a capture device when the capture probe returns 0. -/
def probed (s : pcm_step) : List (Int × Int) :=
  (if s.playback = 0 then [(s.dev_num, SND_PCM_STREAM_PLAYBACK)] else []) ++
  (if s.capture = 0 then [(s.dev_num, SND_PCM_STREAM_CAPTURE)] else [])

/-- Every `calloc` that `create_device` reaches during the PCM iteration succeeds. -/
def device_allocs_ok (env : card_backend) : Prop :=
  ∀ s ∈ env.pcm, (s.playback = 0 → s.playback_alloc = true) ∧
    (s.capture = 0 → s.capture_alloc = true)

/-- A control interface that lists PCM 0 with both probes succeeding, where the `calloc` for
the playback device fails. -/
def ex_card_alloc_fails : card_backend :=
  { calloc := true, open_err := 0, open_hndl := 7, card_info_err := 0,
    pcm := [{ err := 0, dev_num := 0, playback := 0, playback_alloc := false,
              capture := 0, capture_alloc := true }] }

/-- A control interface that lists PCM 0 with a playback stream only and PCM 2 with a
capture stream only. -/
def ex_card_two_pcms : card_backend :=
  { calloc := true, open_err := 0, open_hndl := 7, card_info_err := 0,
    pcm := [{ err := 0, dev_num := 0, playback := 0, playback_alloc := true,
              capture := -2, capture_alloc := true },
            { err := 0, dev_num := 2, playback := -2, playback_alloc := true,
              capture := 0, capture_alloc := true }] }

/-- The record `create_card` sets up for the id `n` before the PCM iteration; `hndl` is
`none` until `snd_ctl_open` has succeeded. -/
def new_card (this : impl) (dev : Option udev_device) (n : Int) (hndl : Option Nat) : card :=
  { ptr := this.brk, dev := dev, num := n, name := "hw:" ++ fmt_u n, ctl_hndl := hndl,
    devices := [] }

/-- Registry states reachable as in `reachable`, when every backend that answers a
`create_card` call satisfies `ok`. -/
inductive reachable_with (ok : card_backend → Prop) : impl → Prop
  | init : reachable_with ok impl_init
  | scan (this : impl) (env : card_backend) (dev : Option udev_device) :
      ok env → reachable_with ok this → reachable_with ok (create_card this env dev).1
  | udev_open (this : impl) (env : backend) :
      (∀ x ∈ env.scan, ok x.2) → reachable_with ok this →
      reachable_with ok (impl_udev_open this env)
  | notify (this : impl) (env : backend) (dev : Option udev_device) (next : impl)
      (evs : List spa_event) :
      ok env.create → reachable_with ok this →
      impl_on_fd_events this env dev = some (next, evs) → reachable_with ok next
  | enum_items (this : impl) (env : backend) (index : Nat) (next : impl) (r : enum_result) :
      (∀ x ∈ env.scan, ok x.2) → reachable_with ok this →
      impl_monitor_enum_items this env index = some (next, r) → reachable_with ok next

/-- The backend never yields the same PCM index twice while it iterates one card. -/
def distinct_indices (env : card_backend) : Prop :=
  ((yielded_steps env.pcm).map (fun s => s.dev_num)).Nodup

/-- The display handle of the card is `hw:` followed by its id as `%u` prints it, and the
id is in the range of an `int`. -/
def card_named (c : card) : Prop :=
  c.name = "hw:" ++ fmt_u c.num ∧ -2147483648 ≤ c.num ∧ c.num < 2147483648

/-- The PCM iteration of `create_card` ends in a failure: the first turn that is not a
yielded one is a turn in which `snd_ctl_pcm_next_device` returns an error. -/
def pcm_iteration_fails (steps : List pcm_step) : Bool :=
  match steps.dropWhile (fun s => decide (0 ≤ s.err ∧ 0 ≤ s.dev_num)) with
  | s :: _ => decide (s.err < 0)
  | [] => false

/-- A control interface that opens, answers the card query and lists PCM 0 with a playback
and a capture stream, and whose next `snd_ctl_pcm_next_device` fails with `-EIO`. -/
def ex_card_pcm_fails : card_backend :=
  { ex_card_ok with
    pcm := ex_card_ok.pcm ++
      [{ err := -5, dev_num := 0, playback := 0, playback_alloc := true, capture := 0,
         capture_alloc := true }] }

/-- The cursor stands on the node of the circular list its counter names: the list is the
ring of the devices followed by the list head, and `this->current` is the node at position
`this->index` modulo the number of nodes.  Every `enum_items` call on a static registry
leaves the cursor so. -/
def cursor_circular (this : impl) : Prop :=
  this.current =
    spa_list_first (this.devices.drop (this.index % (this.devices.length + 1)))

/-- Spec side of the card-id resolution: the number a text of decimal digits stands for. -/
def decimal_value (ds : List Char) : Nat :=
  ds.foldl (fun acc c => acc * 10 + (c.toNat - 48)) 0

/-- Spec side of the card-id resolution: the text that follows the optional sign of `s`. -/
def after_sign : List Char → List Char
  | '-' :: r => r
  | '+' :: r => r
  | r => r

/-- Spec side of the card-id resolution: the value of the leading optionally-signed decimal
prefix of `s`, which is an optional sign followed by the longest run of decimal digits; the
value is 0 when no digit follows. -/
def signed_decimal_value : List Char → Int
  | '-' :: r => - (decimal_value (r.takeWhile Char.isDigit) : Int)
  | '+' :: r => (decimal_value (r.takeWhile Char.isDigit) : Int)
  | r => (decimal_value (r.takeWhile Char.isDigit) : Int)

/-- A device whose device path ends in `/card 7`: the text after `card` starts with a
blank. -/
def ex_dev_blank : udev_device :=
  { action := some "add", devpath := some "/devices/x/card 7", syspath := none,
    properties := [] }

/-- A device whose device path ends in `/cardX`. -/
def ex_dev_cardX : udev_device :=
  { action := some "add", devpath := some "/devices/x/cardX", syspath := none,
    properties := [] }

/-- A device whose device path ends in `/card4294967296`, a number no `int` holds. -/
def ex_dev_big : udev_device :=
  { action := some "add", devpath := some "/devices/x/card4294967296", syspath := none,
    properties := [] }

end AlsaMonitor

/-!
# Volume node: port io slots and `process_input`

A shallow embedding of the node operations of `spa/plugins/volume/volume.c`.

* The state is the part of `struct _SpaVolume` the operations read and write.  The
  arrays `in_ports[1]` and `out_ports[1]` are the two fields `in_port` and `out_port`;
  every access is at index 0, behind the test `CHECK_PORT`.
* Pointers are `Option Nat` (`none` is `NULL`).  The `SpaPortInput` and `SpaPortOutput`
  records the io slots point to live in memory of the host, which `process_input` and
  `process_output` receive as an argument and hand back.
* Every operation is modelled for a `node` that is not `NULL`; with `node == NULL` each
  one returns at once and touches nothing.  What a library call answers is an argument.
-/

namespace Volume

/-- The `SpaResult` codes the node names; `other` is a code a library call handed back. -/
inductive SpaResult where
  | SPA_RESULT_OK
  | SPA_RESULT_ERROR
  | SPA_RESULT_INVALID_ARGUMENTS
  | SPA_RESULT_INVALID_COMMAND
  | SPA_RESULT_INVALID_PORT
  | SPA_RESULT_NOT_IMPLEMENTED
  | SPA_RESULT_ENUM_END
  | SPA_RESULT_NO_FORMAT
  | SPA_RESULT_INVALID_BUFFER_ID
  | SPA_RESULT_HAVE_ENOUGH_INPUT
  | SPA_RESULT_NEED_MORE_INPUT
  | other (code : Int)
deriving DecidableEq, Repr

/-- `SpaDirection`. -/
inductive SpaDirection where
  | SPA_DIRECTION_INPUT
  | SPA_DIRECTION_OUTPUT
deriving DecidableEq, Repr

/-- The node states `update_state` and `volume_node` name. -/
inductive SpaNodeState where
  | SPA_NODE_STATE_INIT
  | SPA_NODE_STATE_STREAMING
  | SPA_NODE_STATE_PAUSED
deriving DecidableEq, Repr

/-- The command types of the `switch` in `spa_volume_node_send_command`. -/
inductive SpaNodeCommandType where
  | SPA_NODE_COMMAND_INVALID
  | SPA_NODE_COMMAND_START
  | SPA_NODE_COMMAND_PAUSE
  | SPA_NODE_COMMAND_FLUSH
  | SPA_NODE_COMMAND_DRAIN
  | SPA_NODE_COMMAND_MARKER
  | SPA_NODE_COMMAND_CLOCK_UPDATE
deriving DecidableEq, Repr

/-- The port info flags `volume_init` sets. -/
inductive SpaPortInfoFlag where
  | SPA_PORT_INFO_FLAG_CAN_USE_BUFFERS
  | SPA_PORT_INFO_FLAG_IN_PLACE
  | SPA_PORT_INFO_FLAG_CAN_ALLOC_BUFFERS
  | SPA_PORT_INFO_FLAG_NO_REF
deriving DecidableEq, Repr

/-- The values of `SpaVolumeProps`.  The `double` is carried as the number it stands for;
the model does no arithmetic on it. -/
structure SpaVolumeProps where
  volume : Rat
  mute : Bool
deriving DecidableEq, Repr

/-- `SpaVolumePort`.  `buffers` is the array `buffers` points to, `none` for `NULL`. -/
structure SpaVolumePort where
  have_format : Bool
  info_flags : List SpaPortInfoFlag
  buffers : Option (List (Option Nat))
  n_buffers : Nat
  buffer : Option Nat
  io : Option Nat
deriving DecidableEq, Repr

/-- The fields of `struct _SpaVolume` the operations use.  A `SpaFormatAudio` is carried as
a token for its content, which only library calls write. -/
structure SpaVolume where
  uri_node : Nat
  map : Option Nat
  log : Option Nat
  node_state : SpaNodeState
  props0 : SpaVolumeProps
  props1 : SpaVolumeProps
  event_cb : Option Nat
  user_data : Option Nat
  have_format : Bool
  query_format : Nat
  current_format : Nat
  in_port : SpaVolumePort
  out_port : SpaVolumePort
deriving DecidableEq, Repr

/-- The fields of a `SpaPortInput` record the node uses; a `SpaPortOutput` record has the
same fields, and `process_output` reads both through `SpaPortInput *`.  The two flag bits
the node names are fields of their own. -/
structure SpaPortInput where
  need_input : Bool
  have_output : Bool
  buffer_id : Nat
  status : SpaResult
deriving DecidableEq, Repr

/-- The uri of a `SpaSupport` entry, as the two `strcmp` tests of `volume_init` see it. -/
inductive support_uri where
  | SPA_ID_MAP_URI
  | SPA_LOG_URI
  | unknown (uri : String)
deriving DecidableEq, Repr

/-- One `SpaSupport` entry. -/
structure SpaSupport where
  uri : support_uri
  data : Option Nat
deriving DecidableEq, Repr

/-- `reset_volume_props`. -/
def reset_volume_props : SpaVolumeProps := { volume := 1, mute := false }

/-- `update_state`. -/
def update_state (this : SpaVolume) (state : SpaNodeState) : SpaVolume :=
  { this with node_state := state }

/-- `CHECK_PORT (this, d, p)`, which does not look at the direction. -/
def CHECK_PORT (_d : SpaDirection) (p : Nat) : Bool := p == 0

/-- `spa_volume_node_get_props` with `props != NULL`: copy `props[1]` to `props[0]`. -/
def spa_volume_node_get_props (this : SpaVolume) : SpaVolume × SpaResult :=
  ({ this with props0 := this.props1 }, SpaResult.SPA_RESULT_OK)

/-- `spa_volume_node_set_props`.  `props` is `none` for `NULL`, and otherwise what
`spa_props_copy_values` returns and leaves in `props[1]`. -/
def spa_volume_node_set_props (this : SpaVolume) (props : Option (SpaResult × SpaVolumeProps)) :
    SpaVolume × SpaResult :=
  match props with
  | none => ({ this with props1 := reset_volume_props }, SpaResult.SPA_RESULT_OK)
  | some (res, values) => ({ this with props1 := values }, res)

/-- `spa_volume_node_send_command` with `command != NULL`. -/
def spa_volume_node_send_command (this : SpaVolume) (type : SpaNodeCommandType) :
    SpaVolume × SpaResult :=
  match type with
  | SpaNodeCommandType.SPA_NODE_COMMAND_INVALID => (this, SpaResult.SPA_RESULT_INVALID_COMMAND)
  | SpaNodeCommandType.SPA_NODE_COMMAND_START =>
    (update_state this SpaNodeState.SPA_NODE_STATE_STREAMING, SpaResult.SPA_RESULT_OK)
  | SpaNodeCommandType.SPA_NODE_COMMAND_PAUSE =>
    (update_state this SpaNodeState.SPA_NODE_STATE_PAUSED, SpaResult.SPA_RESULT_OK)
  | _ => (this, SpaResult.SPA_RESULT_NOT_IMPLEMENTED)

/-- `spa_volume_node_set_event_callback`. -/
def spa_volume_node_set_event_callback (this : SpaVolume) (event user_data : Option Nat) :
    SpaVolume × SpaResult :=
  ({ this with event_cb := event, user_data := user_data }, SpaResult.SPA_RESULT_OK)

/-- `spa_volume_node_port_enum_formats` with `format` and `state` not `NULL`; `index` is the
value the function reads through `state`, and `init` is the format
`spa_format_audio_init` writes. -/
def spa_volume_node_port_enum_formats (this : SpaVolume) (direction : SpaDirection)
    (port_id : Nat) (index : Int) (init : Nat) : SpaVolume × SpaResult :=
  if !CHECK_PORT direction port_id then (this, SpaResult.SPA_RESULT_INVALID_PORT)
  else if index = 0 then ({ this with query_format := init }, SpaResult.SPA_RESULT_OK)
  else (this, SpaResult.SPA_RESULT_ENUM_END)

/-- `spa_volume_node_port_set_format`.  `format` is `none` for `NULL`, and otherwise what
`spa_format_audio_parse` leaves in `current_format` together with its return value when
that is negative. -/
def spa_volume_node_port_set_format (this : SpaVolume) (direction : SpaDirection)
    (port_id : Nat) (format : Option (Nat × Option SpaResult)) : SpaVolume × SpaResult :=
  match format with
  | none => (this, SpaResult.SPA_RESULT_INVALID_ARGUMENTS)
  | some (parsed, err) =>
    if !CHECK_PORT direction port_id then (this, SpaResult.SPA_RESULT_INVALID_PORT)
    else
      let this1 := { this with current_format := parsed }
      match err with
      | some res => (this1, res)
      | none =>
        if direction = SpaDirection.SPA_DIRECTION_INPUT then
          ({ this1 with in_port := { this1.in_port with have_format := true } },
           SpaResult.SPA_RESULT_OK)
        else
          ({ this1 with out_port := { this1.out_port with have_format := true } },
           SpaResult.SPA_RESULT_OK)

/-- `spa_volume_node_port_get_format` with `format != NULL`: the result and `*format`. -/
def spa_volume_node_port_get_format (this : SpaVolume) (direction : SpaDirection)
    (port_id : Nat) : SpaResult × Option Nat :=
  if !CHECK_PORT direction port_id then (SpaResult.SPA_RESULT_INVALID_PORT, none)
  else if !(if direction = SpaDirection.SPA_DIRECTION_INPUT then this.in_port.have_format
            else this.out_port.have_format) then (SpaResult.SPA_RESULT_NO_FORMAT, none)
  else (SpaResult.SPA_RESULT_OK, some this.current_format)

/-- `spa_volume_node_port_get_info` with `info != NULL`: the result and the flags of
`*info`. -/
def spa_volume_node_port_get_info (this : SpaVolume) (direction : SpaDirection)
    (port_id : Nat) : SpaResult × Option (List SpaPortInfoFlag) :=
  if !CHECK_PORT direction port_id then (SpaResult.SPA_RESULT_INVALID_PORT, none)
  else if direction = SpaDirection.SPA_DIRECTION_INPUT then
    (SpaResult.SPA_RESULT_OK, some this.in_port.info_flags)
  else (SpaResult.SPA_RESULT_OK, some this.out_port.info_flags)

/-- `spa_volume_node_port_set_input`. -/
def spa_volume_node_port_set_input (this : SpaVolume) (port_id : Nat) (input : Option Nat) :
    SpaVolume × SpaResult :=
  if !CHECK_PORT SpaDirection.SPA_DIRECTION_INPUT port_id then
    (this, SpaResult.SPA_RESULT_INVALID_PORT)
  else ({ this with in_port := { this.in_port with io := input } }, SpaResult.SPA_RESULT_OK)

/-- `spa_volume_node_port_set_output`: the assignment is `this->in_ports[port_id].io =
output`. -/
def spa_volume_node_port_set_output (this : SpaVolume) (port_id : Nat) (output : Option Nat) :
    SpaVolume × SpaResult :=
  if !CHECK_PORT SpaDirection.SPA_DIRECTION_OUTPUT port_id then
    (this, SpaResult.SPA_RESULT_INVALID_PORT)
  else ({ this with in_port := { this.in_port with io := output } }, SpaResult.SPA_RESULT_OK)

/-- The operations that only return `SPA_RESULT_NOT_IMPLEMENTED`: `add_port`, `remove_port`,
`port_get_props`, `port_set_props`, `port_use_buffers`, `port_alloc_buffers`,
`port_reuse_buffer` and `port_send_command`. -/
def spa_volume_node_not_implemented : SpaResult := SpaResult.SPA_RESULT_NOT_IMPLEMENTED

/-- `spa_volume_node_get_n_ports`: the result and the four counts it writes. -/
def spa_volume_node_get_n_ports : SpaResult × Nat × Nat × Nat × Nat :=
  (SpaResult.SPA_RESULT_OK, 1, 1, 1, 1)

/-- `spa_volume_node_get_port_ids`: the result and the ids it writes to the two arrays
when they can hold one. -/
def spa_volume_node_get_port_ids (n_input_ports n_output_ports : Nat) :
    SpaResult × Option Nat × Option Nat :=
  (SpaResult.SPA_RESULT_OK, (if n_input_ports > 0 then some 0 else none),
   (if n_output_ports > 0 then some 0 else none))

/-- The record at the address `p` in the memory of the host. -/
def load (mem : List (Nat × SpaPortInput)) (p : Nat) : Option SpaPortInput :=
  mem.lookup p

/-- The memory of the host with the record at the address `p` replaced by `v`. -/
def store (mem : List (Nat × SpaPortInput)) (p : Nat) (v : SpaPortInput) :
    List (Nat × SpaPortInput) :=
  mem.map (fun e => if e.1 = p then (p, v) else e)

/-- `spa_volume_node_process_input` on the memory `mem` of the host: the new state, the new
memory and the return value; `none` when it reads through a pointer that names no record
or indexes `buffers` out of its array. -/
def spa_volume_node_process_input (this : SpaVolume) (mem : List (Nat × SpaPortInput)) :
    Option (SpaVolume × List (Nat × SpaPortInput) × SpaResult) :=
  match this.in_port.io with
  | none => some (this, mem, SpaResult.SPA_RESULT_ERROR)
  | some input =>
    match this.out_port.io with
    | none => some (this, mem, SpaResult.SPA_RESULT_ERROR)
    | some output =>
      match load mem input with
      | none => none
      | some i =>
        if i.buffer_id ≥ this.in_port.n_buffers then
          some (this,
                store mem input { i with status := SpaResult.SPA_RESULT_INVALID_BUFFER_ID },
                SpaResult.SPA_RESULT_ERROR)
        else if !this.in_port.have_format then
          some (this, store mem input { i with status := SpaResult.SPA_RESULT_NO_FORMAT },
                SpaResult.SPA_RESULT_ERROR)
        else
          match this.in_port.buffers.bind (fun arr => arr[i.buffer_id]?) with
          | none => none
          | some buffer =>
            let mem1 := store mem input
              { i with status := SpaResult.SPA_RESULT_HAVE_ENOUGH_INPUT, need_input := false }
            match load mem1 output with
            | none => none
            | some o =>
              some ({ this with in_port := { this.in_port with buffer := buffer } },
                    store mem1 output { o with have_output := true },
                    SpaResult.SPA_RESULT_HAVE_ENOUGH_INPUT)

/-- `find_free_buffer`, which returns `NULL`. -/
def find_free_buffer (_this : SpaVolume) (_port : SpaVolumePort) : Option Nat := none

/-- `spa_volume_node_process_output`.  Past the four tests the function reads through
`dbuf`, which is the `NULL` of `find_free_buffer`: in the loop test, or at `dbuf->id` when
the source buffer has no data; that has no defined behaviour and is `none`. -/
def spa_volume_node_process_output (this : SpaVolume) (mem : List (Nat × SpaPortInput)) :
    Option (SpaVolume × List (Nat × SpaPortInput) × SpaResult) :=
  match this.out_port.io with
  | none => some (this, mem, SpaResult.SPA_RESULT_ERROR)
  | some _ =>
    match this.in_port.io with
    | none => some (this, mem, SpaResult.SPA_RESULT_ERROR)
    | some _ =>
      if !this.out_port.have_format then some (this, mem, SpaResult.SPA_RESULT_NO_FORMAT)
      else
        match this.in_port.buffer with
        | none => some (this, mem, SpaResult.SPA_RESULT_NEED_MORE_INPUT)
        | some _ =>
          match find_free_buffer this this.out_port with
          | none => none
          | some _ => none

/-- The loop of `volume_init` over the support entries. -/
def scan_support (this : SpaVolume) : List SpaSupport → SpaVolume
  | [] => this
  | s :: rest =>
    if s.uri = support_uri.SPA_ID_MAP_URI then scan_support { this with map := s.data } rest
    else if s.uri = support_uri.SPA_LOG_URI then scan_support { this with log := s.data } rest
    else scan_support this rest

/-- `volume_init` with `factory` and `handle` not `NULL`.  `this` is the content of the
memory the host passes as the handle, which the function does not clear, and `node_id` is
what `spa_id_map_get_id` answers. -/
def volume_init (this : SpaVolume) (support : List SpaSupport) (node_id : Nat) :
    SpaVolume × SpaResult :=
  let this1 := scan_support this support
  if this1.map = none then (this1, SpaResult.SPA_RESULT_ERROR)
  else
    ({ this1 with
       uri_node := node_id
       node_state := SpaNodeState.SPA_NODE_STATE_INIT
       props1 := reset_volume_props
       in_port := { this1.in_port with
                    info_flags := [SpaPortInfoFlag.SPA_PORT_INFO_FLAG_CAN_USE_BUFFERS,
                                   SpaPortInfoFlag.SPA_PORT_INFO_FLAG_IN_PLACE] }
       out_port := { this1.out_port with
                     info_flags := [SpaPortInfoFlag.SPA_PORT_INFO_FLAG_CAN_ALLOC_BUFFERS,
                                    SpaPortInfoFlag.SPA_PORT_INFO_FLAG_CAN_USE_BUFFERS,
                                    SpaPortInfoFlag.SPA_PORT_INFO_FLAG_NO_REF] } },
     SpaResult.SPA_RESULT_OK)

/-- The memory of a handle as `calloc` leaves it: every field zero. -/
def zeroed : SpaVolume :=
  { uri_node := 0, map := none, log := none,
    node_state := SpaNodeState.SPA_NODE_STATE_INIT,
    props0 := { volume := 0, mute := false }, props1 := { volume := 0, mute := false },
    event_cb := none, user_data := none, have_format := false, query_format := 0,
    current_format := 0,
    in_port := { have_format := false, info_flags := [], buffers := none, n_buffers := 0,
                 buffer := none, io := none },
    out_port := { have_format := false, info_flags := [], buffers := none, n_buffers := 0,
                  buffer := none, io := none } }

/-- The states of a node: the state `volume_init` leaves in a handle whose memory holds
`NULL` in the io slot of the output port (zero-filled memory does, and the test
`this->map == NULL` of `volume_init` expects such memory), and every state one node
operation later, whatever the arguments and the answers of the library calls. -/
inductive reachable : SpaVolume → Prop
  | init (handle : SpaVolume) (support : List SpaSupport) (node_id : Nat) :
      handle.out_port.io = none → reachable (volume_init handle support node_id).1
  | get_props (this : SpaVolume) :
      reachable this → reachable (spa_volume_node_get_props this).1
  | set_props (this : SpaVolume) (props : Option (SpaResult × SpaVolumeProps)) :
      reachable this → reachable (spa_volume_node_set_props this props).1
  | send_command (this : SpaVolume) (type : SpaNodeCommandType) :
      reachable this → reachable (spa_volume_node_send_command this type).1
  | set_event_callback (this : SpaVolume) (event user_data : Option Nat) :
      reachable this → reachable (spa_volume_node_set_event_callback this event user_data).1
  | port_enum_formats (this : SpaVolume) (direction : SpaDirection) (port_id : Nat)
      (index : Int) (init : Nat) :
      reachable this →
      reachable (spa_volume_node_port_enum_formats this direction port_id index init).1
  | port_set_format (this : SpaVolume) (direction : SpaDirection) (port_id : Nat)
      (format : Option (Nat × Option SpaResult)) :
      reachable this →
      reachable (spa_volume_node_port_set_format this direction port_id format).1
  | port_set_input (this : SpaVolume) (port_id : Nat) (input : Option Nat) :
      reachable this → reachable (spa_volume_node_port_set_input this port_id input).1
  | port_set_output (this : SpaVolume) (port_id : Nat) (output : Option Nat) :
      reachable this → reachable (spa_volume_node_port_set_output this port_id output).1
  | process_input (this : SpaVolume) (mem : List (Nat × SpaPortInput)) (next : SpaVolume)
      (mem1 : List (Nat × SpaPortInput)) (res : SpaResult) :
      reachable this → spa_volume_node_process_input this mem = some (next, mem1, res) →
      reachable next
  | process_output (this : SpaVolume) (mem : List (Nat × SpaPortInput)) (next : SpaVolume)
      (mem1 : List (Nat × SpaPortInput)) (res : SpaResult) :
      reachable this → spa_volume_node_process_output this mem = some (next, mem1, res) →
      reachable next

/-- A node after `volume_init` on zero-filled memory with an id map, a format on both
ports, the record at address 100 set as input and the record at address 200 set as
output. -/
def ex_node : SpaVolume :=
  (spa_volume_node_port_set_output
    (spa_volume_node_port_set_input
      (spa_volume_node_port_set_format
        (spa_volume_node_port_set_format
          (volume_init zeroed [{ uri := support_uri.SPA_ID_MAP_URI, data := some 1 }] 5).1
          SpaDirection.SPA_DIRECTION_INPUT 0 (some (9, none))).1
        SpaDirection.SPA_DIRECTION_OUTPUT 0 (some (9, none))).1
      0 (some 100)).1
    0 (some 200)).1

/-- The memory of a host with a `SpaPortInput` record at address 100 and a `SpaPortOutput`
record at address 200. -/
def ex_mem : List (Nat × SpaPortInput) :=
  [(100, { need_input := true, have_output := false, buffer_id := 0,
           status := SpaResult.SPA_RESULT_OK }),
   (200, { need_input := false, have_output := false, buffer_id := 0,
           status := SpaResult.SPA_RESULT_OK })]

end Volume

namespace AlsaMonitor

/-- A sound card at `/devices/pci0/sound/card-12`, announced with action `add`: `atoi` reads
the id -12 in the text after `card`. -/
def ex_dev_minus12 : udev_device :=
  { action := some "add", devpath := some "/devices/pci0/sound/card-12",
    syspath := none, properties := [] }

/-- The card `create_card` sets up in the empty registry for `ex_dev_minus12`, with the
playback and the capture stream of PCM 0: `snprintf` with `hw:%u` prints the id -12 as
4294967284. -/
def ex_card_minus12 : card :=
  { ptr := 1, dev := some ex_dev_minus12, num := -12, name := "hw:4294967284",
    ctl_hndl := some 7,
    devices := [{ ptr := 2, card := 1, num := 0, direction := 0, enabled := false },
                { ptr := 3, card := 1, num := 0, direction := 1, enabled := false }] }

/-! ## Structural lemmas -/

theorem create_device_spec (this : impl) (card : card) (alloc : Bool) (dev_num direction : Int) :
    ∃ ds : List device,
      (create_device this card alloc dev_num direction).1 =
        { this with devices := this.devices ++ ds, brk := this.brk + ds.length } ∧
      (create_device this card alloc dev_num direction).2.1 =
        { card with devices := card.devices ++ ds } ∧
      ds.map (fun d => d.ptr) = List.range' this.brk ds.length ∧
      ∀ d ∈ ds, d.card = card.ptr := by
  cases alloc with
  | false => exact ⟨[], by simp [create_device]⟩
  | true =>
    exact ⟨[{ ptr := this.brk, card := card.ptr, num := dev_num, direction := direction,
              enabled := false }], by simp [create_device]⟩

theorem pcm_loop_spec (steps : List pcm_step) :
    ∀ (this : impl) (card : card), ∃ ds : List device,
      (pcm_loop this card steps).1 =
        { this with devices := this.devices ++ ds, brk := this.brk + ds.length } ∧
      (pcm_loop this card steps).2.1 = { card with devices := card.devices ++ ds } ∧
      ds.map (fun d => d.ptr) = List.range' this.brk ds.length ∧
      ∀ d ∈ ds, d.card = card.ptr := by
  induction steps with
  | nil => intro this card; exact ⟨[], by simp [pcm_loop]⟩
  | cons s rest ih =>
    intro this card
    have key : ∀ (t1 : impl) (c1 : AlsaMonitor.card) (ds1 : List device),
        t1 = { this with devices := this.devices ++ ds1, brk := this.brk + ds1.length } →
        c1 = { card with devices := card.devices ++ ds1 } →
        ds1.map (fun d => d.ptr) = List.range' this.brk ds1.length →
        (∀ d ∈ ds1, d.card = card.ptr) →
        ∃ ds : List device,
          (pcm_loop t1 c1 rest).1 =
            { this with devices := this.devices ++ ds, brk := this.brk + ds.length } ∧
          (pcm_loop t1 c1 rest).2.1 = { card with devices := card.devices ++ ds } ∧
          ds.map (fun d => d.ptr) = List.range' this.brk ds.length ∧
          ∀ d ∈ ds, d.card = card.ptr := by
      intro t1 c1 ds1 ht hc hp hb
      obtain ⟨ds2, h1, h2, h3, h4⟩ := ih t1 c1
      refine ⟨ds1 ++ ds2, ?_, ?_, ?_, ?_⟩
      · rw [h1, ht]; simp [Nat.add_assoc]
      · rw [h2, hc]; simp
      · rw [List.map_append, hp, h3, ht]
        simp [List.range'_append, Nat.add_comm]
      · intro d hd
        rcases List.mem_append.1 hd with h | h
        · exact hb d h
        · rw [h4 d h, hc]
    have key0 : ∃ ds : List device,
          (pcm_loop this card rest).1 =
            { this with devices := this.devices ++ ds, brk := this.brk + ds.length } ∧
          (pcm_loop this card rest).2.1 = { card with devices := card.devices ++ ds } ∧
          ds.map (fun d => d.ptr) = List.range' this.brk ds.length ∧
          ∀ d ∈ ds, d.card = card.ptr :=
      key this card [] (by simp) (by simp) (by simp) (by simp)
    unfold pcm_loop
    by_cases he : s.err < 0
    · simp only [he, if_true]; exact ⟨[], by simp⟩
    simp only [he, if_false]
    by_cases hn : s.dev_num < 0
    · simp only [hn, if_true]; exact ⟨[], by simp⟩
    simp only [hn, if_false]
    -- the playback probe
    have hP : ∃ ds1 : List device, ∃ e1 : Int, ∃ t1 c1,
        (if s.playback = 0 then
            create_device this card s.playback_alloc s.dev_num SND_PCM_STREAM_PLAYBACK
          else (this, card, 0)) = (t1, c1, e1) ∧
        t1 = { this with devices := this.devices ++ ds1, brk := this.brk + ds1.length } ∧
        c1 = { card with devices := card.devices ++ ds1 } ∧
        ds1.map (fun d => d.ptr) = List.range' this.brk ds1.length ∧
        (∀ d ∈ ds1, d.card = card.ptr) := by
      by_cases hp : s.playback = 0
      · obtain ⟨ds1, a, b, c, d⟩ :=
          create_device_spec this card s.playback_alloc s.dev_num SND_PCM_STREAM_PLAYBACK
        exact ⟨ds1, _, _, _, by rw [if_pos hp], a, b, c, d⟩
      · exact ⟨[], 0, this, card, by rw [if_neg hp], by simp, by simp, by simp, by simp⟩
    obtain ⟨ds1, e1, t1, c1, hr1, ht1, hc1, hp1, hb1⟩ := hP
    rw [hr1]
    by_cases hneg : e1 < 0
    · simp only [hneg, if_true]
      exact key t1 c1 ds1 ht1 hc1 hp1 hb1
    simp only [hneg, if_false]
    -- the capture probe
    have hC : ∃ ds2 : List device, ∃ e2 : Int, ∃ t2 c2,
        (if s.capture = 0 then
            create_device t1 c1 s.capture_alloc s.dev_num SND_PCM_STREAM_CAPTURE
          else (t1, c1, 0)) = (t2, c2, e2) ∧
        t2 = { this with devices := this.devices ++ ds2, brk := this.brk + ds2.length } ∧
        c2 = { card with devices := card.devices ++ ds2 } ∧
        ds2.map (fun d => d.ptr) = List.range' this.brk ds2.length ∧
        (∀ d ∈ ds2, d.card = card.ptr) := by
      by_cases hp : s.capture = 0
      · obtain ⟨ds2, a, b, c, d⟩ :=
          create_device_spec t1 c1 s.capture_alloc s.dev_num SND_PCM_STREAM_CAPTURE
        refine ⟨ds1 ++ ds2, _, _, _, by rw [if_pos hp], ?_, ?_, ?_, ?_⟩
        · rw [a, ht1]; simp [Nat.add_assoc]
        · rw [b, hc1]; simp
        · rw [List.map_append, hp1, c, ht1]; simp [List.range'_append, Nat.add_comm]
        · intro x hx
          rcases List.mem_append.1 hx with h | h
          · exact hb1 x h
          · rw [d x h, hc1]
      · exact ⟨ds1, 0, t1, c1, by rw [if_neg hp], ht1, hc1, hp1, hb1⟩
    obtain ⟨ds2, e2, t2, c2, hr2, ht2, hc2, hp2, hb2⟩ := hC
    rw [hr2]
    exact key t2 c2 ds2 ht2 hc2 hp2 hb2

theorem pcm_loop_direction (steps : List pcm_step) :
    ∀ (this : impl) (card : card),
      (∀ d ∈ card.devices,
        d.direction = SND_PCM_STREAM_PLAYBACK ∨ d.direction = SND_PCM_STREAM_CAPTURE) →
      ∀ d ∈ (pcm_loop this card steps).2.1.devices,
        d.direction = SND_PCM_STREAM_PLAYBACK ∨ d.direction = SND_PCM_STREAM_CAPTURE := by
  have hcd : ∀ (this : impl) (card : AlsaMonitor.card) (alloc : Bool) (n dir : Int),
      (dir = SND_PCM_STREAM_PLAYBACK ∨ dir = SND_PCM_STREAM_CAPTURE) →
      (∀ d ∈ card.devices,
        d.direction = SND_PCM_STREAM_PLAYBACK ∨ d.direction = SND_PCM_STREAM_CAPTURE) →
      ∀ d ∈ (create_device this card alloc n dir).2.1.devices,
        d.direction = SND_PCM_STREAM_PLAYBACK ∨ d.direction = SND_PCM_STREAM_CAPTURE := by
    intro this card alloc n dir hdir h d hd
    cases alloc with
    | false => exact h d (by simpa [create_device] using hd)
    | true =>
      simp only [create_device, Bool.not_true, Bool.false_eq_true, if_false,
        List.mem_append, List.mem_singleton] at hd
      rcases hd with hd | hd
      · exact h d hd
      · subst hd; exact hdir
  induction steps with
  | nil => intro this card h; simpa [pcm_loop] using h
  | cons s rest ih =>
    intro this card h
    unfold pcm_loop
    split
    · exact h
    split
    · exact h
    have h1 : ∀ d ∈ (if s.playback = 0 then
          create_device this card s.playback_alloc s.dev_num SND_PCM_STREAM_PLAYBACK
        else (this, card, 0)).2.1.devices,
        d.direction = SND_PCM_STREAM_PLAYBACK ∨ d.direction = SND_PCM_STREAM_CAPTURE := by
      split
      · exact hcd _ _ _ _ _ (Or.inl rfl) h
      · exact h
    simp only []
    generalize (if s.playback = 0 then
        create_device this card s.playback_alloc s.dev_num SND_PCM_STREAM_PLAYBACK
      else (this, card, 0)) = r1 at h1 ⊢
    by_cases hneg : r1.2.2 < 0
    · rw [if_pos hneg]; exact ih _ _ h1
    · rw [if_neg hneg]
      apply ih
      by_cases hcap : s.capture = 0
      · rw [if_pos hcap]; exact hcd _ _ _ _ _ (Or.inr rfl) h1
      · rw [if_neg hcap]; exact h1

/-- Either `create_card` leaves the state alone, or it links one new card, with a free id
and a fresh address, together with the devices it created for it. -/
theorem create_card_cases (this : impl) (env : card_backend) (dev : Option udev_device) :
    create_card this env dev = (this, none) ∨
    ∃ (n : Int) (c : card),
      check_card dev = some n ∧ find_card this n = none ∧ env.calloc = true ∧
      c.num = n ∧ c.ptr = this.brk ∧ c.dev = dev ∧
      c.devices.map (fun d => d.ptr) = List.range' (this.brk + 1) c.devices.length ∧
      (∀ d ∈ c.devices, d.card = this.brk ∧
        (d.direction = SND_PCM_STREAM_PLAYBACK ∨ d.direction = SND_PCM_STREAM_CAPTURE)) ∧
      (create_card this env dev).1 =
        { this with cards := this.cards ++ [c], devices := this.devices ++ c.devices,
                    brk := this.brk + 1 + c.devices.length } ∧
      ((create_card this env dev).2 = none ∨ (create_card this env dev).2 = some c) := by
  cases hc : check_card dev with
  | none => left; simp [create_card, hc]
  | some n =>
    cases hf : find_card this n with
    | some c0 => left; simp [create_card, hc, hf]
    | none =>
      cases ha : env.calloc with
      | false => left; simp [create_card, hc, hf, ha]
      | true =>
        right
        by_cases ho : env.open_err < 0
        · have hcc : create_card this env dev =
              (link_card { this with brk := this.brk + 1 }
                { ptr := this.brk, dev := dev, num := n, name := "hw:" ++ fmt_u n,
                  ctl_hndl := none, devices := [] }, none) := by
            simp [create_card, hc, hf, ha, ho]
          exact ⟨n, { ptr := this.brk, dev := dev, num := n, name := "hw:" ++ fmt_u n,
                      ctl_hndl := none, devices := [] },
            rfl, hf, rfl, rfl, rfl, rfl, by simp, by simp,
            by rw [hcc]; simp [link_card], Or.inl (by rw [hcc])⟩
        by_cases hi : env.card_info_err < 0
        · have hcc : create_card this env dev =
              (link_card { this with brk := this.brk + 1 }
                { ptr := this.brk, dev := dev, num := n, name := "hw:" ++ fmt_u n,
                  ctl_hndl := some env.open_hndl, devices := [] }, none) := by
            simp [create_card, hc, hf, ha, ho, hi]
          exact ⟨n, { ptr := this.brk, dev := dev, num := n, name := "hw:" ++ fmt_u n,
                      ctl_hndl := some env.open_hndl, devices := [] },
            rfl, hf, rfl, rfl, rfl, rfl, by simp, by simp,
            by rw [hcc]; simp [link_card], Or.inl (by rw [hcc])⟩
        obtain ⟨ds, h1, h2, h3, h4⟩ := pcm_loop_spec env.pcm { this with brk := this.brk + 1 }
          { ptr := this.brk, dev := dev, num := n, name := "hw:" ++ fmt_u n,
            ctl_hndl := some env.open_hndl, devices := [] }
        have hcc : create_card this env dev =
            (link_card { this with devices := this.devices ++ ds, brk := this.brk + 1 + ds.length }
              { ptr := this.brk, dev := dev, num := n, name := "hw:" ++ fmt_u n,
                ctl_hndl := some env.open_hndl, devices := ds },
             if (pcm_loop { this with brk := this.brk + 1 }
                  { ptr := this.brk, dev := dev, num := n, name := "hw:" ++ fmt_u n,
                    ctl_hndl := some env.open_hndl, devices := [] } env.pcm).2.2 = true
             then some { ptr := this.brk, dev := dev, num := n, name := "hw:" ++ fmt_u n,
                         ctl_hndl := some env.open_hndl, devices := ds }
             else none) := by
          simp only [create_card, hc, hf, ha, ho, hi, Bool.not_true, Bool.false_eq_true,
            if_false]
          rw [h1, h2]
          split <;> simp
        have hdir := pcm_loop_direction env.pcm { this with brk := this.brk + 1 }
          { ptr := this.brk, dev := dev, num := n, name := "hw:" ++ fmt_u n,
            ctl_hndl := some env.open_hndl, devices := [] } (by simp)
        rw [h2] at hdir
        refine ⟨n, { ptr := this.brk, dev := dev, num := n, name := "hw:" ++ fmt_u n,
                     ctl_hndl := some env.open_hndl, devices := ds },
          rfl, hf, rfl, rfl, rfl, rfl, by simpa using h3,
          fun d hd => ⟨by simpa using h4 d hd, hdir d (by simpa using hd)⟩,
          by rw [hcc]; simp [link_card], ?_⟩
        rw [hcc]
        split
        · right; rfl
        · left; rfl

theorem filter_ptr_cons (l : List device) (x : device) (rest : List device) :
    (l.filter (fun d => decide (d.ptr ≠ x.ptr))).filter
        (fun d => decide (d.ptr ∉ rest.map (fun y => y.ptr))) =
      l.filter (fun d => decide (d.ptr ∉ (x :: rest).map (fun y => y.ptr))) := by
  rw [List.filter_filter]
  apply List.filter_congr
  intro d _
  by_cases h1 : d.ptr = x.ptr <;> by_cases h2 : d.ptr ∈ rest.map (fun y => y.ptr) <;>
    simp [h1, h2]

/-- Freeing the devices `ds` one after the other unlinks the records at their addresses from
the flattened list and from every card's list. -/
theorem foldl_free_device (ds : List device) :
    ∀ this : impl, ds.foldl free_device this =
      { this with
        devices := this.devices.filter (fun d => decide (d.ptr ∉ ds.map (fun x => x.ptr)))
        cards := this.cards.map (fun c =>
          { c with devices :=
              c.devices.filter (fun d => decide (d.ptr ∉ ds.map (fun x => x.ptr))) }) } := by
  induction ds with
  | nil => intro this; simp
  | cons x rest ih =>
    intro this
    rw [List.foldl_cons, ih]
    have hd : (free_device this x).devices = this.devices.filter (fun d => decide (d.ptr ≠ x.ptr)) :=
      rfl
    have hc : (free_device this x).cards = this.cards.map (fun c =>
        { c with devices := c.devices.filter (fun d => decide (d.ptr ≠ x.ptr)) }) := rfl
    rw [hd, hc, filter_ptr_cons, List.map_map]
    congr 1
    apply List.map_congr_left
    intro c _
    simp only [Function.comp, filter_ptr_cons]

theorem remove_card_eq (this : impl) (card : card) :
    remove_card this card =
      { this with
        devices := drop_devices card.devices this.devices
        cards := (this.cards.map (card_drop_devices card.devices)).filter
          (fun c => decide (c.ptr ≠ card.ptr)) } := by
  simp only [remove_card, foldl_free_device]
  rfl


/-! ## Well-formedness is preserved -/

theorem wf_init : wf impl_init := by
  constructor <;> simp [impl_init]

/-- Well-formedness only looks at the two lists and the allocation mark. -/
theorem wf_congr {a b : impl} (hc : b.cards = a.cards) (hd : b.devices = a.devices)
    (hb : b.brk = a.brk) (h : wf a) : wf b := by
  constructor
  · rw [hc]; exact h.card_ptr_nodup
  · rw [hc]; exact h.card_num_nodup
  · rw [hc, hb]; exact h.card_ptr_lt
  · rw [hd]; exact h.dev_ptr_nodup
  · rw [hd, hb]; exact h.dev_ptr_lt
  · rw [hc]; exact h.backref
  · rw [hc, hd]; exact h.flat
  · rw [hd]; exact h.direction_ok

theorem find_card_none_iff (this : impl) (n : Int) :
    find_card this n = none ↔ ∀ c ∈ this.cards, c.num ≠ n := by
  simp [find_card]

theorem wf_create_card (this : impl) (env : card_backend) (dev : Option udev_device)
    (h : wf this) : wf (create_card this env dev).1 := by
  rcases create_card_cases this env dev with h0 | ⟨n, c, _, hf, _, hn, hp, _, hptr, hback, hst, _⟩
  · rw [h0]; exact h
  · rw [hst]
    have hfree := (find_card_none_iff this n).1 hf
    constructor
    · show ((this.cards ++ [c]).map (fun c => c.ptr)).Nodup
      rw [List.map_append, List.nodup_append]
      refine ⟨h.card_ptr_nodup, by simp, ?_⟩
      intro x hx hx2
      obtain ⟨c0, hc0, rfl⟩ := List.mem_map.1 hx
      have := h.card_ptr_lt c0 hc0
      simp at hx2
      omega
    · show ((this.cards ++ [c]).map (fun c => c.num)).Nodup
      rw [List.map_append, List.nodup_append]
      refine ⟨h.card_num_nodup, by simp, ?_⟩
      intro x hx hx2
      obtain ⟨c0, hc0, rfl⟩ := List.mem_map.1 hx
      simp at hx2
      exact hfree c0 hc0 (by rw [hx2, hn])
    · intro c0 hc0
      show c0.ptr < this.brk + 1 + c.devices.length
      rcases List.mem_append.1 hc0 with h1 | h1
      · have := h.card_ptr_lt c0 h1; omega
      · simp at h1; rw [h1, hp]; omega
    · show ((this.devices ++ c.devices).map (fun d => d.ptr)).Nodup
      rw [List.map_append, List.nodup_append, hptr]
      refine ⟨h.dev_ptr_nodup, List.nodup_range' _ _, ?_⟩
      intro x hx hx2
      obtain ⟨d0, hd0, rfl⟩ := List.mem_map.1 hx
      have := h.dev_ptr_lt d0 hd0
      rw [List.mem_range'_1] at hx2
      omega
    · intro d hd
      show d.ptr < this.brk + 1 + c.devices.length
      rcases List.mem_append.1 hd with h1 | h1
      · have := h.dev_ptr_lt d h1; omega
      · have hm : d.ptr ∈ c.devices.map (fun d => d.ptr) := List.mem_map_of_mem _ h1
        rw [hptr, List.mem_range'_1] at hm
        omega
    · intro c0 hc0 d hd
      rcases List.mem_append.1 hc0 with h1 | h1
      · exact h.backref c0 h1 d hd
      · simp at h1; subst h1; rw [(hback d hd).1, hp]
    · show this.devices ++ c.devices = (this.cards ++ [c]).flatMap (fun c => c.devices)
      rw [List.flatMap_append, List.flatMap_singleton, ← h.flat]
    · intro d hd
      rcases List.mem_append.1 hd with h1 | h1
      · exact h.direction_ok d h1
      · exact (hback d h1).2

theorem flatMap_filter_of_nil {α β : Type} (f : α → List β) (q : α → Bool) (l : List α)
    (h : ∀ x ∈ l, q x = false → f x = []) : (l.filter q).flatMap f = l.flatMap f := by
  induction l with
  | nil => rfl
  | cons a t ih =>
    have iht := ih (fun x hx => h x (List.mem_cons_of_mem _ hx))
    cases hq : q a with
    | true => rw [List.filter_cons_of_pos hq, List.flatMap_cons, List.flatMap_cons, iht]
    | false =>
      rw [List.filter_cons_of_neg (by simp [hq]), List.flatMap_cons, iht,
        h a (List.mem_cons_self _ _) hq, List.nil_append]

theorem drop_devices_self (ds : List device) : drop_devices ds ds = [] := by
  unfold drop_devices
  rw [List.filter_eq_nil_iff]
  intro d hd
  simp only [decide_eq_true_eq, not_not]
  exact List.mem_map_of_mem _ hd

theorem wf_remove_card (this : impl) (card : card) (h : wf this) (hmem : card ∈ this.cards) :
    wf (remove_card this card) := by
  rw [remove_card_eq]
  have hsub : List.Sublist ((this.cards.map (card_drop_devices card.devices)).filter
      (fun c => decide (c.ptr ≠ card.ptr))) (this.cards.map (card_drop_devices card.devices)) :=
    List.filter_sublist _
  have hmemc : ∀ c0 ∈ (this.cards.map (card_drop_devices card.devices)).filter
      (fun c => decide (c.ptr ≠ card.ptr)),
      ∃ c1 ∈ this.cards, c0 = card_drop_devices card.devices c1 := by
    intro c0 hc0
    obtain ⟨c1, hc1, rfl⟩ := List.mem_map.1 (hsub.subset hc0)
    exact ⟨c1, hc1, rfl⟩
  constructor
  · have := (hsub.map (fun c => c.ptr))
    rw [List.map_map] at this
    exact List.Nodup.sublist this h.card_ptr_nodup
  · have := (hsub.map (fun c => c.num))
    rw [List.map_map] at this
    exact List.Nodup.sublist this h.card_num_nodup
  · intro c0 hc0
    obtain ⟨c1, hc1, rfl⟩ := hmemc c0 hc0
    exact h.card_ptr_lt c1 hc1
  · exact List.Nodup.sublist ((List.filter_sublist _).map _) h.dev_ptr_nodup
  · intro d hd
    exact h.dev_ptr_lt d (List.mem_of_mem_filter hd)
  · intro c0 hc0 d hd
    obtain ⟨c1, hc1, rfl⟩ := hmemc c0 hc0
    exact h.backref c1 hc1 d (List.mem_of_mem_filter hd)
  · show drop_devices card.devices this.devices = _
    rw [flatMap_filter_of_nil, List.flatMap_map]
    · conv_lhs => rw [h.flat]
      unfold drop_devices
      rw [List.filter_flatMap]
      rfl
    · intro x hx hq
      obtain ⟨c1, hc1, rfl⟩ := List.mem_map.1 hx
      have hp : c1.ptr = card.ptr := by simpa [card_drop_devices] using hq
      have : c1 = card := List.inj_on_of_nodup_map h.card_ptr_nodup hc1 hmem hp
      subst this
      exact drop_devices_self _
  · intro d hd
    exact h.direction_ok d (List.mem_of_mem_filter hd)

theorem wf_scan_devices (l : List (Option udev_device × card_backend)) :
    ∀ this : impl, wf this → wf (scan_devices this l) := by
  induction l with
  | nil => intro this h; exact h
  | cons a rest ih =>
    intro this h
    obtain ⟨dev, env⟩ := a
    exact ih _ (wf_create_card this env dev h)

theorem wf_udev_open (this : impl) (env : backend) (h : wf this) :
    wf (impl_udev_open this env) := by
  unfold impl_udev_open
  split
  · exact h
  · split
    · exact h
    · exact wf_scan_devices _ _ (@wf_congr this _ rfl rfl rfl h)


/-! ## The dispatcher, case by case -/

/-- An action that is neither `add`, `change` nor `remove` ends the dispatcher at once. -/
theorem on_fd_events_unknown (this : impl) (env : backend) (dev : Option udev_device)
    (h : action_type ((udev_device_get_action dev).getD "change") = none) :
    impl_on_fd_events this env dev = some (this, []) := by
  simp [impl_on_fd_events, h]

/-- The dispatcher on `add` and `change`: what `create_card` returns decides. -/
theorem on_fd_events_create (this : impl) (env : backend) (dev : Option udev_device)
    (t : monitor_event)
    (h : action_type ((udev_device_get_action dev).getD "change") = some t)
    (ht : t ≠ monitor_event.Removed) :
    impl_on_fd_events this env dev =
      match (create_card this env.create dev).2 with
      | none => some ((create_card this env.create dev).1, [])
      | some card =>
        if env.card_info_err < 0 then some ((create_card this env.create dev).1, [])
        else
          (emit_events (create_card this env.create dev).1 env t card.devices).map
            (fun evs => ((create_card this env.create dev).1, evs)) := by
  have hac : t = monitor_event.Added ∨ t = monitor_event.Changed := by
    cases t <;> simp at ht ⊢
  cases hc : (create_card this env.create dev).2 with
  | none => simp [impl_on_fd_events, h, hac, hc]
  | some card =>
    by_cases he : env.card_info_err < 0
    · simp [impl_on_fd_events, h, hac, hc, he]
    · cases hem : emit_events (create_card this env.create dev).1 env t card.devices with
      | none => simp [impl_on_fd_events, h, hac, hc, he, hem]
      | some evs => simp [impl_on_fd_events, h, hac, hc, he, hem, ht]

/-- The dispatcher on `remove`: the filter and `find_card` decide. -/
theorem on_fd_events_remove (this : impl) (env : backend) (dev : Option udev_device)
    (h : action_type ((udev_device_get_action dev).getD "change") =
      some monitor_event.Removed) :
    impl_on_fd_events this env dev =
      match check_card dev with
      | none => some (this, [])
      | some card_num =>
        match find_card this card_num with
        | none => some (this, [])
        | some card =>
          if env.card_info_err < 0 then some (this, [])
          else
            (emit_events this env monitor_event.Removed card.devices).map
              (fun evs => (remove_card this card, evs)) := by
  cases hc : check_card dev with
  | none => simp [impl_on_fd_events, h, hc]
  | some n =>
    cases hf : find_card this n with
    | none => simp [impl_on_fd_events, h, hc, hf]
    | some card =>
      by_cases he : env.card_info_err < 0
      · simp [impl_on_fd_events, h, hc, hf, he]
      · cases hem : emit_events this env monitor_event.Removed card.devices with
        | none => simp [impl_on_fd_events, h, hc, hf, he, hem]
        | some evs => simp [impl_on_fd_events, h, hc, hf, he, hem]

/-- The state after a dispatcher wake-up is the old state, the state after `create_card`,
or the old state with one of its cards removed. -/
theorem on_fd_events_state (this : impl) (env : backend) (dev : Option udev_device)
    (next : impl) (evs : List spa_event)
    (h : impl_on_fd_events this env dev = some (next, evs)) :
    next = this ∨ next = (create_card this env.create dev).1 ∨
      ∃ card ∈ this.cards, next = remove_card this card := by
  cases ha : action_type ((udev_device_get_action dev).getD "change") with
  | none =>
    rw [on_fd_events_unknown this env dev ha] at h
    left; simp at h; exact h.1.symm
  | some t =>
    by_cases ht : t = monitor_event.Removed
    · subst ht
      rw [on_fd_events_remove this env dev ha] at h
      cases hc : check_card dev with
      | none => simp only [hc] at h; left; simp at h; exact h.1.symm
      | some n =>
        simp only [hc] at h
        cases hf : find_card this n with
        | none => simp only [hf] at h; left; simp at h; exact h.1.symm
        | some card =>
          simp only [hf] at h
          split at h
          · left; simp at h; exact h.1.symm
          · right; right
            refine ⟨card, List.mem_of_find?_eq_some hf, ?_⟩
            cases he : emit_events this env monitor_event.Removed card.devices with
            | none => simp only [he] at h; simp at h
            | some e => simp only [he] at h; simp at h; exact h.1.symm
    · rw [on_fd_events_create this env dev t ha ht] at h
      right; left
      cases hc : (create_card this env.create dev).2 with
      | none => simp only [hc] at h; simp at h; exact h.1.symm
      | some card =>
        simp only [hc] at h
        split at h
        · simp at h; exact h.1.symm
        · cases he : emit_events (create_card this env.create dev).1 env t card.devices with
          | none => simp only [he] at h; simp at h
          | some e => simp only [he] at h; simp at h; exact h.1.symm

/-- An `enum_items` call changes the registry only through `impl_udev_open`. -/
theorem enum_items_state (this : impl) (env : backend) (index : Nat) (next : impl)
    (r : enum_result) (h : impl_monitor_enum_items this env index = some (next, r)) :
    next.cards = (impl_udev_open this env).cards ∧
    next.devices = (impl_udev_open this env).devices ∧
    next.brk = (impl_udev_open this env).brk ∧
    next.udev = (impl_udev_open this env).udev := by
  unfold impl_monitor_enum_items at h
  simp only [] at h
  split at h
  · exact absurd h (by simp)
  · rename_i cur idx _
    split at h
    · simp at h; obtain ⟨h1, _⟩ := h; subst h1; split <;> simp
    · exact absurd h (by simp)
    · split at h
      · exact absurd h (by simp)
      · split at h
        · exact absurd h (by simp)
        · split at h <;> (simp at h; obtain ⟨h1, _⟩ := h; subst h1; split <;> simp)

theorem reachable_wf (this : impl) (h : reachable this) : wf this := by
  induction h with
  | init => exact wf_init
  | scan this env dev _ ih => exact wf_create_card this env dev ih
  | udev_open this env _ ih => exact wf_udev_open this env ih
  | notify this env dev next evs _ hstep ih =>
    rcases on_fd_events_state this env dev next evs hstep with h1 | h1 | ⟨card, hm, h1⟩
    · rw [h1]; exact ih
    · rw [h1]; exact wf_create_card this env.create dev ih
    · rw [h1]; exact wf_remove_card this card ih hm
  | enum_items this env index next r _ hstep ih =>
    obtain ⟨h1, h2, h3, _⟩ := enum_items_state this env index next r hstep
    exact wf_congr h1 h2 h3 (wf_udev_open this env ih)


/-! ## Card ids are unique (C1) -/

/-- C1: in every registry state reachable from the state after `impl_init` by card creations
of the initial scan, dispatched notifications of any action and `enum_items` calls, whatever
the environment answers to each call, no two cards of the card list have the same id. -/
theorem C1_card_ids_unique (this : impl) (h : reachable this) :
    (this.cards.map (fun c => c.num)).Nodup :=
  (reachable_wf this h).card_num_nodup

/-- C1 at the state reached by scanning card 0, failing to open card 3, and then receiving
a second `add` for card 3: the ids are 0 and 3. -/
theorem C1_card_ids_unique_witness :
    reachable
      (create_card (create_card (create_card impl_init ex_card_ok (some ex_dev0)).1
        ex_card_open_fails (some ex_dev3)).1 ex_card_ok (some ex_dev3)).1 ∧
    ((create_card (create_card (create_card impl_init ex_card_ok (some ex_dev0)).1
        ex_card_open_fails (some ex_dev3)).1 ex_card_ok (some ex_dev3)).1.cards.map
      (fun c => c.num)) = [0, 3] ∧
    ((create_card (create_card (create_card impl_init ex_card_ok (some ex_dev0)).1
        ex_card_open_fails (some ex_dev3)).1 ex_card_ok (some ex_dev3)).1.cards.map
      (fun c => c.num)).Nodup :=
  ⟨reachable.scan _ _ _ (reachable.scan _ _ _ (reachable.scan _ _ _ reachable.init)),
   by decide,
   C1_card_ids_unique _
     (reachable.scan _ _ _ (reachable.scan _ _ _ (reachable.scan _ _ _ reachable.init)))⟩

/-! ## `create_card` on a known id (C3) -/

theorem find_card_isSome_of_mem (this : impl) (n : Int) (c : card) (hc : c ∈ this.cards)
    (hn : c.num = n) : ∃ c0, find_card this n = some c0 := by
  cases hf : find_card this n with
  | some c0 => exact ⟨c0, rfl⟩
  | none => exact absurd hn ((find_card_none_iff this n).1 hf c hc)

/-- C3: when the identifier resolves to an id that a card of the registry already has,
`create_card` returns `NULL` and the state it leaves is the state it found, whatever the
backend would have answered: the card list, every card's device list and the flattened
device list are the same, so no card is added and no device is probed again. -/
theorem C3_create_card_known_id (this : impl) (env : card_backend) (dev : Option udev_device)
    (n : Int) (hchk : check_card dev = some n) (hex : ∃ c ∈ this.cards, c.num = n) :
    create_card this env dev = (this, none) := by
  obtain ⟨c, hc, hn⟩ := hex
  obtain ⟨c0, hf⟩ := find_card_isSome_of_mem this n c hc hn
  simp [create_card, hchk, hf]

/-- C3 at the registry holding card 0, for a new `add` of card 0. -/
theorem C3_create_card_known_id_witness :
    check_card (some ex_dev0) = some 0 ∧ (∃ c ∈ ex_one_card.cards, c.num = 0) ∧
    create_card ex_one_card ex_card_ok (some ex_dev0) = (ex_one_card, none) :=
  ⟨by decide, by decide,
   C3_create_card_known_id ex_one_card ex_card_ok (some ex_dev0) 0 (by decide) (by decide)⟩

/-! ## `remove` for an id that is not tracked (C7) -/

/-- C7: a `remove` notification whose identifier the filter rejects, or which resolves to an
id no card of the registry has, makes the dispatcher invoke the callback zero times and
leaves the state as it was: card list, device lists and flattened list are unchanged. -/
theorem C7_remove_untracked (this : impl) (env : backend) (dev : Option udev_device)
    (hact : udev_device_get_action dev = some "remove")
    (hid : check_card dev = none ∨
      ∃ n, check_card dev = some n ∧ ∀ c ∈ this.cards, c.num ≠ n) :
    impl_on_fd_events this env dev = some (this, []) := by
  have ha : action_type ((udev_device_get_action dev).getD "change") =
      some monitor_event.Removed := by
    rw [hact]; decide
  rw [on_fd_events_remove this env dev ha]
  rcases hid with h | ⟨n, h, hfree⟩
  · simp [h]
  · simp [h, (find_card_none_iff this n).2 hfree]

/-- C7 at the registry holding card 0, for a `remove` of card 3. -/
theorem C7_remove_untracked_witness :
    udev_device_get_action (some { ex_dev3 with action := some "remove" }) = some "remove" ∧
    (∃ n, check_card (some { ex_dev3 with action := some "remove" }) = some n ∧
      ∀ c ∈ ex_one_card.cards, c.num ≠ n) ∧
    impl_on_fd_events ex_one_card ex_env (some { ex_dev3 with action := some "remove" }) =
      some (ex_one_card, []) :=
  ⟨by decide, ⟨3, by decide, by decide⟩,
   C7_remove_untracked ex_one_card ex_env (some { ex_dev3 with action := some "remove" })
     (by decide) (Or.inr ⟨3, by decide, by decide⟩)⟩

/-! ## The action of a notification (C8) -/

theorem emit_events_type (this : impl) (env : backend) (t : monitor_event) (ds : List device) :
    ∀ evs, emit_events this env t ds = some evs → ∀ e ∈ evs, e.type = t := by
  induction ds with
  | nil => intro evs h; simp [emit_events] at h; subst h; simp
  | cons d rest ih =>
    intro evs h
    unfold emit_events at h
    split at h
    · exact absurd h (by simp)
    · split at h
      · exact absurd h (by simp)
      · rename_i evs0 he
        simp at h
        subst h
        intro e hmem
        rcases List.mem_cons.1 hmem with h1 | h1
        · subst h1; rfl
        · exact ih evs0 he e h1

/-- C8: the dispatcher takes `add` for `Added`, `change` for `Changed`, a notification
without action for `Changed` and `remove` for `Removed`; every event it hands to the
callback carries the type its action stands for; and for every other action string it
invokes the callback zero times and leaves the state as it was. -/
theorem C8_action_mapping :
    (∀ dev, udev_device_get_action dev = some "add" →
      action_type ((udev_device_get_action dev).getD "change") = some monitor_event.Added) ∧
    (∀ dev, udev_device_get_action dev = some "change" →
      action_type ((udev_device_get_action dev).getD "change") = some monitor_event.Changed) ∧
    (∀ dev, udev_device_get_action dev = none →
      action_type ((udev_device_get_action dev).getD "change") = some monitor_event.Changed) ∧
    (∀ dev, udev_device_get_action dev = some "remove" →
      action_type ((udev_device_get_action dev).getD "change") = some monitor_event.Removed) ∧
    (∀ (this : impl) (env : backend) (dev : Option udev_device) (next : impl)
        (evs : List spa_event),
      impl_on_fd_events this env dev = some (next, evs) →
      ∀ e ∈ evs,
        action_type ((udev_device_get_action dev).getD "change") = some e.type) ∧
    (∀ (this : impl) (env : backend) (dev : Option udev_device) (a : String),
      udev_device_get_action dev = some a → a ≠ "add" → a ≠ "change" → a ≠ "remove" →
      impl_on_fd_events this env dev = some (this, [])) := by
  refine ⟨?_, ?_, ?_, ?_, ?_, ?_⟩
  · intro dev h; rw [h]; decide
  · intro dev h; rw [h]; decide
  · intro dev h; rw [h]; decide
  · intro dev h; rw [h]; decide
  · intro this env dev next evs h e he
    cases ha : action_type ((udev_device_get_action dev).getD "change") with
    | none =>
      rw [on_fd_events_unknown this env dev ha] at h
      simp at h
      rw [h.2] at he
      simp at he
    | some t =>
      have key : ∀ (s : impl) (ds : List device) (f : List spa_event → impl × List spa_event),
          (∀ l, (f l).2 = l) →
          (emit_events s env t ds).map f = some (next, evs) → e.type = t := by
        intro s ds f hf hm
        cases hem : emit_events s env t ds with
        | none => rw [hem] at hm; simp at hm
        | some l =>
          rw [hem] at hm
          simp at hm
          have : l = evs := by rw [← hf l, hm]
          exact emit_events_type s env t ds l hem e (this ▸ he)
      have nil : ∀ s : impl, some (s, ([] : List spa_event)) = some (next, evs) → e.type = t := by
        intro s hs
        simp at hs
        rw [hs.2] at he
        simp at he
      congr 1
      symm
      by_cases ht : t = monitor_event.Removed
      · subst ht
        rw [on_fd_events_remove this env dev ha] at h
        split at h
        · exact nil _ h
        · split at h
          · exact nil _ h
          · split at h
            · exact nil _ h
            · exact key _ _ _ (fun _ => rfl) h
      · rw [on_fd_events_create this env dev t ha ht] at h
        split at h
        · exact nil _ h
        · split at h
          · exact nil _ h
          · exact key _ _ _ (fun _ => rfl) h
  · intro this env dev a h h1 h2 h3
    apply on_fd_events_unknown
    rw [h]
    simp [action_type, h1, h2, h3]

/-- C8 at the registry holding card 0, for a notification of card 0 with action `bind`. -/
theorem C8_action_mapping_witness :
    udev_device_get_action (some { ex_dev0 with action := some "bind" }) = some "bind" ∧
    impl_on_fd_events ex_one_card ex_env (some { ex_dev0 with action := some "bind" }) =
      some (ex_one_card, []) :=
  ⟨by decide,
   C8_action_mapping.2.2.2.2.2 ex_one_card ex_env (some { ex_dev0 with action := some "bind" })
     "bind" (by decide) (by decide) (by decide) (by decide)⟩


/-! ## Events of the dispatcher (C2, C5, C6) -/

theorem deref_card_of_mem (this : impl) (c : card)
    (hnd : (this.cards.map (fun c => c.ptr)).Nodup) (hc : c ∈ this.cards) :
    deref_card this c.ptr = some c := by
  unfold deref_card
  cases hf : this.cards.find? (fun c0 => decide (c0.ptr = c.ptr)) with
  | none =>
    rw [List.find?_eq_none] at hf
    exact absurd (hf c hc) (by simp)
  | some c0 =>
    have h1 : c0.ptr = c.ptr := by simpa using List.find?_some hf
    rw [List.inj_on_of_nodup_map hnd (List.mem_of_find?_eq_some hf) hc h1]

theorem find_card_of_mem (this : impl) (c : card)
    (hnd : (this.cards.map (fun c => c.num)).Nodup) (hc : c ∈ this.cards) :
    find_card this c.num = some c := by
  unfold find_card
  cases hf : this.cards.find? (fun c0 => decide (c0.num = c.num)) with
  | none =>
    rw [List.find?_eq_none] at hf
    exact absurd (hf c hc) (by simp)
  | some c0 =>
    have h1 : c0.num = c.num := by simpa using List.find?_some hf
    rw [List.inj_on_of_nodup_map hnd (List.mem_of_find?_eq_some hf) hc h1]

/-- When every device of the list points back to the card `c`, the loop hands the callback
one event per device, in list order, each with the item built from that device and `c`. -/
theorem emit_events_eq (this : impl) (env : backend) (t : monitor_event) (c : card)
    (ds : List device) (h : ∀ d ∈ ds, deref_card this d.card = some c) :
    emit_events this env t ds =
      some (ds.map (fun d =>
        { type := t, item := (fill_item c d env.card_info (env.pcm_info d)).toOption })) := by
  induction ds with
  | nil => rfl
  | cons d rest ih =>
    have hr := ih (fun x hx => h x (List.mem_cons_of_mem _ hx))
    simp [emit_events, h d (List.mem_cons_self _ _), hr]

theorem pcm_loop_ok (steps : List pcm_step) :
    ∀ (this : impl) (card : card), (∀ s ∈ steps, 0 ≤ s.err) →
      (pcm_loop this card steps).2.2 = true := by
  induction steps with
  | nil => intro this card _; rfl
  | cons s rest ih =>
    intro this card h
    have hs : ¬ s.err < 0 := not_lt.2 (h s (List.mem_cons_self _ _))
    have hrest : ∀ x ∈ rest, 0 ≤ x.err := fun x hx => h x (List.mem_cons_of_mem _ hx)
    unfold pcm_loop
    rw [if_neg hs]
    by_cases hn : s.dev_num < 0
    · rw [if_pos hn]
    · rw [if_neg hn]
      simp only []
      generalize (if s.playback = 0 then
          create_device this card s.playback_alloc s.dev_num SND_PCM_STREAM_PLAYBACK
        else (this, card, 0)) = r1
      by_cases hneg : r1.2.2 < 0
      · rw [if_pos hneg]; exact ih _ _ hrest
      · rw [if_neg hneg]; exact ih _ _ hrest

/-- With a free id, a successful allocation, a control interface that opens and answers
the card query, and a PCM iteration without error, `create_card` returns the new card. -/
theorem create_card_some (this : impl) (env : card_backend) (dev : Option udev_device)
    (n : Int) (hchk : check_card dev = some n) (hnew : ∀ c ∈ this.cards, c.num ≠ n)
    (halloc : env.calloc = true) (hopen : 0 ≤ env.open_err) (hinfo : 0 ≤ env.card_info_err)
    (hpcm : ∀ s ∈ env.pcm, 0 ≤ s.err) :
    ∃ c, (create_card this env dev).2 = some c := by
  have hf := (find_card_none_iff this n).2 hnew
  have ho : ¬ env.open_err < 0 := not_lt.2 hopen
  have hi : ¬ env.card_info_err < 0 := not_lt.2 hinfo
  simp only [create_card, hchk, hf, halloc, ho, hi, Bool.not_true, Bool.false_eq_true,
    if_false]
  rw [if_pos (pcm_loop_ok env.pcm _ _ hpcm)]
  exact ⟨_, rfl⟩

/-- C2: for a well-formed registry and an `add` notification whose identifier passes the
filter and resolves to an id `n` no card has, when the allocation of the card, the opening of
the control interface, both card queries and every step of the PCM iteration succeed, the
dispatcher appends exactly one card `c` with id `n` (the card `create_card` returns), appends
the devices created under it to the flattened list, and invokes the callback exactly once
per device of `c`, in creation order, each time with type `Added` and the item built from
that device; the cards and devices that were there are unchanged. -/
theorem C2_add_new_card (this : impl) (env : backend) (dev : Option udev_device) (n : Int)
    (hwf : wf this)
    (hact : udev_device_get_action dev = some "add")
    (hchk : check_card dev = some n) (hnew : ∀ c ∈ this.cards, c.num ≠ n)
    (halloc : env.create.calloc = true) (hopen : 0 ≤ env.create.open_err)
    (hinfo : 0 ≤ env.create.card_info_err) (hpcm : ∀ s ∈ env.create.pcm, 0 ≤ s.err)
    (hquery : 0 ≤ env.card_info_err) :
    ∃ c : card,
      c.num = n ∧
      (create_card this env.create dev).2 = some c ∧
      impl_on_fd_events this env dev =
        some ({ this with cards := this.cards ++ [c], devices := this.devices ++ c.devices,
                          brk := this.brk + 1 + c.devices.length },
              c.devices.map (fun d =>
                { type := monitor_event.Added,
                  item := (fill_item c d env.card_info (env.pcm_info d)).toOption })) := by
  have ha : action_type ((udev_device_get_action dev).getD "change") =
      some monitor_event.Added := by
    rw [hact]; decide
  obtain ⟨c1, hsome⟩ := create_card_some this env.create dev n hchk hnew halloc hopen hinfo hpcm
  have hwf2 := wf_create_card this env.create dev hwf
  rcases create_card_cases this env.create dev with
    h0 | ⟨n2, c, hchk2, _, _, hn, hp, _, _, hback, hst, hret⟩
  · rw [h0] at hsome; exact absurd hsome (by simp)
  · have hc1 : c1 = c := by
      rcases hret with h | h
      · rw [h] at hsome; exact absurd hsome (by simp)
      · rw [h] at hsome; exact (Option.some.inj hsome).symm
    subst hc1
    have hn2 : n2 = n := by rw [hchk] at hchk2; exact (Option.some.inj hchk2).symm
    refine ⟨c1, by rw [hn, hn2], hsome, ?_⟩
    rw [on_fd_events_create this env dev monitor_event.Added ha (by decide), hsome]
    simp only [if_neg (not_lt.2 hquery)]
    have hmem : c1 ∈ (create_card this env.create dev).1.cards := by rw [hst]; simp
    have hderef : ∀ d ∈ c1.devices,
        deref_card (create_card this env.create dev).1 d.card = some c1 := by
      intro d hd
      rw [(hback d hd).1, ← hp]
      exact deref_card_of_mem _ c1 hwf2.card_ptr_nodup hmem
    rw [emit_events_eq _ env monitor_event.Added c1 c1.devices hderef, hst]
    rfl

/-- C2 at the registry holding card 0, for an `add` of card 3 with one playback and one
capture stream: card 3 is appended and two `Added` events are handed to the callback. -/
theorem C2_add_new_card_witness :
    wf ex_one_card ∧
    udev_device_get_action (some ex_dev3) = some "add" ∧
    check_card (some ex_dev3) = some 3 ∧ (∀ c ∈ ex_one_card.cards, c.num ≠ 3) ∧
    ∃ c : card,
      c.num = 3 ∧
      (create_card ex_one_card ex_env.create (some ex_dev3)).2 = some c ∧
      impl_on_fd_events ex_one_card ex_env (some ex_dev3) =
        some ({ ex_one_card with
                  cards := ex_one_card.cards ++ [c],
                  devices := ex_one_card.devices ++ c.devices,
                  brk := ex_one_card.brk + 1 + c.devices.length },
              c.devices.map (fun d =>
                { type := monitor_event.Added,
                  item := (fill_item c d ex_env.card_info (ex_env.pcm_info d)).toOption })) :=
  ⟨by constructor <;> decide, by decide, by decide, by decide,
   C2_add_new_card ex_one_card ex_env (some ex_dev3) 3 (by constructor <;> decide) (by decide)
     (by decide) (by decide) (by decide) (by decide) (by decide) (by decide) (by decide)⟩


/-- C5, as stated, fails: the registry holds card 0 with two devices, the card query
succeeds, and a `change` notification for card 0 makes the dispatcher hand no event to the
callback, not one per device. -/
theorem C5_change_known_card_counterexample :
    ∃ c ∈ ex_one_card.cards,
      c.num = 0 ∧ c.devices.length = 2 ∧
      udev_device_get_action (some ex_dev0_change) = some "change" ∧
      check_card (some ex_dev0_change) = some 0 ∧ 0 ≤ ex_env.card_info_err ∧
      impl_on_fd_events ex_one_card ex_env (some ex_dev0_change) = some (ex_one_card, []) ∧
      ¬ ∃ next evs,
          impl_on_fd_events ex_one_card ex_env (some ex_dev0_change) = some (next, evs) ∧
          evs.length = c.devices.length := by
  have h : impl_on_fd_events ex_one_card ex_env (some ex_dev0_change) =
      some (ex_one_card, []) := by decide
  refine ⟨_, List.mem_cons_self _ _, by decide, by decide, by decide, by decide, by decide,
    h, ?_⟩
  rintro ⟨next, evs, h1, h2⟩
  rw [h] at h1
  simp at h1
  rw [h1.2] at h2
  exact absurd h2 (by decide)

/-- C5, amended: when the registry holds a card with id `n`, a notification with action
`change`, or with no action, whose identifier resolves to `n` makes the dispatcher invoke
the callback zero times and leaves the state as it was: `create_card` returns `NULL` for a
known id and the dispatcher does not look the card up. -/
theorem C5_change_known_card (this : impl) (env : backend) (dev : Option udev_device)
    (n : Int)
    (hact : udev_device_get_action dev = some "change" ∨ udev_device_get_action dev = none)
    (hchk : check_card dev = some n) (hex : ∃ c ∈ this.cards, c.num = n) :
    impl_on_fd_events this env dev = some (this, []) := by
  have ha : action_type ((udev_device_get_action dev).getD "change") =
      some monitor_event.Changed := by
    rcases hact with h | h <;> rw [h] <;> decide
  obtain ⟨c, hc, hn⟩ := hex
  obtain ⟨c0, hf⟩ := find_card_isSome_of_mem this n c hc hn
  have hcc : create_card this env.create dev = (this, none) := by
    simp [create_card, hchk, hf]
  rw [on_fd_events_create this env dev monitor_event.Changed ha (by decide), hcc]

/-- C5, amended, at the registry holding card 0, for a `change` of card 0. -/
theorem C5_change_known_card_witness :
    udev_device_get_action (some ex_dev0_change) = some "change" ∧
    check_card (some ex_dev0_change) = some 0 ∧ (∃ c ∈ ex_one_card.cards, c.num = 0) ∧
    impl_on_fd_events ex_one_card ex_env (some ex_dev0_change) = some (ex_one_card, []) :=
  ⟨by decide, by decide, by decide,
   C5_change_known_card ex_one_card ex_env (some ex_dev0_change) 0 (Or.inl (by decide))
     (by decide) (by decide)⟩

/-- C6: for a well-formed registry holding a card `c` with id `n` whose card query succeeds,
a `remove` notification resolving to `n` makes the dispatcher invoke the callback exactly
once per device of `c`, in the order of the card's device list, each time with type
`Removed` and the item built from that device while the card is still linked, and then
removes the card: in the state it leaves `find_card` finds no card with id `n` and none of
the devices of `c` is in the flattened list. -/
theorem C6_remove_known_card (this : impl) (env : backend) (dev : Option udev_device)
    (n : Int) (c : card) (hwf : wf this)
    (hact : udev_device_get_action dev = some "remove")
    (hchk : check_card dev = some n) (hc : c ∈ this.cards) (hn : c.num = n)
    (hquery : 0 ≤ env.card_info_err) :
    ∃ evs : List spa_event,
      impl_on_fd_events this env dev = some (remove_card this c, evs) ∧
      evs = c.devices.map (fun d =>
              { type := monitor_event.Removed,
                item := (fill_item c d env.card_info (env.pcm_info d)).toOption }) ∧
      evs.length = c.devices.length ∧
      find_card (remove_card this c) n = none ∧
      ∀ d ∈ c.devices, d ∉ (remove_card this c).devices := by
  have ha : action_type ((udev_device_get_action dev).getD "change") =
      some monitor_event.Removed := by
    rw [hact]; decide
  have hf : find_card this n = some c := by
    rw [← hn]; exact find_card_of_mem this c hwf.card_num_nodup hc
  have hderef : ∀ d ∈ c.devices, deref_card this d.card = some c := by
    intro d hd
    rw [hwf.backref c hc d hd]
    exact deref_card_of_mem this c hwf.card_ptr_nodup hc
  refine ⟨_, ?_, rfl, by simp, ?_, ?_⟩
  · rw [on_fd_events_remove this env dev ha]
    simp only [hchk, hf, if_neg (not_lt.2 hquery)]
    rw [emit_events_eq this env monitor_event.Removed c c.devices hderef]
    rfl
  · rw [find_card_none_iff, remove_card_eq]
    intro c0 hc0 hnum
    have hc0f := List.mem_filter.1 hc0
    obtain ⟨c1, hc1, rfl⟩ := List.mem_map.1 hc0f.1
    have hne : c1.ptr ≠ c.ptr := by simpa [card_drop_devices] using hc0f.2
    have heq : c1 = c :=
      List.inj_on_of_nodup_map hwf.card_num_nodup hc1 hc (by rw [hn]; exact hnum)
    exact hne (by rw [heq])
  · intro d hd hmem
    rw [remove_card_eq] at hmem
    have := (List.mem_filter.1 hmem).2
    simp only [decide_eq_true_eq] at this
    exact this (List.mem_map_of_mem _ hd)

/-- C6 at the registry holding card 0 with its two devices, for a `remove` of card 0. -/
theorem C6_remove_known_card_witness :
    wf ex_one_card ∧ udev_device_get_action (some ex_dev0_remove) = some "remove" ∧
    check_card (some ex_dev0_remove) = some 0 ∧ ex_card0 ∈ ex_one_card.cards ∧
    ex_card0.devices.length = 2 ∧
    ∃ evs : List spa_event,
      impl_on_fd_events ex_one_card ex_env (some ex_dev0_remove) =
        some (remove_card ex_one_card ex_card0, evs) ∧
      evs = ex_card0.devices.map (fun d =>
              { type := monitor_event.Removed,
                item := (fill_item ex_card0 d ex_env.card_info (ex_env.pcm_info d)).toOption }) ∧
      evs.length = ex_card0.devices.length ∧
      find_card (remove_card ex_one_card ex_card0) 0 = none ∧
      ∀ d ∈ ex_card0.devices, d ∉ (remove_card ex_one_card ex_card0).devices :=
  ⟨by constructor <;> decide, by decide, by decide, by decide, by decide,
   C6_remove_known_card ex_one_card ex_env (some ex_dev0_remove) 0 ex_card0
     (by constructor <;> decide) (by decide) (by decide) (by decide) (by decide) (by decide)⟩


/-! ## The enumeration cursor (C9, C10) -/

theorem spa_list_first_drop (l : List device) (i : Nat) (h : i < l.length) :
    spa_list_first (l.drop i) = cursor.node (l[i]).ptr := by
  rw [List.drop_eq_getElem_cons h]
  rfl

theorem spa_list_first_drop_length (l : List device) :
    spa_list_first (l.drop l.length) = cursor.head := by
  rw [List.drop_length]
  rfl

/-- In a list of records with distinct addresses, the record at position `i` is followed by
the record at position `i + 1`, the last record by the list head. -/
theorem node_next_getElem (l : List device) :
    (l.map (fun d => d.ptr)).Nodup → ∀ (i : Nat) (h : i < l.length),
      node_next l (l[i]).ptr = some (spa_list_first (l.drop (i + 1))) := by
  induction l with
  | nil => intro _ i h; exact absurd h (by simp)
  | cons d rest ih =>
    intro hnd i h
    rw [List.map_cons, List.nodup_cons] at hnd
    cases i with
    | zero => simp [node_next]
    | succ j =>
      have hj : j < rest.length := by simpa using h
      have hne : d.ptr ≠ (rest[j]).ptr := by
        intro heq
        exact hnd.1 (heq ▸ List.mem_map_of_mem _ (List.getElem_mem hj))
      simp only [List.getElem_cons_succ, node_next, if_neg hne, List.drop_succ_cons]
      exact ih hnd.2 j hj

theorem find_device_of_mem (l : List device) (d : device)
    (hnd : (l.map (fun d => d.ptr)).Nodup) (hd : d ∈ l) :
    l.find? (fun x => decide (x.ptr = d.ptr)) = some d := by
  cases hf : l.find? (fun x => decide (x.ptr = d.ptr)) with
  | none =>
    rw [List.find?_eq_none] at hf
    exact absurd (hf d hd) (by simp)
  | some d0 =>
    have h1 : d0.ptr = d.ptr := by simpa using List.find?_some hf
    rw [List.inj_on_of_nodup_map hnd (List.mem_of_find?_eq_some hf) hd h1]

/-- In a well-formed registry every device of the flattened list points back to a card of
the card list. -/
theorem deref_card_of_device (this : impl) (hwf : wf this) (d : device)
    (hd : d ∈ this.devices) : ∃ c, deref_card this d.card = some c := by
  rw [hwf.flat, List.mem_flatMap] at hd
  obtain ⟨c, hc, hdc⟩ := hd
  exact ⟨c, by rw [hwf.backref c hc d hdc]; exact deref_card_of_mem this c hwf.card_ptr_nodup hc⟩

/-- `fill_item` builds an item when the stream query succeeds and the device is a playback
or a capture stream. -/
theorem fill_item_ok (c : card) (d : device) (ci : snd_ctl_card_info)
    (pcm : Int × snd_pcm_info) (hp : 0 ≤ pcm.1)
    (hdir : d.direction = SND_PCM_STREAM_PLAYBACK ∨ d.direction = SND_PCM_STREAM_CAPTURE) :
    ∃ item, fill_item c d ci pcm = Except.ok item := by
  unfold fill_item
  simp only [if_neg (not_lt.2 hp)]
  rcases hdir with h | h
  · simp only [h, if_true]; exact ⟨_, rfl⟩
  · have : ¬ (SND_PCM_STREAM_CAPTURE = SND_PCM_STREAM_PLAYBACK) := by decide
    simp only [h, this, if_true, if_false]; exact ⟨_, rfl⟩

theorem device_item_isSome (this : impl) (env : backend) (hwf : wf this) (d : device)
    (hd : d ∈ this.devices) (hp : 0 ≤ (env.pcm_info d).1) :
    (device_item this env d).isSome = true := by
  obtain ⟨c, hc⟩ := deref_card_of_device this hwf d hd
  obtain ⟨item, hi⟩ := fill_item_ok c d env.card_info (env.pcm_info d) hp
    (hwf.direction_ok d hd)
  simp [device_item, hc, hi, Except.toOption]

theorem device_item_congr (a b : impl) (env : backend) (h : b.cards = a.cards) (d : device) :
    device_item b env d = device_item a env d := by
  simp [device_item, deref_card, h]

/-- The reset and the `while` loop of `enum_items` bring a ready cursor to position `k`. -/
theorem advance_ready (this : impl) (k : Nat) (hnd : (this.devices.map (fun d => d.ptr)).Nodup)
    (hk : k ≤ this.devices.length) (hr : cursor_ready this k) :
    advance
        (if k = 0 ∨ this.index > k then
          { this with current := spa_list_first this.devices, index := 0 } else this).devices
        (k - (if k = 0 ∨ this.index > k then
          { this with current := spa_list_first this.devices, index := 0 } else this).index)
        (if k = 0 ∨ this.index > k then
          { this with current := spa_list_first this.devices, index := 0 } else this).current
        (if k = 0 ∨ this.index > k then
          { this with current := spa_list_first this.devices, index := 0 } else this).index =
      some (spa_list_first (this.devices.drop k), k) := by
  rcases hr with h0 | ⟨hi, hc⟩
  · subst h0
    simp [advance]
  · have hcond : ¬ (k = 0 ∨ this.index > k) := by omega
    have hlt : this.index < this.devices.length := by omega
    rw [if_neg hcond]
    have h1 : k - this.index = 1 := by omega
    rw [h1, hc, spa_list_first_drop _ _ hlt]
    simp only [advance, spa_list_next]
    rw [node_next_getElem _ hnd _ hlt]
    simp only [hi]


/-- A call that asks for a position `k` of the list, with a ready cursor, hands back the
descriptor of the device at position `k` and writes back `k + 1`. -/
theorem enum_items_item (this : impl) (env : backend) (k : Nat) (hwf : wf this)
    (hudev : this.udev = true) (hk : k < this.devices.length)
    (hlen : this.devices.length < 4294967296) (hq : 0 ≤ env.card_info_err)
    (hr : cursor_ready this k) :
    impl_monitor_enum_items this env k =
      some ({ this with index := k, current := spa_list_first (this.devices.drop k) },
            { res := 1, index := k + 1, item := device_item this env (this.devices[k]) }) := by
  have hopen : impl_udev_open this env = this := by simp [impl_udev_open, hudev]
  have hadv := advance_ready this k hwf.dev_ptr_nodup (Nat.le_of_lt hk) hr
  have hmem : this.devices[k] ∈ this.devices := List.getElem_mem hk
  obtain ⟨c, hc⟩ := deref_card_of_device this hwf _ hmem
  have hfind := find_device_of_mem this.devices _ hwf.dev_ptr_nodup hmem
  have hmod : (k + 1) % 4294967296 = k + 1 := Nat.mod_eq_of_lt (by omega)
  unfold impl_monitor_enum_items
  simp only [hopen]
  rw [hadv]
  simp only [spa_list_first_drop _ _ hk]
  have hdev : (if k = 0 ∨ this.index > k then
      { this with current := spa_list_first this.devices, index := 0 } else this).devices =
      this.devices := by split <;> rfl
  have hcards : (if k = 0 ∨ this.index > k then
      { this with current := spa_list_first this.devices, index := 0 } else this).cards =
      this.cards := by split <;> rfl
  simp only [hdev, hfind, deref_card, hcards]
  rw [show List.find? (fun c => decide (c.ptr = (this.devices[k]).card)) this.cards = some c
    from hc]
  simp only [if_neg (not_lt.2 hq), hmod, device_item, hc, Option.bind]
  congr 2
  split <;> rfl

/-- A call that asks for the position after the last device, with a ready cursor, returns 0
and leaves the caller's index alone. -/
theorem enum_items_end (this : impl) (env : backend) (hwf : wf this)
    (hudev : this.udev = true) (hr : cursor_ready this this.devices.length) :
    impl_monitor_enum_items this env this.devices.length =
      some ({ this with index := this.devices.length, current := cursor.head },
            { res := 0, index := this.devices.length, item := none }) := by
  have hopen : impl_udev_open this env = this := by simp [impl_udev_open, hudev]
  have hadv := advance_ready this this.devices.length hwf.dev_ptr_nodup (Nat.le_refl _) hr
  unfold impl_monitor_enum_items
  simp only [hopen]
  rw [hadv]
  simp only [spa_list_first_drop_length]
  congr 2
  split <;> rfl


/-- A sweep that starts at position `k` with a ready cursor hands back the descriptors of
the devices from position `k` on, in list order, and ends with the return value 0. -/
theorem sweep_from (env : backend) (hq : 0 ≤ env.card_info_err) (m : Nat) :
    ∀ (this : impl) (k : Nat), wf this → this.udev = true →
      k + m = this.devices.length → this.devices.length < 4294967296 →
      cursor_ready this k →
      ∃ last : impl,
        sweep env (m + 1) this k =
          some (last, (this.devices.drop k).map (device_item this env), 0) ∧
        last.cards = this.cards ∧ last.devices = this.devices ∧ last.brk = this.brk ∧
        last.udev = true := by
  induction m with
  | zero =>
    intro this k hwf hudev hkm hlen hr
    have hk : k = this.devices.length := by omega
    subst hk
    refine ⟨{ this with index := this.devices.length, current := cursor.head }, ?_, rfl, rfl,
      rfl, hudev⟩
    simp [sweep, enum_items_end this env hwf hudev hr]
  | succ m ih =>
    intro this k hwf hudev hkm hlen hr
    have hk : k < this.devices.length := by omega
    have hwf1 : wf { this with index := k, current := spa_list_first (this.devices.drop k) } :=
      @wf_congr this _ rfl rfl rfl hwf
    obtain ⟨last, hs, h1, h2, h3, h4⟩ :=
      ih { this with index := k, current := spa_list_first (this.devices.drop k) } (k + 1)
        hwf1 hudev (by simp only []; omega) hlen (Or.inr ⟨rfl, rfl⟩)
    refine ⟨last, ?_, h1, h2, h3, h4⟩
    have hitems : List.map
        (device_item { this with index := k, current := spa_list_first (this.devices.drop k) }
          env) (this.devices.drop (k + 1)) =
        List.map (device_item this env) (this.devices.drop (k + 1)) := by
      apply List.map_congr_left
      intro d _
      exact device_item_congr this _ env rfl d
    simp only [] at hs
    rw [hitems] at hs
    rw [sweep, enum_items_item this env k hwf hudev hk hlen hq hr]
    simp only [if_true, hs]
    rw [List.drop_eq_getElem_cons hk, List.map_cons]

/-- C9: for a well-formed registry that is not changed during the sweeps (the initial scan
is done), with fewer than 2^32 devices in the flattened list `L`, whose card and stream
queries succeed, and for any cursor state, a full sweep (index 0, then the index written
back, until the return value is not 1) returns exactly one descriptor per device of `L`, the
i-th built from `L[i]`, in list order, and then the end of the sequence; the registry is
left as it was and a second full sweep returns the same sequence. -/
theorem C9_full_sweep (this : impl) (env : backend) (hwf : wf this)
    (hudev : this.udev = true) (hlen : this.devices.length < 4294967296)
    (hq : 0 ≤ env.card_info_err) (hpcm : ∀ d ∈ this.devices, 0 ≤ (env.pcm_info d).1) :
    ∃ s1 s2 : impl,
      sweep env (this.devices.length + 1) this 0 =
        some (s1, this.devices.map (device_item this env), 0) ∧
      (this.devices.map (device_item this env)).length = this.devices.length ∧
      (∀ d ∈ this.devices, (device_item this env d).isSome = true) ∧
      s1.cards = this.cards ∧ s1.devices = this.devices ∧
      sweep env (this.devices.length + 1) s1 0 =
        some (s2, this.devices.map (device_item this env), 0) := by
  obtain ⟨s1, hs1, hc1, hd1, hb1, hu1⟩ :=
    sweep_from env hq this.devices.length this 0 hwf hudev (by omega) hlen (Or.inl rfl)
  have hwf1 : wf s1 := wf_congr hc1 hd1 hb1 hwf
  obtain ⟨s2, hs2, _, _, _, _⟩ :=
    sweep_from env hq s1.devices.length s1 0 hwf1 hu1 (by omega) (by rw [hd1]; exact hlen)
      (Or.inl rfl)
  have hitems : List.map (device_item s1 env) this.devices =
      List.map (device_item this env) this.devices := by
    apply List.map_congr_left
    intro d _
    exact device_item_congr this s1 env hc1 d
  rw [List.drop_zero] at hs1 hs2
  rw [hd1, hitems] at hs2
  exact ⟨s1, s2, hs1, by simp, fun d hd => device_item_isSome this env hwf d hd (hpcm d hd),
    hc1, hd1, hs2⟩

/-- C9 at the registry holding card 0 with its playback and its capture stream: a full
sweep returns the two descriptors, playback first, and then the end of the sequence. -/
theorem C9_full_sweep_witness :
    wf ex_one_card ∧ ex_one_card.udev = true ∧ ex_one_card.devices.length = 2 ∧
    (ex_one_card.devices.map (fun d => (device_item ex_one_card ex_env d).map
      (fun i => i.klass))) = [some "Audio/Sink", some "Audio/Source"] ∧
    ∃ s1 s2 : impl,
      sweep ex_env (ex_one_card.devices.length + 1) ex_one_card 0 =
        some (s1, ex_one_card.devices.map (device_item ex_one_card ex_env), 0) ∧
      (ex_one_card.devices.map (device_item ex_one_card ex_env)).length =
        ex_one_card.devices.length ∧
      (∀ d ∈ ex_one_card.devices, (device_item ex_one_card ex_env d).isSome = true) ∧
      s1.cards = ex_one_card.cards ∧ s1.devices = ex_one_card.devices ∧
      sweep ex_env (ex_one_card.devices.length + 1) s1 0 =
        some (s2, ex_one_card.devices.map (device_item ex_one_card ex_env), 0) :=
  ⟨by constructor <;> decide, by decide, by decide, by decide,
   C9_full_sweep ex_one_card ex_env (by constructor <;> decide) (by decide) (by decide)
     (by decide) (by decide)⟩

/-! ## Failures the code does not handle as the specification says (C4, C10) -/

/-- C4 on the code: the registry holds card 0 and an `add` for card 3 arrives whose control
interface fails to open.  `create_card` returns `NULL` and the dispatcher emits nothing, as
the claim says, but the card list is not what it was: the record for card 3, with a `NULL`
handle and no device, stays linked and `find_card` finds it. -/
theorem C4_open_failure_leaves_card_linked :
    check_card (some ex_dev3) = some 3 ∧ find_card ex_one_card 3 = none ∧
    ex_card_open_fails.open_err < 0 ∧
    (create_card ex_one_card ex_card_open_fails (some ex_dev3)).2 = none ∧
    (create_card ex_one_card ex_card_open_fails (some ex_dev3)).1.cards =
      ex_one_card.cards ++
        [{ ptr := 4, dev := some ex_dev3, num := 3, name := "hw:3", ctl_hndl := none,
           devices := [] }] ∧
    (create_card ex_one_card ex_card_open_fails (some ex_dev3)).1.cards ≠ ex_one_card.cards ∧
    find_card (create_card ex_one_card ex_card_open_fails (some ex_dev3)).1 3 =
      some { ptr := 4, dev := some ex_dev3, num := 3, name := "hw:3", ctl_hndl := none,
             devices := [] } ∧
    impl_on_fd_events ex_one_card ex_env_open_fails (some ex_dev3) =
      some ((create_card ex_one_card ex_card_open_fails (some ex_dev3)).1, []) := by
  refine ⟨by decide, by decide, by decide, by decide, by decide, by decide, by decide,
    by decide⟩

/-- C10 on the code: the registry holds 2 devices and a full sweep has left the cursor at
the end.  A call with index 2 returns the end of the sequence, but a call with index 3 walks
from the list head on to the first device: it returns 1 with the descriptor of the first
device and writes back index 4. -/
theorem C10_index_past_end_wraps :
    ex_one_card.devices.length = 2 ∧
    (sweep ex_env 3 ex_one_card 0).map (fun r => r.1) = some ex_after_sweep ∧
    (impl_monitor_enum_items ex_after_sweep ex_env 2).map (fun r => (r.2.res, r.2.index)) =
      some (0, 2) ∧
    impl_monitor_enum_items ex_after_sweep ex_env 3 =
      some ({ ex_one_card with index := 3, current := cursor.node 2 },
            { res := 1, index := 4,
              item := device_item ex_one_card ex_env
                { ptr := 2, card := 1, num := 0, direction := 0, enabled := false } }) := by
  refine ⟨by decide, by decide, by decide, by decide⟩


/-! ## Resuming an enumeration (C11) -/

/-- From the node at position `i`, `m` steps of the `while` loop lead to the node at position
`i + m`, as long as that is a position of the list or the list head. -/
theorem advance_steps (l : List device) (hnd : (l.map (fun d => d.ptr)).Nodup) (m : Nat) :
    ∀ i : Nat, i + m ≤ l.length →
      advance l m (spa_list_first (l.drop i)) i = some (spa_list_first (l.drop (i + m)), i + m) := by
  induction m with
  | zero => intro i _; rfl
  | succ m ih =>
    intro i h
    have hlt : i < l.length := by omega
    rw [spa_list_first_drop _ _ hlt]
    simp only [advance, spa_list_next]
    rw [node_next_getElem _ hnd _ hlt]
    simp only []
    rw [ih (i + 1) (by omega), show i + 1 + m = i + (m + 1) by omega]

/-- The reset and the `while` loop of `enum_items` bring the cursor to position `k` when the
call asks for position 0 or finds a synced cursor. -/
theorem advance_synced (this : impl) (k : Nat) (hnd : (this.devices.map (fun d => d.ptr)).Nodup)
    (hk : k ≤ this.devices.length) (hr : k = 0 ∨ cursor_synced this) :
    advance
        (if k = 0 ∨ this.index > k then
          { this with current := spa_list_first this.devices, index := 0 } else this).devices
        (k - (if k = 0 ∨ this.index > k then
          { this with current := spa_list_first this.devices, index := 0 } else this).index)
        (if k = 0 ∨ this.index > k then
          { this with current := spa_list_first this.devices, index := 0 } else this).current
        (if k = 0 ∨ this.index > k then
          { this with current := spa_list_first this.devices, index := 0 } else this).index =
      some (spa_list_first (this.devices.drop k), k) := by
  by_cases hcond : k = 0 ∨ this.index > k
  · rw [if_pos hcond]
    have hadv := advance_steps this.devices hnd k 0 (by omega)
    simpa using hadv
  · rw [if_neg hcond]
    have hs : cursor_synced this := by
      rcases hr with h | h
      · exact absurd (Or.inl h) hcond
      · exact h
    have hle : this.index ≤ k := by omega
    have hadv := advance_steps this.devices hnd (k - this.index) this.index (by omega)
    rw [hs.2, hadv, show this.index + (k - this.index) = k by omega]


/-- A call that asks for a position `k` of the list, for position 0 or with a synced cursor,
hands back the descriptor of the device at position `k` and writes back `k + 1`. -/
theorem enum_items_item_synced (this : impl) (env : backend) (k : Nat) (hwf : wf this)
    (hudev : this.udev = true) (hk : k < this.devices.length)
    (hlen : this.devices.length < 4294967296) (hq : 0 ≤ env.card_info_err)
    (hr : k = 0 ∨ cursor_synced this) :
    impl_monitor_enum_items this env k =
      some ({ this with index := k, current := spa_list_first (this.devices.drop k) },
            { res := 1, index := k + 1, item := device_item this env (this.devices[k]) }) := by
  have hopen : impl_udev_open this env = this := by simp [impl_udev_open, hudev]
  have hadv := advance_synced this k hwf.dev_ptr_nodup (Nat.le_of_lt hk) hr
  have hmem : this.devices[k] ∈ this.devices := List.getElem_mem hk
  obtain ⟨c, hc⟩ := deref_card_of_device this hwf _ hmem
  have hfind := find_device_of_mem this.devices _ hwf.dev_ptr_nodup hmem
  have hmod : (k + 1) % 4294967296 = k + 1 := Nat.mod_eq_of_lt (by omega)
  unfold impl_monitor_enum_items
  simp only [hopen]
  rw [hadv]
  simp only [spa_list_first_drop _ _ hk]
  have hdev : (if k = 0 ∨ this.index > k then
      { this with current := spa_list_first this.devices, index := 0 } else this).devices =
      this.devices := by split <;> rfl
  have hcards : (if k = 0 ∨ this.index > k then
      { this with current := spa_list_first this.devices, index := 0 } else this).cards =
      this.cards := by split <;> rfl
  simp only [hdev, hfind, deref_card, hcards]
  rw [show List.find? (fun c => decide (c.ptr = (this.devices[k]).card)) this.cards = some c
    from hc]
  simp only [if_neg (not_lt.2 hq), hmod, device_item, hc, Option.bind]
  congr 2
  split <;> rfl

/-- A call that asks for the position after the last device, with a synced cursor or an
empty list, returns 0 and leaves the caller's index alone. -/
theorem enum_items_end_synced (this : impl) (env : backend) (hwf : wf this)
    (hudev : this.udev = true) (hr : this.devices.length = 0 ∨ cursor_synced this) :
    impl_monitor_enum_items this env this.devices.length =
      some ({ this with index := this.devices.length, current := cursor.head },
            { res := 0, index := this.devices.length, item := none }) := by
  have hopen : impl_udev_open this env = this := by simp [impl_udev_open, hudev]
  have hadv := advance_synced this this.devices.length hwf.dev_ptr_nodup (Nat.le_refl _) hr
  unfold impl_monitor_enum_items
  simp only [hopen]
  rw [hadv]
  simp only [spa_list_first_drop_length]
  congr 2
  split <;> rfl

/-- A sweep that starts at any position `j` of the list, for position 0 or with a synced
cursor, hands back the descriptors of the devices from position `j` on, in list order, and
ends with the return value 0. -/
theorem sweep_from_synced (env : backend) (hq : 0 ≤ env.card_info_err) (this : impl) (j : Nat)
    (hwf : wf this) (hudev : this.udev = true) (hj : j ≤ this.devices.length)
    (hlen : this.devices.length < 4294967296) (hr : j = 0 ∨ cursor_synced this) :
    ∃ last : impl,
      sweep env (this.devices.length - j + 1) this j =
        some (last, (this.devices.drop j).map (device_item this env), 0) ∧
      last.cards = this.cards ∧ last.devices = this.devices := by
  by_cases hend : j = this.devices.length
  · subst hend
    refine ⟨{ this with index := this.devices.length, current := cursor.head }, ?_, rfl, rfl⟩
    simp [sweep, enum_items_end_synced this env hwf hudev hr]
  · have hk : j < this.devices.length := by omega
    have hwf1 : wf { this with index := j, current := spa_list_first (this.devices.drop j) } :=
      @wf_congr this _ rfl rfl rfl hwf
    obtain ⟨last, hs, h1, h2, _, _⟩ :=
      sweep_from env hq (this.devices.length - j - 1)
        { this with index := j, current := spa_list_first (this.devices.drop j) } (j + 1)
        hwf1 hudev (by simp only []; omega) hlen (Or.inr ⟨rfl, rfl⟩)
    refine ⟨last, ?_, h1, h2⟩
    have hitems : List.map
        (device_item { this with index := j, current := spa_list_first (this.devices.drop j) }
          env) (this.devices.drop (j + 1)) =
        List.map (device_item this env) (this.devices.drop (j + 1)) := by
      apply List.map_congr_left
      intro d _
      exact device_item_congr this _ env rfl d
    simp only [] at hs
    rw [hitems] at hs
    rw [show this.devices.length - j + 1 = (this.devices.length - j - 1 + 1) + 1 by omega,
      sweep, enum_items_item_synced this env j hwf hudev hk hlen hq hr]
    simp only [if_true, hs]
    rw [List.drop_eq_getElem_cons hk, List.map_cons]

/-- Sequential calls from position `k` keep the registry, write back `min (k + m) n` after
`m` calls, and leave a synced cursor after the first call. -/
theorem seq_calls_spec (env : backend) (hq : 0 ≤ env.card_info_err) (m : Nat) :
    ∀ (this : impl) (k : Nat), wf this → this.udev = true →
      this.devices.length < 4294967296 → k ≤ this.devices.length →
      (k = 0 ∨ cursor_synced this) →
      ∃ s : impl,
        seq_calls env m this k = some (s, min (k + m) this.devices.length) ∧
        s.cards = this.cards ∧ s.devices = this.devices ∧ s.brk = this.brk ∧
        s.udev = true ∧ (m = 0 → s = this) ∧ (0 < m → cursor_synced s) := by
  induction m with
  | zero =>
    intro this k _ hudev _ hk _
    exact ⟨this, by simp [seq_calls, hk], rfl, rfl, rfl, hudev, fun _ => rfl,
      fun h => absurd h (by omega)⟩
  | succ m ih =>
    intro this k hwf hudev hlen hk hr
    by_cases hend : k = this.devices.length
    · subst hend
      have hr2 : this.devices.length = 0 ∨ cursor_synced this := hr
      have hs1 : cursor_synced { this with index := this.devices.length, current := cursor.head } :=
        ⟨Nat.le_refl _, (spa_list_first_drop_length this.devices).symm⟩
      obtain ⟨s, h1, h2, h3, h4, h5, h6, h7⟩ :=
        ih { this with index := this.devices.length, current := cursor.head }
          this.devices.length (@wf_congr this _ rfl rfl rfl hwf) hudev hlen (Nat.le_refl _)
          (Or.inr hs1)
      refine ⟨s, ?_, h2, h3, h4, h5, fun h => absurd h (by omega), fun _ => ?_⟩
      · rw [seq_calls, enum_items_end_synced this env hwf hudev hr2]
        simp only [] at h1 ⊢
        rw [h1]
        congr 2
        omega
      · cases m with
        | zero => rw [h6 rfl]; exact hs1
        | succ m => exact h7 (by omega)
    · have hlt : k < this.devices.length := by omega
      have hs1 : cursor_synced
          { this with index := k, current := spa_list_first (this.devices.drop k) } :=
        ⟨hk, rfl⟩
      obtain ⟨s, h1, h2, h3, h4, h5, h6, h7⟩ :=
        ih { this with index := k, current := spa_list_first (this.devices.drop k) } (k + 1)
          (@wf_congr this _ rfl rfl rfl hwf) hudev hlen (by simp only []; omega) (Or.inr hs1)
      refine ⟨s, ?_, h2, h3, h4, h5, fun h => absurd h (by omega), fun _ => ?_⟩
      · rw [seq_calls, enum_items_item_synced this env k hwf hudev hlt hlen hq hr]
        simp only [] at h1 ⊢
        rw [h1]
        congr 2
        omega
      · cases m with
        | zero => rw [h6 rfl]; exact hs1
        | succ m => exact h7 (by omega)

/-- C11: for a well-formed registry that is not changed (the initial scan is done), with
fewer than 2^32 devices in the flattened list `L` and a card query that succeeds, take the
cursor state left by any number `m` of sequential calls from index 0, whose last written-back
index is `k = min m n`.  A call with any index `j ≤ k`, continued sequentially, hands back
exactly the descriptors of `L[j], ..., L[n-1]`, in list order, and then the end of the
sequence: no call fails, no device is skipped and none is handed back twice. -/
theorem C11_resume_sweep (this : impl) (env : backend) (hwf : wf this)
    (hudev : this.udev = true) (hlen : this.devices.length < 4294967296)
    (hq : 0 ≤ env.card_info_err) (hpcm : ∀ d ∈ this.devices, 0 ≤ (env.pcm_info d).1)
    (m : Nat) :
    ∃ s : impl,
      seq_calls env m this 0 = some (s, min m this.devices.length) ∧
      (∀ d ∈ this.devices, (device_item this env d).isSome = true) ∧
      ∀ j : Nat, j ≤ min m this.devices.length →
        ∃ last : impl,
          sweep env (this.devices.length - j + 1) s j =
            some (last, (this.devices.drop j).map (device_item this env), 0) ∧
          ((this.devices.drop j).map (device_item this env)).length =
            this.devices.length - j := by
  obtain ⟨s, h1, h2, h3, h4, h5, h6, h7⟩ :=
    seq_calls_spec env hq m this 0 hwf hudev hlen (Nat.zero_le _) (Or.inl rfl)
  rw [Nat.zero_add] at h1
  refine ⟨s, h1, fun d hd => device_item_isSome this env hwf d hd (hpcm d hd), ?_⟩
  intro j hj
  have hwfs : wf s := wf_congr h2 h3 h4 hwf
  have hr : j = 0 ∨ cursor_synced s := by
    cases m with
    | zero => left; simpa using hj
    | succ m => right; exact h7 (by omega)
  obtain ⟨last, hs, _, _⟩ :=
    sweep_from_synced env hq s j hwfs h5 (by rw [h3]; omega) (by rw [h3]; exact hlen) hr
  have hitems : List.map (device_item s env) (this.devices.drop j) =
      List.map (device_item this env) (this.devices.drop j) := by
    apply List.map_congr_left
    intro d _
    exact device_item_congr this s env h2 d
  rw [h3, hitems] at hs
  exact ⟨last, hs, by simp⟩

/-- C11 at the registry holding card 0 with its two devices, after the first call of a
sweep (written-back index 1): a call with index 0 hands back both descriptors again, a call
with index 1 only the second. -/
theorem C11_resume_sweep_witness :
    wf ex_one_card ∧ ex_one_card.udev = true ∧ ex_one_card.devices.length = 2 ∧
    ∃ s : impl,
      seq_calls ex_env 1 ex_one_card 0 = some (s, min 1 ex_one_card.devices.length) ∧
      (∀ d ∈ ex_one_card.devices, (device_item ex_one_card ex_env d).isSome = true) ∧
      ∀ j : Nat, j ≤ min 1 ex_one_card.devices.length →
        ∃ last : impl,
          sweep ex_env (ex_one_card.devices.length - j + 1) s j =
            some (last, (ex_one_card.devices.drop j).map (device_item ex_one_card ex_env), 0) ∧
          ((ex_one_card.devices.drop j).map (device_item ex_one_card ex_env)).length =
            ex_one_card.devices.length - j :=
  ⟨by constructor <;> decide, by decide, by decide,
   C11_resume_sweep ex_one_card ex_env (by constructor <;> decide) (by decide) (by decide)
     (by decide) (by decide) 1⟩


/-! ## A failing descriptor under the cursor (C12) -/

/-- C12 on the code: the registry holds card 0 with two devices, the card query succeeds and
the stream query of the device under the cursor fails with -19.  `fill_item` returns that
error and builds no item, but `enum_items` does not look at what `fill_item` returns: the
call at index 0 returns 1, not an error, hands back no item and writes back index 1. -/
theorem C12_fill_item_failure_ignored :
    fill_item ex_card0 { ptr := 2, card := 1, num := 0, direction := 0, enabled := false }
        ex_env_pcm_fails.card_info
        (ex_env_pcm_fails.pcm_info
          { ptr := 2, card := 1, num := 0, direction := 0, enabled := false }) =
      Except.error (-19) ∧
    impl_monitor_enum_items ex_one_card ex_env_pcm_fails 0 =
      some ({ ex_one_card with index := 0, current := cursor.node 2 },
            { res := 1, index := 1, item := none }) := by
  refine ⟨by rfl, by decide⟩


/-! ## Resolving the card id (C13, C14) -/

theorem digitChar_lt_ten (m : Nat) (h : m < 10) :
    (Nat.digitChar m).isDigit = true ∧ (Nat.digitChar m).toNat - 48 = m ∧
    Nat.digitChar m ≠ '/' ∧ isspace (Nat.digitChar m) = false ∧
    Nat.digitChar m ≠ '-' ∧ Nat.digitChar m ≠ '+' := by
  interval_cases m <;> decide

/-- Every character `Nat.toDigitsCore 10` puts in front of `ds` is a decimal digit. -/
theorem toDigitsCore_digit (fuel : Nat) :
    ∀ (n : Nat) (ds : List Char), (∀ c ∈ ds, ∃ m, m < 10 ∧ c = Nat.digitChar m) →
      ∀ c ∈ Nat.toDigitsCore 10 fuel n ds, ∃ m, m < 10 ∧ c = Nat.digitChar m := by
  induction fuel with
  | zero => intro n ds h; simpa [Nat.toDigitsCore] using h
  | succ fuel ih =>
    intro n ds h
    have hd : ∀ c ∈ Nat.digitChar (n % 10) :: ds, ∃ m, m < 10 ∧ c = Nat.digitChar m := by
      intro c hc
      rcases List.mem_cons.1 hc with h1 | h1
      · exact ⟨n % 10, Nat.mod_lt _ (by decide), h1⟩
      · exact h c h1
    simp only [Nat.toDigitsCore]
    split
    · exact hd
    · exact ih _ _ hd

/-- Reading the decimal digits of `n` from the front gives `n` back. -/
theorem digits_value_toDigitsCore (fuel : Nat) :
    ∀ (n : Nat) (ds : List Char), n < fuel →
      digits_value (Nat.toDigitsCore 10 fuel n ds) 0 = digits_value ds n := by
  induction fuel with
  | zero => intro n ds h; exact absurd h (by omega)
  | succ fuel ih =>
    intro n ds h
    obtain ⟨h1, h2, _⟩ := digitChar_lt_ten (n % 10) (Nat.mod_lt _ (by decide))
    simp only [Nat.toDigitsCore]
    split
    · rename_i hz
      have hn : n % 10 = n := by omega
      rw [digits_value, if_pos h1, h2, Nat.zero_mul, Nat.zero_add, hn]
    · rename_i hz
      rw [ih (n / 10) _ (by omega)]
      simp only [digits_value, h1, if_true, h2]
      congr 1
      omega

theorem toDigitsCore_ne_nil (fuel : Nat) :
    ∀ (n : Nat) (ds : List Char), Nat.toDigitsCore 10 (fuel + 1) n ds ≠ [] := by
  induction fuel with
  | zero =>
    intro n ds
    simp only [Nat.toDigitsCore]
    split <;> simp
  | succ fuel ih =>
    intro n ds
    rw [Nat.toDigitsCore]
    split
    · simp
    · exact ih _ _

/-- The decimal digits of `n`: a non-empty list of digit characters whose value is `n`. -/
theorem toDigits_spec (n : Nat) :
    ∃ (c : Char) (rest : List Char),
      Nat.toDigits 10 n = c :: rest ∧
      (∀ x ∈ c :: rest, ∃ m, m < 10 ∧ x = Nat.digitChar m) ∧
      digits_value (c :: rest) 0 = n := by
  have hne := toDigitsCore_ne_nil n n []
  have hall := toDigitsCore_digit (n + 1) n [] (by simp)
  have hval := digits_value_toDigitsCore (n + 1) n [] (by omega)
  unfold Nat.toDigits
  cases hl : Nat.toDigitsCore 10 (n + 1) n [] with
  | nil => exact absurd hl hne
  | cons c rest =>
    rw [hl] at hall hval
    exact ⟨c, rest, rfl, hall, by simpa [digits_value] using hval⟩

theorem strrchr_none (l : List Char) (c : Char) (h : c ∉ l) : strrchr l c = none := by
  induction l with
  | nil => rfl
  | cons x xs ih =>
    have hx : x ≠ c := fun e => h (e ▸ List.mem_cons_self _ _)
    have hxs : c ∉ xs := fun e => h (List.mem_cons_of_mem _ e)
    simp [strrchr, ih hxs, hx]

/-- The last occurrence of `c` in `a ++ c :: b` is the one in front of `b`, when `b` has none. -/
theorem strrchr_append (a b : List Char) (c : Char) (h : c ∉ b) :
    strrchr (a ++ c :: b) c = some (c :: b) := by
  induction a with
  | nil => simp [strrchr, strrchr_none b c h]
  | cons x xs ih => simp [strrchr, ih]

/-- `atoi` on the decimal digits of a number below 2^31 gives the number. -/
theorem atoi_toDigits (n : Nat) (h : n < 2147483648) : atoi (Nat.toDigits 10 n) = (n : Int) := by
  obtain ⟨c, rest, hl, hall, hval⟩ := toDigits_spec n
  obtain ⟨m, hm, hc⟩ := hall c (List.mem_cons_self _ _)
  obtain ⟨_, _, _, hsp, hminus, hplus⟩ := digitChar_lt_ten m hm
  rw [← hc] at hsp hminus hplus
  have hdrop : (c :: rest).dropWhile isspace = c :: rest := by
    simp [List.dropWhile, hsp]
  have hv : strtol (c :: rest) = (n : Int) := by
    unfold strtol
    rw [hdrop]
    have hmatch : (match c :: rest with
        | '-' :: r => - (digits_value r 0 : Int)
        | '+' :: r => (digits_value r 0 : Int)
        | r => (digits_value r 0 : Int)) = (digits_value (c :: rest) 0 : Int) := by
      split
      · rename_i heq; exact absurd (List.cons.inj heq).1 hminus
      · rename_i heq; exact absurd (List.cons.inj heq).1 hplus
      · rfl
    simp only [hmatch, hval]
    have h1 : ¬ ((n : Int) > 9223372036854775807) := by omega
    have h2 : ¬ ((n : Int) < -9223372036854775808) := by omega
    rw [if_neg h1, if_neg h2]
  rw [hl]
  unfold atoi int_of_long
  rw [hv]
  have h3 : (n : Int) % 4294967296 = n := by omega
  simp only [h3]
  rw [if_pos (by omega)]


theorem path_get_card_id_digits (p : String) (n : Nat) :
    path_get_card_id (some (p ++ "/card" ++ toString n)) =
      some (String.mk (Nat.toDigits 10 n)) := by
  have hlist : (p ++ "/card" ++ toString n).toList =
      p.toList ++ ('/' :: ('c' :: 'a' :: 'r' :: 'd' :: Nat.toDigits 10 n)) := by
    simp [String.toList, String.data_append]
    rfl
  obtain ⟨c, rest, hl, hall, _⟩ := toDigits_spec n
  have hno : '/' ∉ ('c' :: 'a' :: 'r' :: 'd' :: Nat.toDigits 10 n) := by
    intro hmem
    simp only [List.mem_cons] at hmem
    rcases hmem with h | h | h | h | h
    · exact absurd h (by decide)
    · exact absurd h (by decide)
    · exact absurd h (by decide)
    · exact absurd h (by decide)
    · rw [hl] at h
      obtain ⟨m, hm, hx⟩ := hall '/' h
      exact (digitChar_lt_ten m hm).2.2.1 hx.symm
  simp only [path_get_card_id, hlist, strrchr_append _ _ _ hno]
  have hlen : ¬ (('/' :: 'c' :: 'a' :: 'r' :: 'd' :: Nat.toDigits 10 n).length ≤ 5 ∨
      ('/' :: 'c' :: 'a' :: 'r' :: 'd' :: Nat.toDigits 10 n).take 5 ≠ "/card".toList) := by
    rw [hl]
    simp
  rw [if_neg hlen]
  rfl

/-- C13: for every natural number `n` below 2^31 and every text `p` in front (whatever
slashes and `card` components it has), a device whose device path is `p`, then `/card`,
then the decimal digits of `n`, which has no `PULSE_IGNORE` property and whose `SOUND_CLASS`
is not `modem`, resolves to card id `n`. -/
theorem C13_card_path_resolves (n : Nat) (p : String) (d : udev_device)
    (hn : n < 2147483648) (hpath : d.devpath = some (p ++ "/card" ++ toString n))
    (hign : d.properties.lookup "PULSE_IGNORE" = none)
    (hcls : d.properties.lookup "SOUND_CLASS" ≠ some "modem") :
    check_card (some d) = some (n : Int) := by
  have h1 : udev_device_get_property_value (some d) "PULSE_IGNORE" = none := hign
  have h2 : ¬ (udev_device_get_property_value (some d) "SOUND_CLASS" = some "modem") := hcls
  have h3 : udev_device_get_devpath (some d) = some (p ++ "/card" ++ toString n) := hpath
  unfold check_card
  rw [h1, if_neg h2, h3]
  simp only [Option.isSome_none, Bool.false_eq_true, if_false, path_get_card_id_digits]
  have : (String.mk (Nat.toDigits 10 n)).toList = Nat.toDigits 10 n := rfl
  rw [this, atoi_toDigits n hn]

/-- C13 at the device path `/devices/card7/sound/card12`, which resolves to card 12. -/
theorem C13_card_path_resolves_witness :
    (12 : Nat) < 2147483648 ∧
    ex_dev12.devpath = some ("/devices/card7/sound" ++ "/card" ++ toString 12) ∧
    ex_dev12.devpath = some "/devices/card7/sound/card12" ∧
    ex_dev12.properties.lookup "PULSE_IGNORE" = none ∧
    ex_dev12.properties.lookup "SOUND_CLASS" ≠ some "modem" ∧
    check_card (some ex_dev12) = some ((12 : Nat) : Int) :=
  ⟨by decide, rfl, by decide, by decide, by decide,
   C13_card_path_resolves 12 "/devices/card7/sound" ex_dev12 (by decide) rfl (by decide)
     (by decide)⟩


theorem create_card_of_check_none (this : impl) (env : card_backend) (dev : Option udev_device)
    (h : check_card dev = none) : create_card this env dev = (this, none) := by
  simp [create_card, h]

/-- A device the filter rejects leaves the dispatcher without effect, whatever its action. -/
theorem on_fd_events_of_check_none (this : impl) (env : backend) (dev : Option udev_device)
    (h : check_card dev = none) : impl_on_fd_events this env dev = some (this, []) := by
  cases ha : action_type ((udev_device_get_action dev).getD "change") with
  | none => exact on_fd_events_unknown this env dev ha
  | some t =>
    by_cases ht : t = monitor_event.Removed
    · subst ht
      rw [on_fd_events_remove this env dev ha]
      simp [h]
    · rw [on_fd_events_create this env dev t ha ht,
        create_card_of_check_none this env.create dev h]

theorem check_card_filtered (dev : Option udev_device) (h : card_filtered dev) :
    check_card dev = none := by
  unfold check_card
  by_cases h1 : (udev_device_get_property_value dev "PULSE_IGNORE").isSome = true
  · rw [if_pos h1]
  rw [if_neg h1]
  by_cases h2 : udev_device_get_property_value dev "SOUND_CLASS" = some "modem"
  · rw [if_pos h2]
  rw [if_neg h2]
  rcases h with h | h | h | ⟨path, hp, hno⟩ | ⟨path, a, comp, hp, hl, hno, hcomp⟩ |
    ⟨path, a, hp, hl⟩
  · exact absurd h h1
  · exact absurd h h2
  · rw [h]
  · rw [hp]
    simp only [path_get_card_id, strrchr_none _ _ hno]
  · rw [hp]
    have hne : ('/' :: comp).take 5 ≠ "/card".toList := by
      intro heq
      apply hcomp
      have : '/' :: comp.take 4 = '/' :: "card".toList := heq
      exact (List.cons.inj this).2
    simp only [path_get_card_id, hl, strrchr_append _ _ _ hno]
    rw [if_pos (Or.inr hne)]
  · rw [hp]
    have hno : '/' ∉ "card".toList := by decide
    simp only [path_get_card_id, hl, strrchr_append _ _ _ hno]
    rw [if_pos (Or.inl (by decide))]

/-- C14: the card-id resolution returns 0, writing no id, whenever the device has the
`PULSE_IGNORE` property (with any value, the empty string included), its `SOUND_CLASS` is
`modem`, its device path is absent or has no `/`, or the final component of the path does
not begin with `card` or is `card` alone.  The same filter decides `create_card` (initial
scan, `add`, `change`) and the `remove` path: for such a device `create_card` returns `NULL`
and the dispatcher returns, both leaving the state as it was, with no event. -/
theorem C14_filter_rejects (dev : Option udev_device) (h : card_filtered dev) :
    check_card dev = none ∧
    (∀ (this : impl) (env : card_backend), create_card this env dev = (this, none)) ∧
    (∀ (this : impl) (env : backend), impl_on_fd_events this env dev = some (this, [])) ∧
    (∀ (this : impl) (l : List (Option udev_device × card_backend)),
      (∀ x ∈ l, x.1 = dev) → scan_devices this l = this) := by
  have hc := check_card_filtered dev h
  refine ⟨hc, fun this env => create_card_of_check_none this env dev hc,
    fun this env => on_fd_events_of_check_none this env dev hc, ?_⟩
  intro this l
  induction l with
  | nil => intro _; rfl
  | cons x rest ih =>
    intro hall
    obtain ⟨d, e⟩ := x
    have hd : d = dev := hall (d, e) (List.mem_cons_self _ _)
    subst hd
    simp only [scan_devices, create_card_of_check_none this e d hc]
    exact ih (fun y hy => hall y (List.mem_cons_of_mem _ hy))

/-- C14 at a modem with an empty `PULSE_IGNORE` tag on the path `/devices/pci0/sound/card1`,
and at a device whose final path component is `card` alone. -/
theorem C14_filter_rejects_witness :
    card_filtered (some ex_modem) ∧
    card_filtered (some { ex_dev0 with devpath := some "/devices/pci0/sound/card" }) ∧
    check_card (some { ex_dev0 with devpath := some "/devices/pci0/sound/card" }) = none ∧
    check_card (some ex_modem) = none ∧
    (∀ (this : impl) (env : card_backend), create_card this env (some ex_modem) = (this, none)) ∧
    (∀ (this : impl) (env : backend),
      impl_on_fd_events this env (some ex_modem) = some (this, [])) ∧
    (∀ (this : impl) (l : List (Option udev_device × card_backend)),
      (∀ x ∈ l, x.1 = some ex_modem) → scan_devices this l = this) :=
  ⟨Or.inl (by decide),
   Or.inr (Or.inr (Or.inr (Or.inr (Or.inr
     ⟨"/devices/pci0/sound/card", "/devices/pci0/sound".toList, rfl, by decide⟩)))),
   by decide,
   C14_filter_rejects (some ex_modem) (Or.inl (by decide))⟩


/-! ## The descriptor builder (C15, C16) -/

theorem nonempty_eq_true (v : Option String) (h : nonempty v = true) :
    ∃ s, v = some s ∧ s ≠ "" := by
  cases v with
  | none => simp [nonempty] at h
  | some s => exact ⟨s, rfl, by simpa [nonempty] using h⟩

/-- The nested tests of `fill_item` on the three model properties pick the first one that
is present and not empty, and `Unknown` when there is none. -/
theorem name_chain (a b c : Option String) :
    (if (!(nonempty (if (!(nonempty a)) = true then
              (if (!(nonempty b)) = true then c else b) else a))) = true
      then "Unknown"
      else (if (!(nonempty a)) = true then
              (if (!(nonempty b)) = true then c else b) else a).getD "") =
      (first_nonempty [a, b, c]).getD "Unknown" := by
  cases ha : nonempty a with
  | true =>
    obtain ⟨s, rfl, _⟩ := nonempty_eq_true a ha
    simp [first_nonempty, ha]
  | false =>
    cases hb : nonempty b with
    | true =>
      obtain ⟨s, rfl, _⟩ := nonempty_eq_true b hb
      simp [first_nonempty, ha, hb]
    | false =>
      cases hc : nonempty c with
      | true =>
        obtain ⟨s, rfl, _⟩ := nonempty_eq_true c hc
        simp [first_nonempty, ha, hb, hc]
      | false => simp [first_nonempty, ha, hb, hc]

theorem ex_fill_item_playback0 :
    fill_item ex_card0 ex_playback0 ex_card_info (0, ex_pcm_info) =
      Except.ok ex_item_playback0 := by
  rfl

/-- C15: in every item `fill_item` builds, the name is the first of the card's properties
`ID_MODEL_FROM_DATABASE`, `ID_MODEL_ENC`, `ID_MODEL`, in that order, that is present and not
empty (a present but empty value is passed over), and `Unknown` when none is. -/
theorem C15_name_resolution (c : card) (d : device) (ci : snd_ctl_card_info)
    (pcm : Int × snd_pcm_info) (item : spa_monitor_item)
    (h : fill_item c d ci pcm = Except.ok item) :
    item.name =
      (first_nonempty
        [udev_device_get_property_value c.dev "ID_MODEL_FROM_DATABASE",
         udev_device_get_property_value c.dev "ID_MODEL_ENC",
         udev_device_get_property_value c.dev "ID_MODEL"]).getD "Unknown" := by
  unfold fill_item at h
  simp only [] at h
  split at h
  · exact absurd h (by simp)
  · split at h
    · exact absurd h (by simp)
    · injection h with h
      rw [← h]
      exact name_chain _ _ _

/-- C15 at card 0, whose only model property is `ID_MODEL = HDA`, and at the same card with
an empty `ID_MODEL_FROM_DATABASE` in front: the name is `HDA` both times. -/
theorem C15_name_resolution_witness :
    fill_item ex_card0 ex_playback0 ex_card_info (0, ex_pcm_info) =
      Except.ok ex_item_playback0 ∧
    ex_item_playback0.name = "HDA" ∧
    (first_nonempty [some "", none, some "HDA"]).getD "Unknown" = "HDA" ∧
    (first_nonempty [some "", none, none]).getD "Unknown" = "Unknown" ∧
    ex_item_playback0.name =
      (first_nonempty
        [udev_device_get_property_value ex_card0.dev "ID_MODEL_FROM_DATABASE",
         udev_device_get_property_value ex_card0.dev "ID_MODEL_ENC",
         udev_device_get_property_value ex_card0.dev "ID_MODEL"]).getD "Unknown" :=
  ⟨ex_fill_item_playback0, rfl, by decide, by decide,
   C15_name_resolution ex_card0 ex_playback0 ex_card_info (0, ex_pcm_info) ex_item_playback0
     ex_fill_item_playback0⟩

/-- C16, as stated, fails: for a record with direction 2 whose stream query fails with -19,
`fill_item` returns -19, which is not the invalid-argument error `-EINVAL`; and for a
playback device whose stream query fails it sets no class at all. -/
theorem C16_class_of_direction_counterexample :
    ex_bad_direction.direction ≠ SND_PCM_STREAM_PLAYBACK ∧
    ex_bad_direction.direction ≠ SND_PCM_STREAM_CAPTURE ∧
    fill_item ex_card0 ex_bad_direction ex_card_info (-19, ex_pcm_info) = Except.error (-19) ∧
    (-19 : Int) ≠ -EINVAL ∧
    ex_playback0.direction = SND_PCM_STREAM_PLAYBACK ∧
    fill_item ex_card0 ex_playback0 ex_card_info (-19, ex_pcm_info) = Except.error (-19) := by
  refine ⟨by decide, by decide, rfl, by decide, by decide, rfl⟩

/-- C16, amended: for every device whose stream query succeeds, `fill_item` builds an item
with class `Audio/Sink` (and the sink factory) when the direction is playback and with class
`Audio/Source` (and the source factory) when it is capture, and for every other direction
value it returns `-EINVAL` and builds no item.  When the stream query fails, it returns the
error of the query and builds no item, whatever the direction. -/
theorem C16_class_of_direction (c : card) (d : device) (ci : snd_ctl_card_info)
    (pcm : Int × snd_pcm_info) :
    (0 ≤ pcm.1 → d.direction = SND_PCM_STREAM_PLAYBACK →
      ∃ item, fill_item c d ci pcm = Except.ok item ∧ item.klass = "Audio/Sink" ∧
        item.factory = handle_factory.spa_alsa_sink_factory) ∧
    (0 ≤ pcm.1 → d.direction = SND_PCM_STREAM_CAPTURE →
      ∃ item, fill_item c d ci pcm = Except.ok item ∧ item.klass = "Audio/Source" ∧
        item.factory = handle_factory.spa_alsa_source_factory) ∧
    (0 ≤ pcm.1 → d.direction ≠ SND_PCM_STREAM_PLAYBACK →
      d.direction ≠ SND_PCM_STREAM_CAPTURE →
      fill_item c d ci pcm = Except.error (-EINVAL)) ∧
    (pcm.1 < 0 → fill_item c d ci pcm = Except.error pcm.1) := by
  refine ⟨?_, ?_, ?_, ?_⟩
  · intro hq hd
    unfold fill_item
    simp only [if_neg (not_lt.2 hq), hd, if_true]
    exact ⟨_, rfl, rfl, rfl⟩
  · intro hq hd
    have hne : ¬ (SND_PCM_STREAM_CAPTURE = SND_PCM_STREAM_PLAYBACK) := by decide
    unfold fill_item
    simp only [if_neg (not_lt.2 hq), hd, hne, if_true, if_false]
    exact ⟨_, rfl, rfl, rfl⟩
  · intro hq h1 h2
    unfold fill_item
    simp only [if_neg (not_lt.2 hq), h1, h2, if_false]
  · intro hq
    unfold fill_item
    simp only [if_pos hq]

/-- C16, amended, at the playback stream of card 0 with a stream query that succeeds, and
at a record with direction 2. -/
theorem C16_class_of_direction_witness :
    (∃ item, fill_item ex_card0 ex_playback0 ex_card_info (0, ex_pcm_info) = Except.ok item ∧
      item.klass = "Audio/Sink" ∧ item.factory = handle_factory.spa_alsa_sink_factory) ∧
    fill_item ex_card0 ex_bad_direction ex_card_info (0, ex_pcm_info) =
      Except.error (-EINVAL) :=
  ⟨(C16_class_of_direction ex_card0 ex_playback0 ex_card_info (0, ex_pcm_info)).1
     (by decide) (by decide),
   (C16_class_of_direction ex_card0 ex_bad_direction ex_card_info (0, ex_pcm_info)).2.2.1
     (by decide) (by decide) (by decide)⟩


/-! ## The property list of an item (C17, C18) -/

theorem mem_info_entry (k k0 v : String) (src : Option String) :
    (k, v) ∈ info_entry k0 src ↔ k = k0 ∧ src = some v ∧ v ≠ "" := by
  cases src with
  | none => simp [info_entry]
  | some s =>
    by_cases hs : s = ""
    · subst hs
      simp [info_entry]
      intro _ h; exact h.symm
    · simp [info_entry, hs]
      intro _
      constructor
      · intro h2; exact ⟨h2.symm, h2 ▸ hs⟩
      · rintro ⟨h2, _⟩; exact h2.symm

theorem info_entry_chain2 (k : String) (a b : Option String) :
    info_entry k (if (!(nonempty a)) = true then b else a) =
      info_entry k (first_nonempty [a, b]) := by
  cases ha : nonempty a with
  | true => simp [first_nonempty, ha]
  | false =>
    cases hb : nonempty b with
    | true => simp [first_nonempty, ha, hb]
    | false =>
      simp [first_nonempty, ha, hb]
      cases b with
      | none => rfl
      | some s => simp [nonempty] at hb; simp [info_entry, hb]

theorem info_entry_chain3 (k : String) (a b c : Option String) :
    info_entry k (if (!(nonempty a)) = true then
        (if (!(nonempty b)) = true then c else b) else a) =
      info_entry k (first_nonempty [a, b, c]) := by
  cases ha : nonempty a with
  | true => simp [first_nonempty, ha]
  | false =>
    cases hb : nonempty b with
    | true => simp [first_nonempty, ha, hb]
    | false =>
      cases hc : nonempty c with
      | true => simp [first_nonempty, ha, hb, hc]
      | false =>
        simp [first_nonempty, ha, hb, hc]
        cases c with
        | none => rfl
        | some s => simp [nonempty] at hc; simp [info_entry, hc]

/-- The property list of an item `fill_item` builds, entry by entry, in the order of the
source. -/
theorem fill_item_info (c : card) (d : device) (ci : snd_ctl_card_info)
    (pcm : Int × snd_pcm_info) (item : spa_monitor_item)
    (h : fill_item c d ci pcm = Except.ok item) :
    item.info =
      [ ("alsa.card", c.name ++ "," ++ fmt_d d.num),
        ("alsa.card.id", ci.id),
        ("alsa.card.components", ci.components),
        ("alsa.card.driver", ci.driver),
        ("alsa.card.name", ci.name),
        ("alsa.card.longname", ci.longname),
        ("alsa.card.mixername", ci.mixername),
        ("udev-probed", "1"),
        ("device.api", "alsa"),
        ("alsa.pcm.id", pcm.2.id),
        ("alsa.pcm.name", pcm.2.name),
        ("alsa.pcm.subname", pcm.2.subdevice_name) ]
      ++ info_entry "device.class" (udev_device_get_property_value c.dev "SOUND_CLASS")
      ++ info_entry "device.bus_path"
           (first_nonempty [udev_device_get_property_value c.dev "ID_PATH",
                            udev_device_get_syspath c.dev])
      ++ info_entry "sysfs.path" (udev_device_get_syspath c.dev)
      ++ info_entry "udev.id" (udev_device_get_property_value c.dev "ID_ID")
      ++ info_entry "device.bus" (udev_device_get_property_value c.dev "ID_BUS")
      ++ info_entry "device.subsystem" (udev_device_get_property_value c.dev "SUBSYSTEM")
      ++ info_entry "device.vendor.id" (udev_device_get_property_value c.dev "ID_VENDOR_ID")
      ++ info_entry "device.vendor.name"
           (first_nonempty [udev_device_get_property_value c.dev "ID_VENDOR_FROM_DATABASE",
                            udev_device_get_property_value c.dev "ID_VENDOR_ENC",
                            udev_device_get_property_value c.dev "ID_VENDOR"])
      ++ info_entry "device.product.id" (udev_device_get_property_value c.dev "ID_MODEL_ID")
      ++ [("device.product.name", item.name)]
      ++ info_entry "device.serial" (udev_device_get_property_value c.dev "ID_SERIAL")
      ++ info_entry "device.form_factor"
           (udev_device_get_property_value c.dev "SOUND_FORM_FACTOR") := by
  unfold fill_item at h
  simp only [] at h
  split at h
  · exact absurd h (by simp)
  · split at h
    · exact absurd h (by simp)
    · injection h with h
      have hinfo := congrArg spa_monitor_item.info h
      have hname := congrArg spa_monitor_item.name h
      simp only [] at hinfo hname
      rw [← hinfo, ← hname]
      simp only [info_entry_chain3]
      simp only [info_entry_chain2]

theorem ex_fill_item_capture3 :
    fill_item ex_card3 ex_capture3 ex_card_info (0, ex_pcm_info) =
      Except.ok ex_item_capture3 := by
  rfl

/-- C17, as stated, fails for the product name: the udev device of card 3 has none of the
model properties, and yet the item built for its capture stream carries the key
`device.product.name`, with the value `Unknown`. -/
theorem C17_optional_properties_counterexample :
    fill_item ex_card3 ex_capture3 ex_card_info (0, ex_pcm_info) =
      Except.ok ex_item_capture3 ∧
    udev_device_get_property_value ex_card3.dev "ID_MODEL_FROM_DATABASE" = none ∧
    udev_device_get_property_value ex_card3.dev "ID_MODEL_ENC" = none ∧
    udev_device_get_property_value ex_card3.dev "ID_MODEL" = none ∧
    ("device.product.name", "Unknown") ∈ ex_item_capture3.info := by
  refine ⟨ex_fill_item_capture3, by decide, by decide, by decide, by decide⟩

/-- C17, amended: in every item `fill_item` builds, for each optional hardware property
other than the product name (bus path, serial, vendor id, vendor name, product id,
subsystem, device class, form factor) the key is in the property list if and only if the
value it is taken from, after its preference chain, is present and not empty, and the value
listed under the key is exactly that string.  The key `device.product.name` is always in the
list, exactly once, and its value is the name of the item. -/
theorem C17_optional_properties (c : card) (d : device) (ci : snd_ctl_card_info)
    (pcm : Int × snd_pcm_info) (item : spa_monitor_item)
    (h : fill_item c d ci pcm = Except.ok item) :
    (∀ p ∈ optional_sources c.dev,
      ((∃ v, (p.1, v) ∈ item.info) ↔ nonempty p.2 = true) ∧
      (∀ v, (p.1, v) ∈ item.info → p.2 = some v)) ∧
    ("device.product.name", item.name) ∈ item.info ∧
    (∀ v, ("device.product.name", v) ∈ item.info → v = item.name) ∧
    (item.info.filter (fun e => e.1 = "device.product.name")).length = 1 := by
  have hinfo := fill_item_info c d ci pcm item h
  refine ⟨?_, ?_, ?_, ?_⟩
  · intro p hp
    rw [hinfo]
    simp only [optional_sources, List.mem_cons, List.mem_singleton, List.not_mem_nil,
      or_false] at hp
    rcases hp with rfl | rfl | rfl | rfl | rfl | rfl | rfl | rfl <;>
    · constructor
      · constructor
        · rintro ⟨v, hv⟩
          simp [mem_info_entry] at hv
          simp [nonempty, hv]
        · intro hn
          obtain ⟨s, hs, hne⟩ := nonempty_eq_true _ hn
          simp only [] at hs
          exact ⟨s, by simp [mem_info_entry, hs, hne]⟩
      · intro v hv
        simp [mem_info_entry] at hv
        exact hv.1
  · rw [hinfo]; simp
  · intro v hv
    rw [hinfo] at hv
    simp [mem_info_entry] at hv
    exact hv
  · have hentry : ∀ (k : String) (src : Option String), k ≠ "device.product.name" →
        (info_entry k src).filter (fun e => e.1 = "device.product.name") = [] := by
      intro k src hk
      rw [List.filter_eq_nil_iff]
      intro e he
      have := (mem_info_entry e.1 k e.2 src).1 he
      simp only [decide_eq_true_eq]
      exact fun heq => hk (this.1 ▸ heq)
    rw [hinfo]
    simp only [List.filter_append, hentry "device.class" _ (by decide),
      hentry "device.bus_path" _ (by decide), hentry "sysfs.path" _ (by decide),
      hentry "udev.id" _ (by decide), hentry "device.bus" _ (by decide),
      hentry "device.subsystem" _ (by decide), hentry "device.vendor.id" _ (by decide),
      hentry "device.vendor.name" _ (by decide), hentry "device.product.id" _ (by decide),
      hentry "device.serial" _ (by decide), hentry "device.form_factor" _ (by decide)]
    simp

/-- C17, amended, at the playback stream of card 0, whose udev device has a syspath and the
property `ID_MODEL` only: of the optional keys only the bus path is listed. -/
theorem C17_optional_properties_witness :
    fill_item ex_card0 ex_playback0 ex_card_info (0, ex_pcm_info) =
      Except.ok ex_item_playback0 ∧
    ("device.bus_path", "/sys/devices/pci0/sound/card0") ∈ ex_item_playback0.info ∧
    (∀ p ∈ optional_sources ex_card0.dev,
      ((∃ v, (p.1, v) ∈ ex_item_playback0.info) ↔ nonempty p.2 = true) ∧
      (∀ v, (p.1, v) ∈ ex_item_playback0.info → p.2 = some v)) ∧
    ("device.product.name", ex_item_playback0.name) ∈ ex_item_playback0.info ∧
    (∀ v, ("device.product.name", v) ∈ ex_item_playback0.info →
      v = ex_item_playback0.name) ∧
    (ex_item_playback0.info.filter (fun e => e.1 = "device.product.name")).length = 1 :=
  ⟨ex_fill_item_playback0, by decide,
   C17_optional_properties ex_card0 ex_playback0 ex_card_info (0, ex_pcm_info)
     ex_item_playback0 ex_fill_item_playback0⟩


/-! ## The devices of a new card (C19) -/

theorem create_device_ok (this : impl) (card : card) (n dir : Int) :
    (create_device this card true n dir).2.1.devices.map device_key =
      card.devices.map device_key ++ [(n, dir)] ∧
    (create_device this card true n dir).2.2 = 0 := by
  simp [create_device, device_key]

/-- When every `calloc` succeeds, the loop appends to the card's list, for each yielded PCM
index in turn, the devices its probes stand for. -/
theorem pcm_loop_keys (steps : List pcm_step) :
    ∀ (this : impl) (card : card),
      (∀ s ∈ steps, (s.playback = 0 → s.playback_alloc = true) ∧
        (s.capture = 0 → s.capture_alloc = true)) →
      (pcm_loop this card steps).2.1.devices.map device_key =
        card.devices.map device_key ++ (yielded_steps steps).flatMap probed := by
  induction steps with
  | nil => intro this card _; simp [pcm_loop, yielded_steps]
  | cons s rest ih =>
    intro this card hall
    have hs := hall s (List.mem_cons_self _ _)
    have hrest : ∀ x ∈ rest, (x.playback = 0 → x.playback_alloc = true) ∧
        (x.capture = 0 → x.capture_alloc = true) :=
      fun x hx => hall x (List.mem_cons_of_mem _ hx)
    unfold pcm_loop
    by_cases he : s.err < 0
    · rw [if_pos he]
      have : ¬ (0 ≤ s.err ∧ 0 ≤ s.dev_num) := fun h => absurd h.1 (not_le.2 he)
      simp [yielded_steps, List.takeWhile, this]
    rw [if_neg he]
    by_cases hn : s.dev_num < 0
    · rw [if_pos hn]
      have : ¬ (0 ≤ s.err ∧ 0 ≤ s.dev_num) := fun h => absurd h.2 (not_le.2 hn)
      simp [yielded_steps, List.takeWhile, this]
    rw [if_neg hn]
    have hy : yielded_steps (s :: rest) = s :: yielded_steps rest := by
      have : 0 ≤ s.err ∧ 0 ≤ s.dev_num := ⟨not_lt.1 he, not_lt.1 hn⟩
      simp [yielded_steps, List.takeWhile, this]
    rw [hy, List.flatMap_cons]
    simp only []
    -- the playback probe
    have h1 : ∃ r1 : impl × AlsaMonitor.card × Int,
        (if s.playback = 0 then
            create_device this card s.playback_alloc s.dev_num SND_PCM_STREAM_PLAYBACK
          else (this, card, 0)) = r1 ∧ ¬ r1.2.2 < 0 ∧
        r1.2.1.devices.map device_key = card.devices.map device_key ++
          (if s.playback = 0 then [(s.dev_num, SND_PCM_STREAM_PLAYBACK)] else []) := by
      by_cases hp : s.playback = 0
      · rw [if_pos hp, if_pos hp, hs.1 hp]
        obtain ⟨a, b⟩ := create_device_ok this card s.dev_num SND_PCM_STREAM_PLAYBACK
        exact ⟨_, rfl, by rw [b]; simp, a⟩
      · rw [if_neg hp, if_neg hp]
        exact ⟨(this, card, 0), rfl, by simp, by simp⟩
    obtain ⟨r1, hr1, hneg1, hk1⟩ := h1
    rw [hr1, if_neg hneg1]
    have h2 : ∃ r2 : impl × AlsaMonitor.card × Int,
        (if s.capture = 0 then
            create_device r1.1 r1.2.1 s.capture_alloc s.dev_num SND_PCM_STREAM_CAPTURE
          else (r1.1, r1.2.1, 0)) = r2 ∧
        r2.2.1.devices.map device_key = r1.2.1.devices.map device_key ++
          (if s.capture = 0 then [(s.dev_num, SND_PCM_STREAM_CAPTURE)] else []) := by
      by_cases hp : s.capture = 0
      · rw [if_pos hp, if_pos hp, hs.2 hp]
        exact ⟨_, rfl, (create_device_ok r1.1 r1.2.1 s.dev_num SND_PCM_STREAM_CAPTURE).1⟩
      · rw [if_neg hp, if_neg hp]
        exact ⟨_, rfl, by simp⟩
    obtain ⟨r2, hr2, hk2⟩ := h2
    rw [hr2, ih r2.1 r2.2.1 hrest, hk2, hk1]
    simp [probed]


/-- The card `create_card` returns is the record the PCM iteration has filled. -/
theorem create_card_some_eq (this : impl) (env : card_backend) (dev : Option udev_device)
    (c : card) (h : (create_card this env dev).2 = some c) :
    ∃ n, check_card dev = some n ∧
      c = (pcm_loop { this with brk := this.brk + 1 }
            (new_card this dev n (some env.open_hndl)) env.pcm).2.1 := by
  cases hc : check_card dev with
  | none => simp [create_card, hc] at h
  | some n =>
    cases hf : find_card this n with
    | some c0 => simp [create_card, hc, hf] at h
    | none =>
      cases ha : env.calloc with
      | false => simp [create_card, hc, hf, ha] at h
      | true =>
        by_cases ho : env.open_err < 0
        · simp [create_card, hc, hf, ha, ho] at h
        by_cases hi : env.card_info_err < 0
        · simp [create_card, hc, hf, ha, ho, hi] at h
        simp only [create_card, hc, hf, ha, ho, hi, Bool.not_true, Bool.false_eq_true,
          if_false] at h
        refine ⟨n, rfl, ?_⟩
        split at h
        · exact (Option.some.inj h).symm
        · exact absurd h (by simp)

/-- C19, as stated, fails when a `calloc` of `create_device` fails: the backend yields PCM 0
with both probes succeeding, `create_card` succeeds, and the card has no device at all,
because the failed allocation of the playback device also skips the capture probe. -/
theorem C19_devices_of_new_card_counterexample :
    (yielded_steps ex_card_alloc_fails.pcm).map (fun s => s.dev_num) = [0] ∧
    (yielded_steps ex_card_alloc_fails.pcm).flatMap probed =
      [(0, SND_PCM_STREAM_PLAYBACK), (0, SND_PCM_STREAM_CAPTURE)] ∧
    (create_card impl_init ex_card_alloc_fails (some ex_dev0)).2 =
      some (new_card impl_init (some ex_dev0) 0 (some 7)) ∧
    (new_card impl_init (some ex_dev0) 0 (some 7)).devices = [] ∧
    (create_card impl_init ex_card_alloc_fails (some ex_dev0)).1.devices = [] := by
  refine ⟨by decide, by decide, by decide, rfl, by decide⟩

/-- C19, amended: when `create_card` succeeds and every `calloc` of `create_device`
succeeds, the devices of the new card are exactly, for each PCM index the backend yields, in
the order it yields them until it reports no further device, a playback device if the
playback probe returns 0 followed by a capture device if the capture probe returns 0, and
none for a failed probe; they are appended in that order to the card's list and to the end of
the flattened list, and each points back to the new card. -/
theorem C19_devices_of_new_card (this : impl) (env : card_backend)
    (dev : Option udev_device) (c : card)
    (hret : (create_card this env dev).2 = some c) (halloc : device_allocs_ok env) :
    c.devices.map device_key = (yielded_steps env.pcm).flatMap probed ∧
    (create_card this env dev).1.cards = this.cards ++ [c] ∧
    (create_card this env dev).1.devices = this.devices ++ c.devices ∧
    (∀ d ∈ c.devices, d.card = c.ptr) := by
  obtain ⟨n, _, hc⟩ := create_card_some_eq this env dev c hret
  have hkeys := pcm_loop_keys env.pcm { this with brk := this.brk + 1 }
    (new_card this dev n (some env.open_hndl)) halloc
  rw [← hc] at hkeys
  rcases create_card_cases this env dev with
    h0 | ⟨n2, c2, _, _, _, _, hp, _, _, hback, hst, hr⟩
  · rw [h0] at hret; exact absurd hret (by simp)
  · have hcc : c2 = c := by
      rcases hr with h | h
      · rw [h] at hret; exact absurd hret (by simp)
      · rw [h] at hret; exact Option.some.inj hret
    subst hcc
    refine ⟨by simpa [new_card] using hkeys, by rw [hst], by rw [hst], ?_⟩
    intro d hd
    rw [(hback d hd).1, hp]

/-- C19, amended, at a backend that yields PCM 0 with a playback stream only and PCM 2 with
a capture stream only. -/
theorem C19_devices_of_new_card_witness :
    (create_card impl_init ex_card_two_pcms (some ex_dev0)).2 =
      some { ptr := 1, dev := some ex_dev0, num := 0, name := "hw:0", ctl_hndl := some 7,
             devices := [{ ptr := 2, card := 1, num := 0, direction := 0, enabled := false },
                         { ptr := 3, card := 1, num := 2, direction := 1, enabled := false }] } ∧
    device_allocs_ok ex_card_two_pcms ∧
    (yielded_steps ex_card_two_pcms.pcm).flatMap probed =
      [(0, SND_PCM_STREAM_PLAYBACK), (2, SND_PCM_STREAM_CAPTURE)] ∧
    (create_card impl_init ex_card_two_pcms (some ex_dev0)).1.devices =
      impl_init.devices ++
        [{ ptr := 2, card := 1, num := 0, direction := 0, enabled := false },
         { ptr := 3, card := 1, num := 2, direction := 1, enabled := false }] :=
  ⟨by decide, by unfold device_allocs_ok; decide, by decide,
   (C19_devices_of_new_card impl_init ex_card_two_pcms (some ex_dev0)
      { ptr := 1, dev := some ex_dev0, num := 0, name := "hw:0", ctl_hndl := some 7,
        devices := [{ ptr := 2, card := 1, num := 0, direction := 0, enabled := false },
                    { ptr := 3, card := 1, num := 2, direction := 1, enabled := false }] }
      (by decide) (by unfold device_allocs_ok; decide)).2.2.1⟩


/-! ## Properties of the cards of a reachable registry (C18, C20) -/

theorem reachable_with_true (this : impl) (h : reachable this) :
    reachable_with (fun _ => True) this := by
  induction h with
  | init => exact reachable_with.init
  | scan this env dev _ ih => exact reachable_with.scan this env dev trivial ih
  | udev_open this env _ ih => exact reachable_with.udev_open this env (fun _ _ => trivial) ih
  | notify this env dev next evs _ hstep ih =>
    exact reachable_with.notify this env dev next evs trivial ih hstep
  | enum_items this env index next r _ hstep ih =>
    exact reachable_with.enum_items this env index next r (fun _ _ => trivial) ih hstep

/-- Every card in the list after `create_card` was there before, or is the record set up
for the resolved id, as the open failure, the query failure or the PCM iteration left it. -/
theorem create_card_new (this : impl) (env : card_backend) (dev : Option udev_device) :
    ∀ c ∈ (create_card this env dev).1.cards, c ∈ this.cards ∨
      ∃ n, check_card dev = some n ∧
        (c = new_card this dev n none ∨ c = new_card this dev n (some env.open_hndl) ∨
          c = (pcm_loop { this with brk := this.brk + 1 }
                (new_card this dev n (some env.open_hndl)) env.pcm).2.1) := by
  intro c hmem
  cases hc : check_card dev with
  | none => left; simpa [create_card, hc] using hmem
  | some n =>
    cases hf : find_card this n with
    | some c0 => left; simpa [create_card, hc, hf] using hmem
    | none =>
      cases ha : env.calloc with
      | false => left; simpa [create_card, hc, hf, ha] using hmem
      | true =>
        have hcards : (pcm_loop { this with brk := this.brk + 1 }
            (new_card this dev n (some env.open_hndl)) env.pcm).1.cards = this.cards := by
          obtain ⟨ds, h1, _⟩ := pcm_loop_spec env.pcm { this with brk := this.brk + 1 }
            (new_card this dev n (some env.open_hndl))
          rw [h1]
        by_cases ho : env.open_err < 0
        · simp only [create_card, hc, hf, ha, ho, Bool.not_true, Bool.false_eq_true,
            if_false, if_true, link_card, List.mem_append, List.mem_singleton] at hmem
          rcases hmem with h | h
          · exact Or.inl h
          · exact Or.inr ⟨n, rfl, Or.inl h⟩
        by_cases hi : env.card_info_err < 0
        · simp only [create_card, hc, hf, ha, ho, hi, Bool.not_true, Bool.false_eq_true,
            if_false, if_true, link_card, List.mem_append, List.mem_singleton] at hmem
          rcases hmem with h | h
          · exact Or.inl h
          · exact Or.inr ⟨n, rfl, Or.inr (Or.inl h)⟩
        simp only [create_card, hc, hf, ha, ho, hi, Bool.not_true, Bool.false_eq_true,
          if_false] at hmem
        have hm2 : c ∈ (pcm_loop { this with brk := this.brk + 1 }
            (new_card this dev n (some env.open_hndl)) env.pcm).1.cards ++
            [(pcm_loop { this with brk := this.brk + 1 }
              (new_card this dev n (some env.open_hndl)) env.pcm).2.1] := by
          split at hmem <;> exact hmem
        rw [hcards] at hm2
        rcases List.mem_append.1 hm2 with h | h
        · exact Or.inl h
        · exact Or.inr ⟨n, rfl, Or.inr (Or.inr (List.mem_singleton.1 h))⟩

/-- A property of single cards that unlinking devices keeps, and that every card
`create_card` links has when the backend satisfies `ok`, holds for every card of every
registry reachable with such backends. -/
theorem reachable_with_cards (ok : card_backend → Prop) (P : card → Prop)
    (hdrop : ∀ (ds : List device) (c : card), P c → P (card_drop_devices ds c))
    (hnew : ∀ (this : impl) (env : card_backend) (dev : Option udev_device), ok env →
      ∀ c ∈ (create_card this env dev).1.cards, c ∈ this.cards ∨ P c)
    (this : impl) (h : reachable_with ok this) : ∀ c ∈ this.cards, P c := by
  have hcreate : ∀ (s : impl) (env : card_backend) (dev : Option udev_device), ok env →
      (∀ c ∈ s.cards, P c) → ∀ c ∈ (create_card s env dev).1.cards, P c := by
    intro s env dev hok hs c hc
    rcases hnew s env dev hok c hc with h1 | h1
    · exact hs c h1
    · exact h1
  have hscan : ∀ (l : List (Option udev_device × card_backend)) (s : impl),
      (∀ x ∈ l, ok x.2) → (∀ c ∈ s.cards, P c) → ∀ c ∈ (scan_devices s l).cards, P c := by
    intro l
    induction l with
    | nil => intro s _ hs; exact hs
    | cons x rest ih =>
      intro s hok hs
      obtain ⟨dev, env⟩ := x
      exact ih _ (fun y hy => hok y (List.mem_cons_of_mem _ hy))
        (hcreate s env dev (hok (dev, env) (List.mem_cons_self _ _)) hs)
  have hopen : ∀ (s : impl) (env : backend), (∀ x ∈ env.scan, ok x.2) →
      (∀ c ∈ s.cards, P c) → ∀ c ∈ (impl_udev_open s env).cards, P c := by
    intro s env hok hs
    unfold impl_udev_open
    split
    · exact hs
    · split
      · exact hs
      · exact hscan _ _ hok hs
  induction h with
  | init => intro c hc; simp [impl_init] at hc
  | scan this env dev hok _ ih => exact hcreate this env dev hok ih
  | udev_open this env hok _ ih => exact hopen this env hok ih
  | notify this env dev next evs hok _ hstep ih =>
    rcases on_fd_events_state this env dev next evs hstep with h1 | h1 | ⟨card, _, h1⟩
    · rw [h1]; exact ih
    · rw [h1]; exact hcreate this env.create dev hok ih
    · rw [h1, remove_card_eq]
      intro c hc
      obtain ⟨c1, hc1, rfl⟩ := List.mem_map.1 (List.mem_of_mem_filter hc)
      exact hdrop _ c1 (ih c1 hc1)
  | enum_items this env index next r hok _ hstep ih =>
    obtain ⟨h1, _, _, _⟩ := enum_items_state this env index next r hstep
    rw [h1]
    exact hopen this env hok ih


theorem int_of_long_range (v : Int) :
    -2147483648 ≤ int_of_long v ∧ int_of_long v < 2147483648 := by
  unfold int_of_long
  simp only []
  split <;> omega

theorem check_card_range (dev : Option udev_device) (n : Int) (h : check_card dev = some n) :
    -2147483648 ≤ n ∧ n < 2147483648 := by
  unfold check_card at h
  split at h
  · exact absurd h (by simp)
  · split at h
    · exact absurd h (by simp)
    · split at h
      · exact absurd h (by simp)
      · split at h
        · exact absurd h (by simp)
        · rw [← Option.some.inj h]
          exact int_of_long_range _

/-- Every card `create_card` links has the display handle `hw:%u` of its id. -/
theorem create_card_named (this : impl) (env : card_backend) (dev : Option udev_device) :
    ∀ c ∈ (create_card this env dev).1.cards, c ∈ this.cards ∨ card_named c := by
  intro c hc
  rcases create_card_new this env dev c hc with h | ⟨n, hn, h | h | h⟩
  · exact Or.inl h
  · right; rw [h]; exact ⟨rfl, check_card_range dev n hn⟩
  · right; rw [h]; exact ⟨rfl, check_card_range dev n hn⟩
  · right
    obtain ⟨ds, _, h2, _⟩ := pcm_loop_spec env.pcm { this with brk := this.brk + 1 }
      (new_card this dev n (some env.open_hndl))
    rw [h, h2]
    exact ⟨rfl, check_card_range dev n hn⟩

theorem reachable_named (this : impl) (h : reachable this) : ∀ c ∈ this.cards, card_named c :=
  reachable_with_cards (fun _ => True) card_named (fun _ _ hc => hc)
    (fun this env dev _ => create_card_named this env dev) this (reachable_with_true this h)

theorem fmt_u_nonneg (n : Int) (h0 : 0 ≤ n) (h1 : n < 2147483648) :
    fmt_u n = toString n.toNat := by
  unfold fmt_u
  have : n % 4294967296 = n := by omega
  rw [this]

theorem fmt_u_neg (n : Int) (h0 : n < 0) (h1 : -2147483648 ≤ n) :
    fmt_u n = toString (n + 4294967296).toNat := by
  unfold fmt_u
  have hmod : n % 4294967296 = n + 4294967296 := by omega
  rw [hmod]

/-- C18, as stated, fails for a card with a negative id: an `add` for the device path
`/devices/pci0/sound/card-12` resolves to the id -12 and creates a card whose display handle
is `hw:4294967284`, because `create_card` prints the id with `%u`; the `alsa.card` entry of
the item of its playback stream is `hw:4294967284,0`, which is not `hw:-12,0`. -/
theorem C18_card_entries_counterexample :
    check_card (some ex_dev_minus12) = some (-12) ∧
    reachable (create_card impl_init ex_card_ok (some ex_dev_minus12)).1 ∧
    (create_card impl_init ex_card_ok (some ex_dev_minus12)).1.cards = [ex_card_minus12] ∧
    ex_card_minus12.num = -12 ∧ ex_card_minus12.name = "hw:4294967284" ∧
    ((fill_item ex_card_minus12 ex_playback0 ex_card_info (0, ex_pcm_info)).toOption.map
      (fun item => item.info.take 1)) = some [("alsa.card", "hw:4294967284,0")] ∧
    "hw:4294967284,0" ≠ "hw:" ++ toString ex_card_minus12.num ++ "," ++
      toString ex_playback0.num := by
  refine ⟨by decide, reachable.scan _ _ _ reachable.init, by decide, by decide, by decide,
    ?_, by decide⟩
  rfl

/-- C18, amended: every item `fill_item` builds for a card of a reachable registry lists,
whatever optional hardware properties the card has, the card-level entries `alsa.card`,
`alsa.card.id`, `alsa.card.components`, `alsa.card.driver`, `alsa.card.name`,
`alsa.card.longname` and `alsa.card.mixername`, with the values of the card query; the value
of `alsa.card` is the display handle of the card, `hw:` followed by the card id as `%u`
prints it (its decimal digits when the id is not negative, those of the id plus 2^32 when
it is negative), then a comma and the PCM index of the device in decimal. -/
theorem C18_card_entries (this : impl) (hr : reachable this) (c : card)
    (hc : c ∈ this.cards) (d : device) (ci : snd_ctl_card_info) (pcm : Int × snd_pcm_info)
    (item : spa_monitor_item) (h : fill_item c d ci pcm = Except.ok item) :
    (∃ rest, item.info =
      [ ("alsa.card", "hw:" ++ fmt_u c.num ++ "," ++ toString d.num),
        ("alsa.card.id", ci.id),
        ("alsa.card.components", ci.components),
        ("alsa.card.driver", ci.driver),
        ("alsa.card.name", ci.name),
        ("alsa.card.longname", ci.longname),
        ("alsa.card.mixername", ci.mixername) ] ++ rest) ∧
    c.name = "hw:" ++ fmt_u c.num ∧
    (0 ≤ c.num → fmt_u c.num = toString c.num.toNat) ∧
    (c.num < 0 → fmt_u c.num = toString (c.num + 4294967296).toNat) := by
  obtain ⟨hname, hlo, hhi⟩ := reachable_named this hr c hc
  refine ⟨?_, hname, fun h0 => fmt_u_nonneg c.num h0 hhi, fun h0 => fmt_u_neg c.num h0 hlo⟩
  refine ⟨item.info.drop 7, ?_⟩
  rw [fill_item_info c d ci pcm item h, hname]
  simp [fmt_d]

/-- C18, amended, at the registry reached by scanning card 0, for its playback stream: the
item lists `alsa.card` with the value `hw:0,0`. -/
theorem C18_card_entries_witness :
    reachable (create_card impl_init ex_card_ok (some ex_dev0)).1 ∧
    ex_card0 ∈ (create_card impl_init ex_card_ok (some ex_dev0)).1.cards ∧
    fill_item ex_card0 ex_playback0 ex_card_info (0, ex_pcm_info) =
      Except.ok ex_item_playback0 ∧
    "hw:" ++ fmt_u ex_card0.num ++ "," ++ toString ex_playback0.num = "hw:0,0" ∧
    (∃ rest, ex_item_playback0.info =
      [ ("alsa.card", "hw:" ++ fmt_u ex_card0.num ++ "," ++ toString ex_playback0.num),
        ("alsa.card.id", ex_card_info.id),
        ("alsa.card.components", ex_card_info.components),
        ("alsa.card.driver", ex_card_info.driver),
        ("alsa.card.name", ex_card_info.name),
        ("alsa.card.longname", ex_card_info.longname),
        ("alsa.card.mixername", ex_card_info.mixername) ] ++ rest) :=
  ⟨reachable.scan _ _ _ reachable.init, by decide, ex_fill_item_playback0, by decide,
   (C18_card_entries (create_card impl_init ex_card_ok (some ex_dev0)).1
      (reachable.scan _ _ _ reachable.init) ex_card0 (by decide) ex_playback0 ex_card_info
      (0, ex_pcm_info) ex_item_playback0 ex_fill_item_playback0).1⟩


theorem create_device_keys (this : impl) (card : card) (alloc : Bool) (n dir : Int) :
    ∃ k : List (Int × Int),
      (create_device this card alloc n dir).2.1.devices.map device_key =
        card.devices.map device_key ++ k ∧ List.Sublist k [(n, dir)] := by
  cases alloc with
  | false => exact ⟨[], by simp [create_device], by simp⟩
  | true => exact ⟨[(n, dir)], (create_device_ok this card n dir).1, List.Sublist.refl _⟩

/-- Whatever the allocations do, the loop appends to the card's list at most one playback
and one capture device per yielded PCM index, in the order of the indices. -/
theorem pcm_loop_keys_sublist (steps : List pcm_step) :
    ∀ (this : impl) (card : card), ∃ ks : List (Int × Int),
      (pcm_loop this card steps).2.1.devices.map device_key =
        card.devices.map device_key ++ ks ∧
      List.Sublist ks ((yielded_steps steps).flatMap (fun s =>
        [(s.dev_num, SND_PCM_STREAM_PLAYBACK), (s.dev_num, SND_PCM_STREAM_CAPTURE)])) := by
  induction steps with
  | nil => intro this card; exact ⟨[], by simp [pcm_loop], by simp⟩
  | cons s rest ih =>
    intro this card
    unfold pcm_loop
    by_cases he : s.err < 0
    · rw [if_pos he]; exact ⟨[], by simp, by simp⟩
    rw [if_neg he]
    by_cases hn : s.dev_num < 0
    · rw [if_pos hn]; exact ⟨[], by simp, by simp⟩
    rw [if_neg hn]
    have hy : yielded_steps (s :: rest) = s :: yielded_steps rest := by
      have : 0 ≤ s.err ∧ 0 ≤ s.dev_num := ⟨not_lt.1 he, not_lt.1 hn⟩
      simp [yielded_steps, List.takeWhile, this]
    rw [hy, List.flatMap_cons]
    simp only []
    have h1 : ∃ (r1 : impl × AlsaMonitor.card × Int) (k1 : List (Int × Int)),
        (if s.playback = 0 then
            create_device this card s.playback_alloc s.dev_num SND_PCM_STREAM_PLAYBACK
          else (this, card, 0)) = r1 ∧
        r1.2.1.devices.map device_key = card.devices.map device_key ++ k1 ∧
        List.Sublist k1 [(s.dev_num, SND_PCM_STREAM_PLAYBACK)] := by
      by_cases hp : s.playback = 0
      · rw [if_pos hp]
        obtain ⟨k, a, b⟩ :=
          create_device_keys this card s.playback_alloc s.dev_num SND_PCM_STREAM_PLAYBACK
        exact ⟨_, k, rfl, a, b⟩
      · rw [if_neg hp]
        exact ⟨(this, card, 0), [], rfl, by simp, by simp⟩
    obtain ⟨r1, k1, hr1, hk1, hs1⟩ := h1
    rw [hr1]
    by_cases hneg : r1.2.2 < 0
    · rw [if_pos hneg]
      obtain ⟨ks, a, b⟩ := ih r1.1 r1.2.1
      refine ⟨k1 ++ ks, by rw [a, hk1, List.append_assoc], ?_⟩
      have hk : List.Sublist k1
          [(s.dev_num, SND_PCM_STREAM_PLAYBACK), (s.dev_num, SND_PCM_STREAM_CAPTURE)] :=
        hs1.trans (by simp)
      exact List.Sublist.append hk b
    · rw [if_neg hneg]
      have h2 : ∃ (r2 : impl × AlsaMonitor.card × Int) (k2 : List (Int × Int)),
          (if s.capture = 0 then
              create_device r1.1 r1.2.1 s.capture_alloc s.dev_num SND_PCM_STREAM_CAPTURE
            else (r1.1, r1.2.1, 0)) = r2 ∧
          r2.2.1.devices.map device_key = r1.2.1.devices.map device_key ++ k2 ∧
          List.Sublist k2 [(s.dev_num, SND_PCM_STREAM_CAPTURE)] := by
        by_cases hp : s.capture = 0
        · rw [if_pos hp]
          obtain ⟨k, a, b⟩ :=
            create_device_keys r1.1 r1.2.1 s.capture_alloc s.dev_num SND_PCM_STREAM_CAPTURE
          exact ⟨_, k, rfl, a, b⟩
        · rw [if_neg hp]
          exact ⟨(r1.1, r1.2.1, 0), [], rfl, by simp, by simp⟩
      obtain ⟨r2, k2, hr2, hk2, hs2⟩ := h2
      rw [hr2]
      obtain ⟨ks, a, b⟩ := ih r2.1 r2.2.1
      refine ⟨(k1 ++ k2) ++ ks, by rw [a, hk2, hk1]; simp [List.append_assoc], ?_⟩
      have hk : List.Sublist (k1 ++ k2)
          ([(s.dev_num, SND_PCM_STREAM_PLAYBACK)] ++ [(s.dev_num, SND_PCM_STREAM_CAPTURE)]) :=
        List.Sublist.append hs1 hs2
      exact List.Sublist.append hk b

theorem nodup_both_directions (l : List pcm_step)
    (h : (l.map (fun s => s.dev_num)).Nodup) :
    (l.flatMap (fun s =>
      [(s.dev_num, SND_PCM_STREAM_PLAYBACK), (s.dev_num, SND_PCM_STREAM_CAPTURE)])).Nodup := by
  induction l with
  | nil => simp
  | cons s rest ih =>
    rw [List.map_cons, List.nodup_cons] at h
    have hnot : ∀ dir : Int, (s.dev_num, dir) ∉ rest.flatMap (fun s =>
        [(s.dev_num, SND_PCM_STREAM_PLAYBACK), (s.dev_num, SND_PCM_STREAM_CAPTURE)]) := by
      intro dir hmem
      obtain ⟨x, hx, hx2⟩ := List.mem_flatMap.1 hmem
      have hnum : s.dev_num = x.dev_num := by
        simp only [List.mem_cons, List.mem_singleton, List.not_mem_nil, or_false,
          Prod.mk.injEq] at hx2
        rcases hx2 with h1 | h1 <;> exact h1.1
      exact h.1 (hnum ▸ List.mem_map_of_mem _ hx)
    rw [List.flatMap_cons]
    have hne : (s.dev_num, SND_PCM_STREAM_PLAYBACK) ≠ (s.dev_num, SND_PCM_STREAM_CAPTURE) := by
      intro heq
      exact absurd (Prod.mk.inj heq).2 (by decide)
    simp only [List.cons_append, List.nil_append, List.nodup_cons, List.mem_cons, not_or]
    exact ⟨⟨hne, hnot _⟩, hnot _, ih h.2⟩

/-- Every card `create_card` links, from a backend that yields no PCM index twice, has no
two devices with the same PCM index and direction. -/
theorem create_card_keys_nodup (this : impl) (env : card_backend) (dev : Option udev_device)
    (hok : distinct_indices env) :
    ∀ c ∈ (create_card this env dev).1.cards,
      c ∈ this.cards ∨ (c.devices.map device_key).Nodup := by
  intro c hc
  rcases create_card_new this env dev c hc with h | ⟨n, _, h | h | h⟩
  · exact Or.inl h
  · right; rw [h]; simp [new_card]
  · right; rw [h]; simp [new_card]
  · right
    obtain ⟨ks, h1, h2⟩ := pcm_loop_keys_sublist env.pcm { this with brk := this.brk + 1 }
      (new_card this dev n (some env.open_hndl))
    rw [h, h1]
    simp only [new_card, List.map_nil, List.nil_append]
    exact List.Nodup.sublist h2 (nodup_both_directions _ hok)

/-- C20: when the backend never yields the same PCM index twice while it iterates one card,
in every reachable registry state no card has two devices with the same PCM index and
direction. -/
theorem C20_device_keys_unique (this : impl) (h : reachable_with distinct_indices this) :
    ∀ c ∈ this.cards, (c.devices.map device_key).Nodup := by
  apply reachable_with_cards distinct_indices (fun c => (c.devices.map device_key).Nodup)
    ?_ ?_ this h
  · intro ds c hc
    exact List.Nodup.sublist ((List.filter_sublist _).map _) hc
  · intro this env dev hok
    exact create_card_keys_nodup this env dev hok

/-- C20 at the registry reached by scanning card 0 from a backend that yields PCM 0 and
PCM 2: the card has the devices (0, playback) and (2, capture). -/
theorem C20_device_keys_unique_witness :
    distinct_indices ex_card_two_pcms ∧
    reachable_with distinct_indices (create_card impl_init ex_card_two_pcms (some ex_dev0)).1 ∧
    (create_card impl_init ex_card_two_pcms (some ex_dev0)).1.cards.map
      (fun c => c.devices.map device_key) =
        [[(0, SND_PCM_STREAM_PLAYBACK), (2, SND_PCM_STREAM_CAPTURE)]] ∧
    ∀ c ∈ (create_card impl_init ex_card_two_pcms (some ex_dev0)).1.cards,
      (c.devices.map device_key).Nodup :=
  ⟨by unfold distinct_indices; decide,
   reachable_with.scan _ _ _ (by unfold distinct_indices; decide) reachable_with.init,
   by decide,
   C20_device_keys_unique _
     (reachable_with.scan _ _ _ (by unfold distinct_indices; decide) reachable_with.init)⟩

/-! ## The two device lists (C21) -/

/-- In a well-formed registry a device is listed by one card only: two cards of the registry
that both list the device `d` are the same card. -/
theorem owner_unique (this : impl) (hwf : wf this) (c1 c2 : card) (h1 : c1 ∈ this.cards)
    (h2 : c2 ∈ this.cards) (d : device) (hd1 : d ∈ c1.devices) (hd2 : d ∈ c2.devices) :
    c1 = c2 := by
  have hp : c1.ptr = c2.ptr := by
    rw [← hwf.backref c1 h1 d hd1, ← hwf.backref c2 h2 d hd2]
  exact List.inj_on_of_nodup_map hwf.card_ptr_nodup h1 h2 hp

/-- C21: in every reachable registry the flattened device list is the concatenation of the
device lists of the cards, in card-list order, and no record occurs twice in it; every
device of the flattened list is in the device list of the card its back-reference names,
which is a card of the registry, and in the device list of no other card; and every device
of every card is in the flattened list. -/
theorem C21_devices_partition (this : impl) (h : reachable this) :
    this.devices = this.cards.flatMap (fun c => c.devices) ∧
    (this.devices.map (fun d => d.ptr)).Nodup ∧
    (∀ d ∈ this.devices, ∃ c ∈ this.cards,
      d ∈ c.devices ∧ d.card = c.ptr ∧ deref_card this d.card = some c ∧
      ∀ c2 ∈ this.cards, d ∈ c2.devices → c2 = c) ∧
    (∀ c ∈ this.cards, ∀ d ∈ c.devices, d ∈ this.devices) := by
  have hwf := reachable_wf this h
  refine ⟨hwf.flat, hwf.dev_ptr_nodup, ?_, ?_⟩
  · intro d hd
    have hd1 := hd
    rw [hwf.flat, List.mem_flatMap] at hd1
    obtain ⟨c, hc, hdc⟩ := hd1
    refine ⟨c, hc, hdc, hwf.backref c hc d hdc, ?_, ?_⟩
    · rw [hwf.backref c hc d hdc]
      exact deref_card_of_mem this c hwf.card_ptr_nodup hc
    · intro c2 hc2 hd2
      exact owner_unique this hwf c2 c hc2 hc d hd2 hdc
  · intro c hc d hd
    rw [hwf.flat, List.mem_flatMap]
    exact ⟨c, hc, hd⟩

/-- C21 at the registry reached by creating card 0 and card 3 with two streams each: the
flattened list holds the two devices of card 0 and then the two devices of card 3. -/
theorem C21_devices_partition_witness :
    reachable (create_card (create_card impl_init ex_card_ok (some ex_dev0)).1
      ex_card_ok (some ex_dev3)).1 ∧
    ((create_card (create_card impl_init ex_card_ok (some ex_dev0)).1
      ex_card_ok (some ex_dev3)).1.devices.map (fun d => (d.ptr, d.card))) =
      [(2, 1), (3, 1), (5, 4), (6, 4)] ∧
    ((create_card (create_card impl_init ex_card_ok (some ex_dev0)).1
      ex_card_ok (some ex_dev3)).1.cards.map (fun c => (c.ptr, c.devices.map (fun d => d.ptr)))) =
      [(1, [2, 3]), (4, [5, 6])] ∧
    (create_card (create_card impl_init ex_card_ok (some ex_dev0)).1
      ex_card_ok (some ex_dev3)).1.devices =
      (create_card (create_card impl_init ex_card_ok (some ex_dev0)).1
        ex_card_ok (some ex_dev3)).1.cards.flatMap (fun c => c.devices) :=
  ⟨reachable.scan _ _ _ (reachable.scan _ _ _ reachable.init), by decide, by decide,
   (C21_devices_partition _ (reachable.scan _ _ _ (reachable.scan _ _ _ reachable.init))).1⟩

/-! ## A failing re-query in the dispatcher (C22) -/

/-- C22: when the card query of the dispatcher (the re-query of the target card) fails, a
notification that resolved to a target card hands no event to the callback and does nothing
more.  For `add` and `change` the card `create_card` just created stays as `create_card`
left it; for `remove` the registry is the one the notification found, so the card and its
devices stay in it. -/
theorem C22_requery_failure (this : impl) (env : backend) (dev : Option udev_device)
    (herr : env.card_info_err < 0) :
    (∀ t, action_type ((udev_device_get_action dev).getD "change") = some t →
      t ≠ monitor_event.Removed →
      ∀ c, (create_card this env.create dev).2 = some c →
        impl_on_fd_events this env dev = some ((create_card this env.create dev).1, [])) ∧
    (action_type ((udev_device_get_action dev).getD "change") = some monitor_event.Removed →
      ∀ n c, check_card dev = some n → find_card this n = some c →
        impl_on_fd_events this env dev = some (this, []) ∧ find_card this n = some c ∧
        c ∈ this.cards) := by
  constructor
  · intro t ht hne c hc
    rw [on_fd_events_create this env dev t ht hne, hc]
    simp [herr]
  · intro ht n c hn hf
    refine ⟨?_, hf, List.mem_of_find?_eq_some hf⟩
    rw [on_fd_events_remove this env dev ht, hn]
    simp only [hf]
    simp [herr]

/-- C22 at an `add` for card 0 in the empty registry and at a `remove` for card 0 in the
registry that holds it, when the re-query fails with -19: no event, the new card stays, and
the card to remove stays. -/
theorem C22_requery_failure_witness :
    impl_on_fd_events impl_init { ex_env with card_info_err := -19 } (some ex_dev0) =
      some ((create_card impl_init ex_card_ok (some ex_dev0)).1, []) ∧
    (create_card impl_init ex_card_ok (some ex_dev0)).1.cards = [ex_card0] ∧
    impl_on_fd_events ex_one_card { ex_env with card_info_err := -19 } (some ex_dev0_remove) =
      some (ex_one_card, []) ∧
    find_card ex_one_card 0 = some ex_card0 :=
  ⟨(C22_requery_failure impl_init { ex_env with card_info_err := -19 } (some ex_dev0)
      (by decide)).1 monitor_event.Added (by decide) (by decide) ex_card0 (by decide),
   by decide,
   ((C22_requery_failure ex_one_card { ex_env with card_info_err := -19 }
      (some ex_dev0_remove) (by decide)).2 (by decide) 0 ex_card0 (by decide) (by decide)).1,
   by decide⟩

/-! ## The identity of a descriptor (C27) -/

/-- What `fill_item` stores in the fixed fields of an item: the id and the name are the same
string, the flags are 0 and the state is `SPA_MONITOR_ITEM_STATE_AVAILABLE`. -/
theorem fill_item_id (c : card) (d : device) (ci : snd_ctl_card_info)
    (pcm : Int × snd_pcm_info) (item : spa_monitor_item)
    (h : fill_item c d ci pcm = Except.ok item) :
    item.id = item.name ∧ item.flags = 0 ∧ item.state = SPA_MONITOR_ITEM_STATE_AVAILABLE ∧
    item.name =
      (first_nonempty
        [udev_device_get_property_value c.dev "ID_MODEL_FROM_DATABASE",
         udev_device_get_property_value c.dev "ID_MODEL_ENC",
         udev_device_get_property_value c.dev "ID_MODEL"]).getD "Unknown" := by
  unfold fill_item at h
  simp only [] at h
  split at h
  · exact absurd h (by simp)
  · split at h
    · exact absurd h (by simp)
    · injection h with h
      rw [← h]
      exact ⟨rfl, rfl, rfl, name_chain _ _ _⟩

/-- C27: in every item `fill_item` builds, the id equals the name, which is the resolved
model name of the card, the flags are 0 and the state is available; so the items built for
any two devices of the same card, whatever their PCM index, their direction and the answers
of the backend, carry the same id. -/
theorem C27_identity_is_name (c : card) (d1 d2 : device) (ci1 ci2 : snd_ctl_card_info)
    (pcm1 pcm2 : Int × snd_pcm_info) (item1 item2 : spa_monitor_item)
    (h1 : fill_item c d1 ci1 pcm1 = Except.ok item1)
    (h2 : fill_item c d2 ci2 pcm2 = Except.ok item2) :
    item1.id = item1.name ∧ item1.flags = 0 ∧
    item1.state = SPA_MONITOR_ITEM_STATE_AVAILABLE ∧
    item1.id =
      (first_nonempty
        [udev_device_get_property_value c.dev "ID_MODEL_FROM_DATABASE",
         udev_device_get_property_value c.dev "ID_MODEL_ENC",
         udev_device_get_property_value c.dev "ID_MODEL"]).getD "Unknown" ∧
    item1.id = item2.id := by
  obtain ⟨a1, a2, a3, a4⟩ := fill_item_id c d1 ci1 pcm1 item1 h1
  obtain ⟨b1, _, _, b4⟩ := fill_item_id c d2 ci2 pcm2 item2 h2
  exact ⟨a1, a2, a3, a1.trans a4, by rw [a1, b1, a4, b4]⟩

/-- C27 at the playback stream of PCM 0 and the capture stream of PCM 1 of card 0: both
items have the id `HDA`. -/
theorem C27_identity_is_name_witness :
    (∃ item2, fill_item ex_card0
        { ptr := 9, card := 1, num := 1, direction := 1, enabled := false } ex_card_info
        (0, ex_pcm_info) = Except.ok item2 ∧ item2.id = "HDA") ∧
    ex_item_playback0.id = "HDA" ∧ ex_item_playback0.klass = "Audio/Sink" ∧
    ex_item_playback0.id = ex_item_playback0.name ∧ ex_item_playback0.flags = 0 ∧
    ex_item_playback0.state = SPA_MONITOR_ITEM_STATE_AVAILABLE :=
  match fill_item_ok ex_card0 { ptr := 9, card := 1, num := 1, direction := 1, enabled := false }
      ex_card_info (0, ex_pcm_info) (by decide) (Or.inr rfl) with
  | ⟨item2, h2⟩ =>
    have h := C27_identity_is_name ex_card0 ex_playback0
      { ptr := 9, card := 1, num := 1, direction := 1, enabled := false } ex_card_info
      ex_card_info (0, ex_pcm_info) (0, ex_pcm_info) ex_item_playback0 item2
      ex_fill_item_playback0 h2
    ⟨⟨item2, h2, h.2.2.2.2.symm.trans (by decide)⟩,
     by decide, by decide, h.1, h.2.1, h.2.2.1⟩

/-! ## What `remove_card` leaves alone (C24) -/

/-- In a well-formed registry the devices of the flattened list at the addresses of the
devices of a card are the devices of that card. -/
theorem ptr_mem_iff_mem (this : impl) (hwf : wf this) (c : card) (hc : c ∈ this.cards)
    (d : device) (hd : d ∈ this.devices) :
    d.ptr ∈ c.devices.map (fun x => x.ptr) ↔ d ∈ c.devices := by
  constructor
  · intro h
    obtain ⟨d2, hd2, hp⟩ := List.mem_map.1 h
    have hd2f : d2 ∈ this.devices := by
      rw [hwf.flat, List.mem_flatMap]; exact ⟨c, hc, hd2⟩
    have heq : d2 = d := List.inj_on_of_nodup_map hwf.dev_ptr_nodup hd2f hd hp
    rw [← heq]; exact hd2
  · intro h
    exact List.mem_map_of_mem _ h

/-- Unlinking the devices of the card `c` does not touch the device list of another card. -/
theorem card_drop_devices_other (this : impl) (hwf : wf this) (c : card) (hc : c ∈ this.cards)
    (c2 : card) (hc2 : c2 ∈ this.cards) (hne : c2.ptr ≠ c.ptr) :
    card_drop_devices c.devices c2 = c2 := by
  have hall : drop_devices c.devices c2.devices = c2.devices := by
    unfold drop_devices
    rw [List.filter_eq_self]
    intro d hd
    have hdf : d ∈ this.devices := by
      rw [hwf.flat, List.mem_flatMap]; exact ⟨c2, hc2, hd⟩
    simp only [decide_eq_true_eq]
    intro hp
    have hdc := (ptr_mem_iff_mem this hwf c hc d hdf).1 hp
    exact hne (by rw [← hwf.backref c2 hc2 d hd, ← hwf.backref c hc d hdc])
  unfold card_drop_devices
  rw [hall]

/-- C24: in a well-formed registry (every reachable registry is one), `remove_card` on a
card `c` of the registry leaves the card list without `c`, the other cards in their order
and as they were, device lists included; it leaves the flattened list without the devices
of `c`, the other devices in their order; and it changes nothing else. -/
theorem C24_remove_card_frame (this : impl) (hwf : wf this) (c : card)
    (hc : c ∈ this.cards) :
    (remove_card this c).cards = this.cards.filter (fun x => decide (x ≠ c)) ∧
    (remove_card this c).cards = this.cards.erase c ∧
    (remove_card this c).devices = this.devices.filter (fun d => decide (d ∉ c.devices)) ∧
    (∀ c2 ∈ this.cards, c2 ≠ c → c2 ∈ (remove_card this c).cards) ∧
    (remove_card this c).devices =
      (remove_card this c).cards.flatMap (fun x => x.devices) ∧
    (remove_card this c).udev = this.udev ∧ (remove_card this c).index = this.index ∧
    (remove_card this c).current = this.current ∧ (remove_card this c).brk = this.brk := by
  have hnd : this.cards.Nodup := List.Nodup.of_map _ hwf.card_ptr_nodup
  have hcards : (remove_card this c).cards = this.cards.filter (fun x => decide (x ≠ c)) := by
    rw [remove_card_eq]
    simp only []
    rw [List.filter_map]
    have hf : List.filter ((fun x => decide (x.ptr ≠ c.ptr)) ∘ card_drop_devices c.devices)
        this.cards = List.filter (fun x => decide (x ≠ c)) this.cards := by
      apply List.filter_congr
      intro x hx
      simp only [Function.comp, card_drop_devices, decide_eq_decide]
      constructor
      · intro h he; exact h (by rw [he])
      · intro h he; exact h (List.inj_on_of_nodup_map hwf.card_ptr_nodup hx hc he)
    rw [hf]
    conv_rhs => rw [← List.map_id (List.filter (fun x => decide (x ≠ c)) this.cards)]
    apply List.map_congr_left
    intro x hx
    obtain ⟨hx1, hx2⟩ := List.mem_filter.1 hx
    have hne : x ≠ c := by simpa using hx2
    have hpne : x.ptr ≠ c.ptr := fun he =>
      hne (List.inj_on_of_nodup_map hwf.card_ptr_nodup hx1 hc he)
    rw [card_drop_devices_other this hwf c hc x hx1 hpne]; rfl
  have hdevs : (remove_card this c).devices =
      this.devices.filter (fun d => decide (d ∉ c.devices)) := by
    rw [remove_card_eq]
    simp only [drop_devices]
    apply List.filter_congr
    intro d hd
    simp only [decide_eq_decide]
    rw [ptr_mem_iff_mem this hwf c hc d hd]
  refine ⟨hcards, ?_, hdevs, ?_, (wf_remove_card this c hwf hc).flat, ?_, ?_, ?_, ?_⟩
  · rw [hcards, hnd.erase_eq_filter]
    apply List.filter_congr
    intro x _
    by_cases h : x = c <;> simp [h]
  · intro c2 hc2 hne
    rw [hcards, List.mem_filter]
    exact ⟨hc2, by simpa using hne⟩
  all_goals (rw [remove_card_eq])

/-- C24 at the registry holding card 0 and card 3 with two streams each, for the removal of
card 0: card 3 stays with its two devices, which are what is left of the flattened list. -/
theorem C24_remove_card_frame_witness :
    wf (create_card (create_card impl_init ex_card_ok (some ex_dev0)).1
      ex_card_ok (some ex_dev3)).1 ∧
    ex_card0 ∈ (create_card (create_card impl_init ex_card_ok (some ex_dev0)).1
      ex_card_ok (some ex_dev3)).1.cards ∧
    ((remove_card (create_card (create_card impl_init ex_card_ok (some ex_dev0)).1
      ex_card_ok (some ex_dev3)).1 ex_card0).cards.map
        (fun c => (c.ptr, c.num, c.devices.map (fun d => d.ptr)))) = [(4, 3, [5, 6])] ∧
    ((remove_card (create_card (create_card impl_init ex_card_ok (some ex_dev0)).1
      ex_card_ok (some ex_dev3)).1 ex_card0).devices.map (fun d => d.ptr)) = [5, 6] ∧
    (remove_card (create_card (create_card impl_init ex_card_ok (some ex_dev0)).1
      ex_card_ok (some ex_dev3)).1 ex_card0).cards =
      (create_card (create_card impl_init ex_card_ok (some ex_dev0)).1
        ex_card_ok (some ex_dev3)).1.cards.erase ex_card0 :=
  ⟨reachable_wf _ (reachable.scan _ _ _ (reachable.scan _ _ _ reachable.init)),
   by decide, by decide, by decide,
   (C24_remove_card_frame _
     (reachable_wf _ (reachable.scan _ _ _ (reachable.scan _ _ _ reachable.init)))
     ex_card0 (by decide)).2.1⟩

/-! ## A card whose setup failed stays linked (C26) -/

/-- The `while` loop of `create_card` leaves through `return NULL` exactly when the PCM
iteration fails. -/
theorem pcm_loop_flag (steps : List pcm_step) :
    ∀ (this : impl) (card : card),
      (pcm_loop this card steps).2.2 = !pcm_iteration_fails steps := by
  induction steps with
  | nil => intro this card; rfl
  | cons s rest ih =>
    intro this card
    unfold pcm_loop
    by_cases he : s.err < 0
    · rw [if_pos he]
      have hp : decide (0 ≤ s.err ∧ 0 ≤ s.dev_num) = false := by
        simp only [decide_eq_false_iff_not]; omega
      simp [pcm_iteration_fails, List.dropWhile, hp, he]
    · rw [if_neg he]
      by_cases hn : s.dev_num < 0
      · rw [if_pos hn]
        have hp : decide (0 ≤ s.err ∧ 0 ≤ s.dev_num) = false := by
          simp only [decide_eq_false_iff_not]; omega
        simp [pcm_iteration_fails, List.dropWhile, hp, he]
      · rw [if_neg hn]
        have hp : decide (0 ≤ s.err ∧ 0 ≤ s.dev_num) = true := by
          simp only [decide_eq_true_eq]; omega
        have hfl : pcm_iteration_fails (s :: rest) = pcm_iteration_fails rest := by
          simp [pcm_iteration_fails, List.dropWhile, hp]
        rw [hfl]
        simp only []
        generalize (if s.playback = 0 then
            create_device this card s.playback_alloc s.dev_num SND_PCM_STREAM_PLAYBACK
          else (this, card, 0)) = r1
        by_cases hneg : r1.2.2 < 0
        · rw [if_pos hneg]; exact ih _ _
        · rw [if_neg hneg]; exact ih _ _

/-- The dispatcher on `add` and `change` for an id some card of the registry has: nothing is
created and nothing is emitted. -/
theorem on_fd_events_known (this : impl) (env : backend) (dev : Option udev_device) (n : Int)
    (t : monitor_event)
    (ht : action_type ((udev_device_get_action dev).getD "change") = some t)
    (hne : t ≠ monitor_event.Removed)
    (hchk : check_card dev = some n) (hex : ∃ c ∈ this.cards, c.num = n) :
    create_card this env.create dev = (this, none) ∧
    impl_on_fd_events this env dev = some (this, []) := by
  obtain ⟨c, hc, hn⟩ := hex
  obtain ⟨c0, hf⟩ := find_card_isSome_of_mem this n c hc hn
  have hcc : create_card this env.create dev = (this, none) := by
    simp [create_card, hchk, hf]
  refine ⟨hcc, ?_⟩
  rw [on_fd_events_create this env dev t ht hne, hcc]

/-- The card appended to the card list is the one `find_card` finds for its id when no
earlier card has that id. -/
theorem find_card_append (this : impl) (c : card) (n : Int) (hnew : find_card this n = none)
    (hn : c.num = n) (s : impl) (hs : s.cards = this.cards ++ [c]) :
    find_card s n = some c := by
  unfold find_card at hnew ⊢
  rw [hs, List.find?_append, hnew]
  simp [hn]

/-- C26: `create_card` appends the new record to the card list before it opens the control
interface.  So when the id is free, the record is allocated, and the open, the card query
or the PCM iteration fails, `create_card` returns `NULL` and leaves the record linked, with
the devices created so far in its device list and in the flattened list; `find_card` finds
it for the id; and in that state, as in every state in which a card with the id is linked, a
notification with action `add` or `change` for the id creates nothing and emits nothing. -/
theorem C26_failed_card_stays (this : impl) (env : card_backend) (dev : Option udev_device)
    (n : Int) (hchk : check_card dev = some n) (hnew : find_card this n = none)
    (halloc : env.calloc = true)
    (hfail : env.open_err < 0 ∨ env.card_info_err < 0 ∨ pcm_iteration_fails env.pcm = true) :
    (create_card this env dev).2 = none ∧
    (∃ c : card,
      (create_card this env dev).1 =
        { this with cards := this.cards ++ [c], devices := this.devices ++ c.devices,
                    brk := this.brk + 1 + c.devices.length } ∧
      c.num = n ∧ c.ptr = this.brk ∧ (∀ d ∈ c.devices, d.card = c.ptr) ∧
      (env.open_err < 0 ∨ env.card_info_err < 0 → c.devices = []) ∧
      find_card (create_card this env dev).1 n = some c) ∧
    (∀ s : impl, (s = (create_card this env dev).1 ∨ ∃ c2 ∈ s.cards, c2.num = n) →
      ∀ (env2 : backend) (dev2 : Option udev_device) (t : monitor_event),
        check_card dev2 = some n →
        action_type ((udev_device_get_action dev2).getD "change") = some t →
        t ≠ monitor_event.Removed →
        create_card s env2.create dev2 = (s, none) ∧
        impl_on_fd_events s env2 dev2 = some (s, [])) := by
  have key : (create_card this env dev).2 = none ∧
      ∃ c : card,
        (create_card this env dev).1 =
          { this with cards := this.cards ++ [c], devices := this.devices ++ c.devices,
                      brk := this.brk + 1 + c.devices.length } ∧
        c.num = n ∧ c.ptr = this.brk ∧ (∀ d ∈ c.devices, d.card = c.ptr) ∧
        (env.open_err < 0 ∨ env.card_info_err < 0 → c.devices = []) := by
    by_cases ho : env.open_err < 0
    · have hcc : create_card this env dev =
          (link_card { this with brk := this.brk + 1 } (new_card this dev n none), none) := by
        simp [create_card, hchk, hnew, halloc, ho, new_card]
      rw [hcc]
      exact ⟨rfl, new_card this dev n none, by simp [link_card, new_card], rfl, rfl,
        by simp [new_card], fun _ => rfl⟩
    by_cases hi : env.card_info_err < 0
    · have hcc : create_card this env dev =
          (link_card { this with brk := this.brk + 1 }
            (new_card this dev n (some env.open_hndl)), none) := by
        simp [create_card, hchk, hnew, halloc, ho, hi, new_card]
      rw [hcc]
      exact ⟨rfl, new_card this dev n (some env.open_hndl), by simp [link_card, new_card],
        rfl, rfl, by simp [new_card], fun _ => rfl⟩
    have hp : pcm_iteration_fails env.pcm = true := by
      rcases hfail with h | h | h
      · exact absurd h ho
      · exact absurd h hi
      · exact h
    have hflag := pcm_loop_flag env.pcm { this with brk := this.brk + 1 }
      (new_card this dev n (some env.open_hndl))
    rw [hp] at hflag
    obtain ⟨ds, h1, h2, _, h4⟩ := pcm_loop_spec env.pcm { this with brk := this.brk + 1 }
      (new_card this dev n (some env.open_hndl))
    have hcc : create_card this env dev =
        (link_card (pcm_loop { this with brk := this.brk + 1 }
            (new_card this dev n (some env.open_hndl)) env.pcm).1
          (pcm_loop { this with brk := this.brk + 1 }
            (new_card this dev n (some env.open_hndl)) env.pcm).2.1, none) := by
      have hflag2 : (pcm_loop { this with brk := this.brk + 1 }
          { ptr := this.brk, dev := dev, num := n, name := "hw:" ++ fmt_u n,
            ctl_hndl := some env.open_hndl, devices := [] } env.pcm).2.2 = false := by
        simpa [new_card] using hflag
      simp [create_card, hchk, hnew, halloc, ho, hi, new_card, hflag2]
    rw [hcc]
    refine ⟨rfl, (pcm_loop { this with brk := this.brk + 1 }
            (new_card this dev n (some env.open_hndl)) env.pcm).2.1, ?_, ?_, ?_, ?_, ?_⟩
    · rw [h1, h2]
      simp [link_card, new_card, Nat.add_assoc]
    · rw [h2]; rfl
    · rw [h2]; rfl
    · rw [h2]
      intro d hd
      simp only [new_card, List.nil_append] at hd
      exact h4 d hd
    · intro h
      rcases h with h | h
      · exact absurd h ho
      · exact absurd h hi
  obtain ⟨hret, c, hst, hn, hptr, hback, hnil⟩ := key
  have hfind : find_card (create_card this env dev).1 n = some c :=
    find_card_append this c n hnew hn _ (by rw [hst])
  refine ⟨hret, ⟨c, hst, hn, hptr, hback, hnil, hfind⟩, ?_⟩
  intro s hs env2 dev2 t hchk2 ht hne
  have hex : ∃ c2 ∈ s.cards, c2.num = n := by
    rcases hs with h | h
    · exact ⟨c, by rw [h, hst]; simp, hn⟩
    · exact h
  exact on_fd_events_known s env2 dev2 n t ht hne hchk2 hex

/-- C26 at the registry holding card 0, for an `add` of card 3 whose PCM iteration fails after
PCM 0: `create_card` returns `NULL`, card 3 stays linked with the two devices of PCM 0, and a
second `add` for card 3 with a working backend changes nothing and emits nothing. -/
theorem C26_failed_card_stays_witness :
    check_card (some ex_dev3) = some 3 ∧ find_card ex_one_card 3 = none ∧
    pcm_iteration_fails ex_card_pcm_fails.pcm = true ∧
    (create_card ex_one_card ex_card_pcm_fails (some ex_dev3)).2 = none ∧
    ((create_card ex_one_card ex_card_pcm_fails (some ex_dev3)).1.cards.map
      (fun c => (c.num, c.devices.map (fun d => d.ptr)))) = [(0, [2, 3]), (3, [5, 6])] ∧
    (create_card ex_one_card ex_card_pcm_fails (some ex_dev3)).1.devices.map (fun d => d.ptr) =
      [2, 3, 5, 6] ∧
    impl_on_fd_events (create_card ex_one_card ex_card_pcm_fails (some ex_dev3)).1 ex_env
        (some ex_dev3) =
      some ((create_card ex_one_card ex_card_pcm_fails (some ex_dev3)).1, []) :=
  ⟨by decide, by decide, by decide,
   (C26_failed_card_stays ex_one_card ex_card_pcm_fails (some ex_dev3) 3 (by decide)
     (by decide) (by decide) (Or.inr (Or.inr (by decide)))).1,
   by decide, by decide,
   ((C26_failed_card_stays ex_one_card ex_card_pcm_fails (some ex_dev3) 3 (by decide)
     (by decide) (by decide) (Or.inr (Or.inr (by decide)))).2.2 _ (Or.inl rfl) ex_env
     (some ex_dev3) monitor_event.Added (by decide) (by decide) (by decide)).2⟩

/-! ## The cursor on the circular list (C23, C25) -/

/-- One step of the `while` loop from the node at position `p` of the ring leads to the node
at position `p + 1` modulo the number of nodes. -/
theorem spa_list_next_circular (l : List device) (hnd : (l.map (fun d => d.ptr)).Nodup)
    (p : Nat) (hp : p ≤ l.length) :
    spa_list_next l (spa_list_first (l.drop p)) =
      some (spa_list_first (l.drop ((p + 1) % (l.length + 1)))) := by
  by_cases hlt : p < l.length
  · rw [spa_list_first_drop _ _ hlt, Nat.mod_eq_of_lt (by omega)]
    simp only [spa_list_next]
    exact node_next_getElem _ hnd _ hlt
  · have he : p = l.length := by omega
    rw [he, spa_list_first_drop_length, Nat.mod_self]
    rfl

/-- From the node at position `p` of the ring, `m` steps of the `while` loop lead to the node
at position `p + m` modulo the number of nodes. -/
theorem advance_circular (l : List device) (hnd : (l.map (fun d => d.ptr)).Nodup) (m : Nat) :
    ∀ (p idx : Nat), p ≤ l.length →
      advance l m (spa_list_first (l.drop p)) idx =
        some (spa_list_first (l.drop ((p + m) % (l.length + 1))), idx + m) := by
  induction m with
  | zero =>
    intro p idx hp
    rw [Nat.add_zero, Nat.mod_eq_of_lt (by omega)]
    rfl
  | succ m ih =>
    intro p idx hp
    simp only [advance]
    rw [spa_list_next_circular l hnd p hp]
    simp only []
    have hle : (p + 1) % (l.length + 1) ≤ l.length :=
      Nat.le_of_lt_succ (Nat.mod_lt _ (by omega))
    rw [ih _ (idx + 1) hle, Nat.mod_add_mod,
      show p + 1 + m = p + (m + 1) by omega, show idx + 1 + m = idx + (m + 1) by omega]

/-- The reset and the `while` loop of `enum_items` bring the cursor to position `i` modulo the
number of nodes of the ring when the call asks for position 0 or finds the cursor on the
node its counter names. -/
theorem advance_reach (this : impl) (i : Nat) (hnd : (this.devices.map (fun d => d.ptr)).Nodup)
    (hr : i = 0 ∨ cursor_circular this) :
    advance
        (if i = 0 ∨ this.index > i then
          { this with current := spa_list_first this.devices, index := 0 } else this).devices
        (i - (if i = 0 ∨ this.index > i then
          { this with current := spa_list_first this.devices, index := 0 } else this).index)
        (if i = 0 ∨ this.index > i then
          { this with current := spa_list_first this.devices, index := 0 } else this).current
        (if i = 0 ∨ this.index > i then
          { this with current := spa_list_first this.devices, index := 0 } else this).index =
      some (spa_list_first (this.devices.drop (i % (this.devices.length + 1))), i) := by
  by_cases hcond : i = 0 ∨ this.index > i
  · rw [if_pos hcond]
    have hadv := advance_circular this.devices hnd i 0 0 (by omega)
    simpa using hadv
  · rw [if_neg hcond]
    have hs : cursor_circular this := by
      rcases hr with h | h
      · exact absurd (Or.inl h) hcond
      · exact h
    have hle : this.index ≤ i := by omega
    have hadv := advance_circular this.devices hnd (i - this.index)
      (this.index % (this.devices.length + 1)) this.index
      (Nat.le_of_lt_succ (Nat.mod_lt _ (by omega)))
    unfold cursor_circular at hs
    rw [hs, hadv, Nat.mod_add_mod, show this.index + (i - this.index) = i by omega]

/-- What one `enum_items` call does on a static well-formed registry, for position 0 or with
the cursor on the node its counter names: it brings the cursor to position `i` modulo the
number of nodes of the ring and sets `this->index` to `i`; on the list head it returns 0; on
a device it returns the error of a failing card query, and otherwise 1 with the descriptor
of the device and the index `i + 1` as a `uint32_t`. -/
theorem enum_items_circular (this : impl) (env : backend) (i : Nat) (hwf : wf this)
    (hudev : this.udev = true) (hr : i = 0 ∨ cursor_circular this) :
    impl_monitor_enum_items this env i =
      match this.devices[i % (this.devices.length + 1)]? with
      | none =>
        some ({ this with index := i, current := cursor.head },
              { res := 0, index := i, item := none })
      | some d =>
        if env.card_info_err < 0 then
          some ({ this with index := i, current := cursor.node d.ptr },
                { res := env.card_info_err, index := i, item := none })
        else
          some ({ this with index := i, current := cursor.node d.ptr },
                { res := 1, index := (i + 1) % 4294967296, item := device_item this env d }) := by
  have hopen : impl_udev_open this env = this := by simp [impl_udev_open, hudev]
  have hadv := advance_reach this i hwf.dev_ptr_nodup hr
  have hdev : (if i = 0 ∨ this.index > i then
      { this with current := spa_list_first this.devices, index := 0 } else this).devices =
      this.devices := by split <;> rfl
  have hcards : (if i = 0 ∨ this.index > i then
      { this with current := spa_list_first this.devices, index := 0 } else this).cards =
      this.cards := by split <;> rfl
  have hple : i % (this.devices.length + 1) ≤ this.devices.length :=
    Nat.le_of_lt_succ (Nat.mod_lt _ (by omega))
  unfold impl_monitor_enum_items
  simp only [hopen]
  rw [hadv]
  by_cases hk : i % (this.devices.length + 1) < this.devices.length
  · have hmem : this.devices[i % (this.devices.length + 1)] ∈ this.devices :=
      List.getElem_mem hk
    obtain ⟨c, hc⟩ := deref_card_of_device this hwf _ hmem
    have hfind := find_device_of_mem this.devices _ hwf.dev_ptr_nodup hmem
    rw [List.getElem?_eq_getElem hk]
    simp only [spa_list_first_drop _ _ hk]
    simp only [hdev, hfind, deref_card, hcards]
    rw [show List.find? (fun c => decide (c.ptr =
        (this.devices[i % (this.devices.length + 1)]).card)) this.cards = some c from hc]
    by_cases hq : env.card_info_err < 0
    · simp only [if_pos hq]
      congr 2
      split <;> rfl
    · simp only [if_neg hq, device_item, hc, Option.bind]
      congr 2
      split <;> rfl
  · have he : i % (this.devices.length + 1) = this.devices.length := by omega
    rw [he, List.getElem?_eq_none (Nat.le_refl _)]
    simp only [spa_list_first_drop_length]
    congr 2
    split <;> rfl

/-- C23: on a static well-formed registry, for a call with index `i` that asks for position 0
or finds the cursor on the node its counter names, and whose cursor comes to stand on a
device `d` (the device at position `i` modulo the number of nodes of the ring): when the
card query for the card of `d` fails, `enum_items` returns the negative value of the query,
hands back no item and leaves the caller's index at `i`. -/
theorem C23_query_failure_keeps_index (this : impl) (env : backend) (i : Nat) (hwf : wf this)
    (hudev : this.udev = true) (hr : i = 0 ∨ cursor_circular this) (d : device)
    (hd : this.devices[i % (this.devices.length + 1)]? = some d)
    (herr : env.card_info_err < 0) :
    impl_monitor_enum_items this env i =
      some ({ this with index := i, current := cursor.node d.ptr },
            { res := env.card_info_err, index := i, item := none }) := by
  rw [enum_items_circular this env i hwf hudev hr, hd]
  simp only [if_pos herr]

/-- C23 at the registry holding card 0 with two devices, after a call with index 0, for a
call with index 1 whose card query fails with -19. -/
theorem C23_query_failure_keeps_index_witness :
    wf { ex_one_card with index := 0, current := cursor.node 2 } ∧
    cursor_circular { ex_one_card with index := 0, current := cursor.node 2 } ∧
    impl_monitor_enum_items { ex_one_card with index := 0, current := cursor.node 2 }
        { ex_env with card_info_err := -19 } 1 =
      some ({ ex_one_card with index := 1, current := cursor.node 3 },
            { res := -19, index := 1, item := none }) :=
  ⟨by constructor <;> decide, by unfold cursor_circular; decide,
   C23_query_failure_keeps_index { ex_one_card with index := 0, current := cursor.node 2 }
     { ex_env with card_info_err := -19 } 1 (by constructor <;> decide) (by decide)
     (Or.inr (by unfold cursor_circular; decide))
     { ptr := 3, card := 1, num := 0, direction := 1, enabled := false } (by decide)
     (by decide)⟩

/-- A call with index 0 leaves the cursor on the first node of the ring with the counter 0,
whatever it returns. -/
theorem enum_items_zero_state (s0 : impl) (env0 : backend) (this : impl) (r0 : enum_result)
    (hwf : wf s0) (hudev : s0.udev = true)
    (h0 : impl_monitor_enum_items s0 env0 0 = some (this, r0)) :
    this = { s0 with index := 0, current := spa_list_first s0.devices } := by
  rw [enum_items_circular s0 env0 0 hwf hudev (Or.inl rfl), Nat.zero_mod] at h0
  cases hl : s0.devices with
  | nil =>
    simp only [hl, List.getElem?_nil, Option.some.injEq, Prod.mk.injEq] at h0
    rw [← h0.1]; rfl
  | cons d t =>
    simp only [hl, List.getElem?_cons_zero] at h0
    split at h0
    · simp only [Option.some.injEq, Prod.mk.injEq] at h0
      rw [← h0.1]; rfl
    · simp only [Option.some.injEq, Prod.mk.injEq] at h0
      rw [← h0.1]; rfl

/-- C25, as stated, fails at the largest index: in the registry with 2 devices, with the
cursor as a call with index 0 leaves it, a call with index 4294967295 walks to position
4294967295 mod 3 = 0, returns 1 with the first device, and writes back 0, the index being a
`uint32_t`; it does not write back 4294967296. -/
theorem C25_circular_walk_counterexample :
    (impl_monitor_enum_items ex_one_card ex_env 0).map (fun r => r.1) =
      some { ex_one_card with index := 0, current := cursor.node 2 } ∧
    4294967295 % (ex_one_card.devices.length + 1) = 0 ∧
    impl_monitor_enum_items { ex_one_card with index := 0, current := cursor.node 2 } ex_env
        4294967295 =
      some ({ ex_one_card with index := 4294967295, current := cursor.node 2 },
            { res := 1, index := 0,
              item := device_item ex_one_card ex_env
                { ptr := 2, card := 1, num := 0, direction := 0, enabled := false } }) ∧
    (0 : Nat) ≠ 4294967295 + 1 := by
  refine ⟨by decide, by decide, ?_, by decide⟩
  rw [enum_items_circular { ex_one_card with index := 0, current := cursor.node 2 } ex_env
    4294967295 (by constructor <;> decide) (by decide)
    (Or.inr (by unfold cursor_circular; decide))]
  rfl

/-- C25, amended: on a static well-formed registry with `n` devices, with the cursor as a
call with index 0 leaves it, a call with index `i` brings the cursor to position
`i mod (n + 1)` of the ring of the `n` devices and the list head, and leaves `this->index`
at `i`.  It returns 0, the end of the sequence, exactly when `i mod (n + 1) = n`, and then
leaves the caller's index at `i`; on a device it returns 1 with the descriptor of the device
at position `i mod (n + 1)` and writes back `i + 1` modulo 2^32 when the card query succeeds,
and the error of the query otherwise. -/
theorem C25_circular_walk (s0 : impl) (env0 env : backend) (this : impl) (r0 : enum_result)
    (i : Nat) (hwf : wf s0) (hudev : s0.udev = true)
    (h0 : impl_monitor_enum_items s0 env0 0 = some (this, r0)) :
    this = { s0 with index := 0, current := spa_list_first s0.devices } ∧
    ∃ (next : impl) (r : enum_result),
      impl_monitor_enum_items this env i = some (next, r) ∧
      next =
        { s0 with index := i,
                  current := spa_list_first
                    (s0.devices.drop (i % (s0.devices.length + 1))) } ∧
      (r.res = 0 ↔ i % (s0.devices.length + 1) = s0.devices.length) ∧
      (i % (s0.devices.length + 1) = s0.devices.length →
        r = { res := 0, index := i, item := none }) ∧
      (∀ d, s0.devices[i % (s0.devices.length + 1)]? = some d →
        i % (s0.devices.length + 1) < s0.devices.length ∧
        (0 ≤ env.card_info_err →
          r = { res := 1, index := (i + 1) % 4294967296, item := device_item s0 env d } ∧
          (i + 1 < 4294967296 → r.index = i + 1)) ∧
        (env.card_info_err < 0 →
          r = { res := env.card_info_err, index := i, item := none })) := by
  have hthis := enum_items_zero_state s0 env0 this r0 hwf hudev h0
  refine ⟨hthis, ?_⟩
  have hwf1 : wf this := by rw [hthis]; exact @wf_congr s0 _ rfl rfl rfl hwf
  have hudev1 : this.udev = true := by rw [hthis]; exact hudev
  have hdevs : this.devices = s0.devices := by rw [hthis]
  have hcirc : cursor_circular this := by
    rw [hthis]
    unfold cursor_circular
    simp
  have hstep := enum_items_circular this env i hwf1 hudev1 (Or.inr hcirc)
  rw [hdevs] at hstep
  have hple : i % (s0.devices.length + 1) ≤ s0.devices.length :=
    Nat.le_of_lt_succ (Nat.mod_lt _ (by omega))
  by_cases hk : i % (s0.devices.length + 1) < s0.devices.length
  · have hget : s0.devices[i % (s0.devices.length + 1)]? =
        some (s0.devices[i % (s0.devices.length + 1)]) := List.getElem?_eq_getElem hk
    have hitem : device_item this env (s0.devices[i % (s0.devices.length + 1)]) =
        device_item s0 env (s0.devices[i % (s0.devices.length + 1)]) :=
      device_item_congr s0 this env (by rw [hthis]) _
    by_cases hq : env.card_info_err < 0
    · simp only [hget, if_pos hq] at hstep
      refine ⟨_, _, hstep, ?_, ?_, ?_, ?_⟩
      · rw [hthis, spa_list_first_drop _ _ hk]
      · simp only []
        constructor
        · intro h; omega
        · intro h; omega
      · intro h; omega
      · intro d hd
        rw [hget] at hd
        injection hd with hd
        exact ⟨hk, fun h => absurd hq (not_lt.2 h), fun _ => rfl⟩
    · simp only [hget, if_neg hq] at hstep
      refine ⟨_, _, hstep, ?_, ?_, ?_, ?_⟩
      · rw [hthis, spa_list_first_drop _ _ hk]
      · simp only []
        constructor
        · intro h; exact absurd h (by decide)
        · intro h; omega
      · intro h; omega
      · intro d hd
        rw [hget] at hd
        injection hd with hd
        refine ⟨hk, fun _ => ⟨?_, fun hlt => Nat.mod_eq_of_lt hlt⟩, fun h => absurd h hq⟩
        rw [hitem, hd]
  · have he : i % (s0.devices.length + 1) = s0.devices.length := by omega
    rw [he, List.getElem?_eq_none (Nat.le_refl _)] at hstep
    simp only [] at hstep
    refine ⟨_, _, hstep, ?_, ?_, ?_, ?_⟩
    · rw [hthis, he, spa_list_first_drop_length]
    · simp only [he]
    · intro _; rfl
    · intro d hd
      rw [he, List.getElem?_eq_none (Nat.le_refl _)] at hd
      exact absurd hd (by simp)

/-- C25, amended, at the registry holding card 0 with two devices, after a call with index 0:
a call with index 5 comes to stand on the list head (5 mod 3 = 2) and returns the end of the
sequence, and a call with index 3 hands back the first device and writes back 4. -/
theorem C25_circular_walk_witness :
    wf ex_one_card ∧ ex_one_card.udev = true ∧
    impl_monitor_enum_items ex_one_card ex_env 0 =
      some ({ ex_one_card with index := 0, current := cursor.node 2 },
            { res := 1, index := 1,
              item := device_item ex_one_card ex_env
                { ptr := 2, card := 1, num := 0, direction := 0, enabled := false } }) ∧
    (∃ (next : impl) (r : enum_result),
      impl_monitor_enum_items { ex_one_card with index := 0, current := cursor.node 2 } ex_env
        5 = some (next, r) ∧
      next = { ex_one_card with index := 5, current := cursor.head } ∧
      r = { res := 0, index := 5, item := none }) ∧
    impl_monitor_enum_items { ex_one_card with index := 0, current := cursor.node 2 } ex_env 3 =
      some ({ ex_one_card with index := 3, current := cursor.node 2 },
            { res := 1, index := 4,
              item := device_item ex_one_card ex_env
                { ptr := 2, card := 1, num := 0, direction := 0, enabled := false } }) :=
  ⟨by constructor <;> decide, by decide, by decide,
   match (C25_circular_walk ex_one_card ex_env ex_env
      { ex_one_card with index := 0, current := cursor.node 2 }
      { res := 1, index := 1,
        item := device_item ex_one_card ex_env
          { ptr := 2, card := 1, num := 0, direction := 0, enabled := false } }
      5 (by constructor <;> decide) (by decide) (by decide)).2 with
   | ⟨next, r, h1, h2, _, h4, _⟩ => ⟨next, r, h1, h2, h4 (by decide)⟩,
   by decide⟩

/-! ## A card id that is not a number (C28) -/

theorem digits_value_foldl (s : List Char) :
    ∀ acc : Nat, digits_value s acc =
      (s.takeWhile Char.isDigit).foldl (fun a c => a * 10 + (c.toNat - 48)) acc := by
  induction s with
  | nil => intro acc; rfl
  | cons c cs ih =>
    intro acc
    cases hd : c.isDigit with
    | true => simp [digits_value, List.takeWhile, hd, ih]
    | false => simp [digits_value, List.takeWhile, hd]

/-- `strtol` reads the leading optionally-signed decimal prefix of what follows the white
space, and saturates. -/
theorem strtol_eq (s : List Char) :
    strtol s =
      if signed_decimal_value (s.dropWhile isspace) > 9223372036854775807 then
        9223372036854775807
      else if signed_decimal_value (s.dropWhile isspace) < -9223372036854775808 then
        -9223372036854775808
      else signed_decimal_value (s.dropWhile isspace) := by
  have hv : (match s.dropWhile isspace with
      | '-' :: r => - (digits_value r 0 : Int)
      | '+' :: r => (digits_value r 0 : Int)
      | r => (digits_value r 0 : Int)) = signed_decimal_value (s.dropWhile isspace) := by
    unfold signed_decimal_value
    split <;> simp [digits_value_foldl, decimal_value]
  unfold strtol
  simp only [hv]

/-- `atoi` gives the value of the leading optionally-signed decimal prefix of what follows
the white space, when that value is in the range of an `int`. -/
theorem atoi_eq (s : List Char)
    (hlo : -2147483648 ≤ signed_decimal_value (s.dropWhile isspace))
    (hhi : signed_decimal_value (s.dropWhile isspace) < 2147483648) :
    atoi s = signed_decimal_value (s.dropWhile isspace) := by
  unfold atoi
  rw [strtol_eq]
  generalize signed_decimal_value (s.dropWhile isspace) = v at hlo hhi
  rw [if_neg (by omega), if_neg (by omega)]
  unfold int_of_long
  simp only []
  split <;> omega

/-- When no digit follows the optional sign, the value of the prefix is 0. -/
theorem signed_decimal_value_zero (s : List Char)
    (h : (after_sign s).takeWhile Char.isDigit = []) : signed_decimal_value s = 0 := by
  unfold signed_decimal_value
  split
  · rename_i r
    have ha : after_sign ('-' :: r) = r := rfl
    rw [ha] at h
    rw [h]; rfl
  · rename_i r
    have ha : after_sign ('+' :: r) = r := rfl
    rw [ha] at h
    rw [h]; rfl
  · rename_i r h1 h2
    have ha : after_sign s = s := by
      unfold after_sign
      split
      · exact absurd rfl (h1 _)
      · exact absurd rfl (h2 _)
      · rfl
    rw [ha] at h
    rw [h]; rfl

/-- The text `path_get_card_id` returns for a path whose last component is `card` followed
by a text that is not empty. -/
theorem path_get_card_id_suffix (p suffix : String) (hne : suffix ≠ "")
    (hslash : '/' ∉ suffix.toList) :
    path_get_card_id (some (p ++ "/card" ++ suffix)) = some suffix := by
  have hlist : (p ++ "/card" ++ suffix).toList =
      p.toList ++ ('/' :: ('c' :: 'a' :: 'r' :: 'd' :: suffix.toList)) := by
    simp [String.toList, String.data_append]
  have hno : '/' ∉ ('c' :: 'a' :: 'r' :: 'd' :: suffix.toList) := by
    intro hmem
    simp only [List.mem_cons] at hmem
    rcases hmem with h | h | h | h | h
    · exact absurd h (by decide)
    · exact absurd h (by decide)
    · exact absurd h (by decide)
    · exact absurd h (by decide)
    · exact hslash h
  have hpos : suffix.toList ≠ [] := by
    intro h
    apply hne
    cases suffix with
    | mk data => simp only [String.toList] at h; rw [h]
  simp only [path_get_card_id, hlist, strrchr_append _ _ _ hno]
  cases hs : suffix.toList with
  | nil => exact absurd hs hpos
  | cons c rest =>
    have hlen : ¬ (('/' :: 'c' :: 'a' :: 'r' :: 'd' :: c :: rest).length ≤ 5 ∨
        ('/' :: 'c' :: 'a' :: 'r' :: 'd' :: c :: rest).take 5 ≠ "/card".toList) := by
      simp
    rw [if_neg hlen]
    simp only [List.drop_succ_cons, List.drop_zero]
    rw [← hs]
    rfl

/-- C28, as stated, fails in two ways.  The text after `card` in `/devices/x/card 7` starts
with a blank, so it has no leading optionally-signed decimal prefix, yet the id is 7, not 0:
`atoi` skips white space first.  And the text after `card` in `/devices/x/card4294967296`
is a decimal number, yet the id is 0: `atoi` returns an `int`. -/
theorem C28_nonnumeric_suffix_counterexample :
    ex_dev_blank.devpath = some "/devices/x/card 7" ∧
    (after_sign " 7".toList).takeWhile Char.isDigit = [] ∧
    signed_decimal_value " 7".toList = 0 ∧
    check_card (some ex_dev_blank) = some 7 ∧
    ex_dev_big.devpath = some "/devices/x/card4294967296" ∧
    signed_decimal_value "4294967296".toList = 4294967296 ∧
    check_card (some ex_dev_big) = some 0 := by
  refine ⟨by decide, by decide, by decide, by decide, by decide, by decide, by decide⟩

/-- C28, amended: for every device without `PULSE_IGNORE` and with a `SOUND_CLASS` other than
`modem` whose device path ends in a component `card` followed by a text that is not empty,
the card-id resolution succeeds, with what `atoi` reads in that text.  The id is the value
of the leading optionally-signed decimal prefix of the text that follows the leading white
space, when that value is in the range of an `int`; so it is 0 when no digit follows the
white space and the optional sign. -/
theorem C28_nonnumeric_suffix (d : udev_device) (p suffix : String)
    (hpath : d.devpath = some (p ++ "/card" ++ suffix)) (hne : suffix ≠ "")
    (hslash : '/' ∉ suffix.toList)
    (hign : d.properties.lookup "PULSE_IGNORE" = none)
    (hcls : d.properties.lookup "SOUND_CLASS" ≠ some "modem") :
    check_card (some d) = some (atoi suffix.toList) ∧
    (-2147483648 ≤ signed_decimal_value (suffix.toList.dropWhile isspace) →
      signed_decimal_value (suffix.toList.dropWhile isspace) < 2147483648 →
      check_card (some d) = some (signed_decimal_value (suffix.toList.dropWhile isspace))) ∧
    ((after_sign (suffix.toList.dropWhile isspace)).takeWhile Char.isDigit = [] →
      check_card (some d) = some 0) := by
  have h1 : udev_device_get_property_value (some d) "PULSE_IGNORE" = none := hign
  have h2 : ¬ (udev_device_get_property_value (some d) "SOUND_CLASS" = some "modem") := hcls
  have h3 : udev_device_get_devpath (some d) = some (p ++ "/card" ++ suffix) := hpath
  have hcc : check_card (some d) = some (atoi suffix.toList) := by
    unfold check_card
    rw [h1, if_neg h2, h3]
    simp only [Option.isSome_none, Bool.false_eq_true, if_false,
      path_get_card_id_suffix p suffix hne hslash]
  refine ⟨hcc, ?_, ?_⟩
  · intro hlo hhi
    rw [hcc, atoi_eq _ hlo hhi]
  · intro hnone
    have hz := signed_decimal_value_zero _ hnone
    rw [hcc, atoi_eq _ (by rw [hz]; decide) (by rw [hz]; decide), hz]

/-- C28, amended, at the device path `/devices/x/cardX`: the id is 0, as for
`/devices/x/card0`. -/
theorem C28_nonnumeric_suffix_witness :
    ex_dev_cardX.devpath = some ("/devices/x" ++ "/card" ++ "X") ∧
    ex_dev_cardX.devpath = some "/devices/x/cardX" ∧
    (after_sign ("X".toList.dropWhile isspace)).takeWhile Char.isDigit = [] ∧
    check_card (some ex_dev_cardX) = some 0 ∧
    check_card (some { ex_dev_cardX with devpath := some "/devices/x/card0" }) = some 0 ∧
    check_card (some { ex_dev_cardX with devpath := some "/devices/x/card-12x" }) =
      some (-12) :=
  ⟨by decide, by decide, by decide,
   (C28_nonnumeric_suffix ex_dev_cardX "/devices/x" "X" (by decide) (by decide) (by decide)
     (by decide) (by decide)).2.2 (by decide),
   by decide, by decide⟩

end AlsaMonitor

/-! # The io slots of the volume node (C29) -/

namespace Volume

theorem scan_support_out_port (support : List SpaSupport) :
    ∀ this : SpaVolume, (scan_support this support).out_port = this.out_port := by
  induction support with
  | nil => intro this; rfl
  | cons s rest ih =>
    intro this
    unfold scan_support
    split
    · rw [ih]
    · split
      · rw [ih]
      · rw [ih]

theorem volume_init_out_io (this : SpaVolume) (support : List SpaSupport) (node_id : Nat) :
    (volume_init this support node_id).1.out_port.io = this.out_port.io := by
  unfold volume_init
  simp only []
  split
  · simp only [scan_support_out_port]
  · simp only [scan_support_out_port]

theorem process_input_out_io (this : SpaVolume) (mem : List (Nat × SpaPortInput))
    (next : SpaVolume) (mem1 : List (Nat × SpaPortInput)) (res : SpaResult)
    (h : spa_volume_node_process_input this mem = some (next, mem1, res)) :
    next.out_port.io = this.out_port.io := by
  unfold spa_volume_node_process_input at h
  split at h
  · simp only [Option.some.injEq, Prod.mk.injEq] at h; rw [← h.1]
  · split at h
    · simp only [Option.some.injEq, Prod.mk.injEq] at h; rw [← h.1]
    · split at h
      · exact absurd h (by simp)
      · split at h
        · simp only [Option.some.injEq, Prod.mk.injEq] at h; rw [← h.1]
        · split at h
          · simp only [Option.some.injEq, Prod.mk.injEq] at h; rw [← h.1]
          · split at h
            · exact absurd h (by simp)
            · simp only [] at h
              split at h
              · exact absurd h (by simp)
              · simp only [Option.some.injEq, Prod.mk.injEq] at h; rw [← h.1]

theorem process_output_out_io (this : SpaVolume) (mem : List (Nat × SpaPortInput))
    (next : SpaVolume) (mem1 : List (Nat × SpaPortInput)) (res : SpaResult)
    (h : spa_volume_node_process_output this mem = some (next, mem1, res)) :
    next.out_port.io = this.out_port.io := by
  unfold spa_volume_node_process_output at h
  split at h
  · simp only [Option.some.injEq, Prod.mk.injEq] at h; rw [← h.1]
  · split at h
    · simp only [Option.some.injEq, Prod.mk.injEq] at h; rw [← h.1]
    · split at h
      · simp only [Option.some.injEq, Prod.mk.injEq] at h; rw [← h.1]
      · split at h
        · simp only [Option.some.injEq, Prod.mk.injEq] at h; rw [← h.1]
        · simp [find_free_buffer] at h

/-- No operation of the node writes the io slot of the output port. -/
theorem reachable_out_io (this : SpaVolume) (h : reachable this) : this.out_port.io = none := by
  induction h with
  | init handle support node_id h0 => rw [volume_init_out_io]; exact h0
  | get_props this _ ih => exact ih
  | set_props this props _ ih =>
    unfold spa_volume_node_set_props
    split <;> exact ih
  | send_command this type _ ih =>
    unfold spa_volume_node_send_command
    split <;> exact ih
  | set_event_callback this event user_data _ ih => exact ih
  | port_enum_formats this direction port_id index init _ ih =>
    unfold spa_volume_node_port_enum_formats
    split
    · exact ih
    · split <;> exact ih
  | port_set_format this direction port_id format _ ih =>
    unfold spa_volume_node_port_set_format
    split
    · exact ih
    · split
      · exact ih
      · simp only []
        split
        · exact ih
        · split <;> exact ih
  | port_set_input this port_id input _ ih =>
    unfold spa_volume_node_port_set_input
    split <;> exact ih
  | port_set_output this port_id output _ ih =>
    unfold spa_volume_node_port_set_output
    split <;> exact ih
  | process_input this mem next mem1 res _ hstep ih =>
    rw [process_input_out_io this mem next mem1 res hstep]; exact ih
  | process_output this mem next mem1 res _ hstep ih =>
    rw [process_output_out_io this mem next mem1 res hstep]; exact ih

/-- With no record set for the output port, `process_input` returns `SPA_RESULT_ERROR` and
writes nothing. -/
theorem process_input_no_output (this : SpaVolume) (mem : List (Nat × SpaPortInput))
    (h : this.out_port.io = none) :
    spa_volume_node_process_input this mem = some (this, mem, SpaResult.SPA_RESULT_ERROR) := by
  unfold spa_volume_node_process_input
  rw [h]
  split <;> rfl

/-- C29: `spa_volume_node_port_set_output` on port 0 stores its argument in the io slot of
the input port and leaves the io slot of the output port as it was.  So in every state of
a node, reached from `volume_init` by the operations of the node, the io slot of the output
port is `NULL`, and `process_input` returns `SPA_RESULT_ERROR` with the state of the node
and the records of the host, their status fields included, as they were. -/
theorem C29_set_output_writes_input_slot :
    (∀ (this : SpaVolume) (output : Option Nat),
      spa_volume_node_port_set_output this 0 output =
        ({ this with in_port := { this.in_port with io := output } },
         SpaResult.SPA_RESULT_OK) ∧
      (spa_volume_node_port_set_output this 0 output).1.in_port.io = output ∧
      (spa_volume_node_port_set_output this 0 output).1.out_port.io = this.out_port.io) ∧
    (∀ this : SpaVolume, reachable this →
      this.out_port.io = none ∧
      ∀ mem : List (Nat × SpaPortInput),
        spa_volume_node_process_input this mem =
          some (this, mem, SpaResult.SPA_RESULT_ERROR)) := by
  constructor
  · intro this output
    exact ⟨rfl, rfl, rfl⟩
  · intro this h
    exact ⟨reachable_out_io this h,
      fun mem => process_input_no_output this mem (reachable_out_io this h)⟩

/-- C29 at a node with a format on both ports, after `port_set_input` with the record at
address 100 and `port_set_output` with the record at address 200: the input slot holds 200,
the output slot is `NULL`, and `process_input` returns `SPA_RESULT_ERROR` and leaves both
records alone. -/
theorem C29_set_output_writes_input_slot_witness :
    reachable ex_node ∧ ex_node.in_port.io = some 200 ∧ ex_node.out_port.io = none ∧
    ex_node.in_port.have_format = true ∧ ex_node.out_port.have_format = true ∧
    spa_volume_node_process_input ex_node ex_mem =
      some (ex_node, ex_mem, SpaResult.SPA_RESULT_ERROR) :=
  ⟨reachable.port_set_output _ 0 (some 200)
     (reachable.port_set_input _ 0 (some 100)
       (reachable.port_set_format _ SpaDirection.SPA_DIRECTION_OUTPUT 0 (some (9, none))
         (reachable.port_set_format _ SpaDirection.SPA_DIRECTION_INPUT 0 (some (9, none))
           (reachable.init zeroed [{ uri := support_uri.SPA_ID_MAP_URI, data := some 1 }] 5
             rfl)))),
   by decide, by decide, by decide, by decide,
   (C29_set_output_writes_input_slot.2 ex_node
     (reachable.port_set_output _ 0 (some 200)
       (reachable.port_set_input _ 0 (some 100)
         (reachable.port_set_format _ SpaDirection.SPA_DIRECTION_OUTPUT 0 (some (9, none))
           (reachable.port_set_format _ SpaDirection.SPA_DIRECTION_INPUT 0 (some (9, none))
             (reachable.init zeroed [{ uri := support_uri.SPA_ID_MAP_URI, data := some 1 }] 5
               rfl)))))).2 ex_mem⟩

end Volume
